import Mathlib

/-!
# piam-anc: the resource model and the network-add engine of `models.go`

A shallow embedding of `src/models.go`.

* Go strings are Lean `String`s.  `strings.Contains` is the infix test on the
  character sequences and `<` on strings is the lexicographic order (Go compares
  bytes; on UTF-8 text this is the order of the code points, which is the order
  of `String`).
* The two backend clients (`sqladmin`, `container`) are external.  They are
  records of state-passing functions over an arbitrary backend state `σ`; every
  call the code issues is appended to a log, so that "which calls were made, in
  which order, with which request" is part of the result.
* `time.Duration` is a number of nanoseconds.  The polling loops keep the time
  elapsed since their context was created; a status query takes the time the
  backend says it takes.
* Errors built with `fmt.Errorf` are values of `GoError`: one constructor per
  `fmt.Errorf` call site, and `GoError.Error` renders the message.
* `sort.Slice` is the Go library's sorting routine; it is a parameter of
  `sortResources`, constrained by its documented contract and, where the sort is
  applied to its own result, by what the routine does with a sorted slice.
-/

set_option linter.dupNamespace false

namespace PiamAnc

/-! ## Strings -/

/-- Go `strings.Contains(s, substr)`: `substr` occurs in `s` as a contiguous run. -/
def stringsContains (s substr : String) : Bool :=
  decide (substr.toList <:+: s.toList)

/-- Go `a < b` on strings: lexicographic on the character sequences. -/
def strLess (a b : String) : Bool :=
  decide (a.toList < b.toList)

/-! ## Resource model (`models.go` 16-96) -/

/-- Go `type ResourceType string`. -/
abbrev ResourceType := String

/-- The constant `ResourceTypeSQL`. -/
def ResourceTypeSQL : ResourceType := "SQL"

/-- The constant `ResourceTypeGKE`. -/
def ResourceTypeGKE : ResourceType := "GKE"

/-- An authorized network entry. -/
structure AuthorizedNetwork where
  Kind : String
  Name : String
  Value : String
  DisplayName : String
deriving DecidableEq, Repr

/-- A Cloud SQL instance. -/
structure SQLInstance where
  Name : String
  Project : String
  Region : String
  DatabaseVersion : String
  State : String
  AuthorizedNetworks : List AuthorizedNetwork
  ConnectionName : String
  PublicIPEnabled : Bool
  PrivateIP : String
deriving DecidableEq, Repr

/-- A GKE cluster. -/
structure GKECluster where
  Name : String
  Project : String
  Location : String
  State : String
  Endpoint : String
  MasterAuthorizedNetworks : List AuthorizedNetwork
  PrivateClusterEnabled : Bool
  PrivateEndpoint : String
  PublicEndpoint : String
deriving DecidableEq, Repr

/-- The interface `CloudResource`; its two implementations are the two variants. -/
inductive CloudResource where
  | sql (s : SQLInstance)
  | gke (g : GKECluster)
deriving DecidableEq, Repr

namespace SQLInstance

def GetName (s : SQLInstance) : String := s.Name
def GetProject (s : SQLInstance) : String := s.Project
def GetRegion (s : SQLInstance) : String := s.Region
def GetType (_ : SQLInstance) : ResourceType := ResourceTypeSQL
def GetDisplayName (s : SQLInstance) : String := s.Name ++ " (" ++ s.Project ++ ")"
def HasPublicIP (s : SQLInstance) : Bool := s.PublicIPEnabled
def CanAddNetwork (s : SQLInstance) : Bool := s.PublicIPEnabled
def GetNetworkRestrictions (s : SQLInstance) : String :=
  if !s.PublicIPEnabled then "Private IP only - cannot add external networks" else ""

end SQLInstance

namespace GKECluster

def GetName (g : GKECluster) : String := g.Name
def GetProject (g : GKECluster) : String := g.Project
def GetRegion (g : GKECluster) : String := g.Location
def GetType (_ : GKECluster) : ResourceType := ResourceTypeGKE
def GetDisplayName (g : GKECluster) : String := g.Name ++ " (" ++ g.Project ++ ")"
def HasPublicIP (g : GKECluster) : Bool := g.PublicEndpoint != ""
def CanAddNetwork (_ : GKECluster) : Bool := true
def GetNetworkRestrictions (g : GKECluster) : String :=
  if g.PrivateClusterEnabled && g.PublicEndpoint == "" then
    "Private cluster - access via private endpoint only"
  else ""

end GKECluster

namespace CloudResource

def GetName : CloudResource → String
  | sql s => s.GetName
  | gke g => g.GetName

def GetProject : CloudResource → String
  | sql s => s.GetProject
  | gke g => g.GetProject

def GetRegion : CloudResource → String
  | sql s => s.GetRegion
  | gke g => g.GetRegion

def GetType : CloudResource → ResourceType
  | sql s => s.GetType
  | gke g => g.GetType

def GetDisplayName : CloudResource → String
  | sql s => s.GetDisplayName
  | gke g => g.GetDisplayName

def HasPublicIP : CloudResource → Bool
  | sql s => s.HasPublicIP
  | gke g => g.HasPublicIP

def CanAddNetwork : CloudResource → Bool
  | sql s => s.CanAddNetwork
  | gke g => g.CanAddNetwork

def GetNetworkRestrictions : CloudResource → String
  | sql s => s.GetNetworkRestrictions
  | gke g => g.GetNetworkRestrictions

end CloudResource

/-! ## Backend API types (`sqladmin/v1beta4`, `container/v1`): the fields the code reads or writes -/

/-- The type `sqladmin.AclEntry`. -/
structure AclEntry where
  Kind : String
  Name : String
  Value : String
deriving DecidableEq, Repr

/-- The type `sqladmin.IpConfiguration`. -/
structure IpConfiguration where
  Ipv4Enabled : Bool
  AuthorizedNetworks : List AclEntry
deriving DecidableEq, Repr

/-- The type `sqladmin.Settings`; `none` is the nil pointer. -/
structure Settings where
  IpConfiguration : Option IpConfiguration
deriving DecidableEq, Repr

/-- The type `sqladmin.IpMapping`; `Typ` is the field `Type`. -/
structure IpMapping where
  Typ : String
  IpAddress : String
deriving DecidableEq, Repr

/-- The type `sqladmin.DatabaseInstance`. -/
structure DatabaseInstance where
  Name : String
  Region : String
  DatabaseVersion : String
  State : String
  ConnectionName : String
  IpAddresses : List IpMapping
  Settings : Option Settings
deriving DecidableEq, Repr

/-- The type `sqladmin.OperationError`. -/
structure OperationError where
  Message : String
deriving DecidableEq, Repr

/-- The type `sqladmin.OperationErrors`. -/
structure OperationErrors where
  Errors : List OperationError
deriving DecidableEq, Repr

/-- The type `sqladmin.Operation`. -/
structure SQLOperation where
  Name : String
  Status : String
  Error : Option OperationErrors
deriving DecidableEq, Repr

/-- The type `container.CidrBlock`. -/
structure CidrBlock where
  CidrBlock : String
  DisplayName : String
deriving DecidableEq, Repr

/-- The type `container.MasterAuthorizedNetworksConfig`. -/
structure MasterAuthorizedNetworksConfig where
  Enabled : Bool
  CidrBlocks : List CidrBlock
deriving DecidableEq, Repr

/-- The type `container.PrivateClusterConfig`. -/
structure PrivateClusterConfig where
  EnablePrivateNodes : Bool
  PrivateEndpoint : String
  PublicEndpoint : String
deriving DecidableEq, Repr

/-- The type `container.Cluster`. -/
structure Cluster where
  Name : String
  Location : String
  Status : String
  Endpoint : String
  PrivateClusterConfig : Option PrivateClusterConfig
  MasterAuthorizedNetworksConfig : Option MasterAuthorizedNetworksConfig
deriving DecidableEq, Repr

/-- The type `container.Status` (the `Error` of a cluster operation). -/
structure GKEStatus where
  Message : String
deriving DecidableEq, Repr

/-- The type `container.Operation`. -/
structure GKEOperation where
  Name : String
  Status : String
  Error : Option GKEStatus
deriving DecidableEq, Repr

/-- The type `container.UpdateClusterRequest`, reduced to
`Update.DesiredMasterAuthorizedNetworksConfig`, the one field the code sets. -/
structure UpdateClusterRequest where
  DesiredMasterAuthorizedNetworksConfig : MasterAuthorizedNetworksConfig
deriving DecidableEq, Repr

/-! ## Errors -/

/-- The errors the engine builds with `fmt.Errorf`; the comment of a constructor
is the line of `models.go` that builds it.  A backend error is carried as its
message. -/
inductive GoError where
  /-- Built at line 383. -/
  | getSQLInstanceDetails (err : String)
  /-- Built at line 434. -/
  | getGKEClusterDetails (err : String)
  /-- Built at line 473. -/
  | cannotAddNetwork
  /-- Built at line 488 and at line 547. -/
  | invalidIPFormat (err : String)
  /-- Built at line 494. -/
  | getInstance (err : String)
  /-- Built at line 509 and at line 568. -/
  | networkExistsSameName (normalizedIP networkName : String)
  /-- Built at line 511 and at line 570. -/
  | networkExistsOtherName (normalizedIP existingName : String)
  /-- Built at line 535. -/
  | updateInstance (err : String)
  /-- Built at line 554. -/
  | getCluster (err : String)
  /-- Built at line 594. -/
  | updateCluster (err : String)
  /-- Built at line 609 and at line 636. -/
  | operationTimeout (err : String)
  /-- Built at line 613 and at line 640. -/
  | operationStatus (err : String)
  /-- Built at line 618 and at line 645. -/
  | operationFailed (message : String)
deriving DecidableEq, Repr

/-- The message of an error, as `fmt.Errorf` formats it. -/
def GoError.Error : GoError → String
  | .getSQLInstanceDetails err => "failed to get SQL instance details: " ++ err
  | .getGKEClusterDetails err => "failed to get GKE cluster details: " ++ err
  | .cannotAddNetwork => "cannot add network to SQL instance without public IP"
  | .invalidIPFormat err => "invalid IP format: " ++ err
  | .getInstance err => "failed to get instance: " ++ err
  | .networkExistsSameName normalizedIP networkName =>
      "network " ++ normalizedIP ++ " with name " ++ networkName ++ " already exists"
  | .networkExistsOtherName normalizedIP existingName =>
      "network " ++ normalizedIP ++ " already exists with name " ++ existingName
  | .updateInstance err => "failed to update instance: " ++ err
  | .getCluster err => "failed to get cluster: " ++ err
  | .updateCluster err => "failed to update cluster: " ++ err
  | .operationTimeout err => "operation timeout: " ++ err
  | .operationStatus err => "failed to get operation status: " ++ err
  | .operationFailed message => "operation failed: " ++ message

/-- The message of `context.DeadlineExceeded`, the `ctx.Err()` of an expired deadline. -/
def deadlineExceeded : String := "context deadline exceeded"

/-! ## The backends and the log of calls -/

/-- The calls of `nm.sqlService` the code uses.  A call takes the backend state and
returns the reply and the next state; a status query also returns the time it took. -/
structure SQLService (σ : Type) where
  InstancesList : String → σ → Except String (List DatabaseInstance) × σ
  InstancesGet : String → String → σ → Except String DatabaseInstance × σ
  InstancesPatch : String → String → DatabaseInstance → σ → Except String SQLOperation × σ
  OperationsGet : String → String → σ → (Except String SQLOperation × Nat) × σ

/-- The calls of `nm.gkeService` the code uses. -/
structure GKEService (σ : Type) where
  ClustersList : String → σ → Except String (List Cluster) × σ
  ClustersGet : String → σ → Except String Cluster × σ
  ClustersUpdate : String → UpdateClusterRequest → σ → Except String GKEOperation × σ
  OperationsGet : String → σ → (Except String GKEOperation × Nat) × σ

/-- A backend call, with its arguments. -/
inductive Call where
  | sqlInstancesList (project : String)
  | sqlInstancesGet (project instanceName : String)
  | sqlInstancesPatch (project instanceName : String) (updateRequest : DatabaseInstance)
  | sqlOperationsGet (project operationName : String)
  | gkeClustersList (parent : String)
  | gkeClustersGet (name : String)
  | gkeClustersUpdate (name : String) (updateRequest : UpdateClusterRequest)
  | gkeOperationsGet (opName : String)
deriving DecidableEq, Repr

/-- The `NetworkManager`: the two services, and the choice the runtime makes in a
`select` whose two cases are ready at the same instant (`true`: the timer case),
given the time elapsed. -/
structure NetworkManager (σ : Type) where
  sqlService : SQLService σ
  gkeService : GKEService σ
  timerOnTie : Nat → Bool

/-- The backend state and the calls issued so far, oldest first. -/
structure World (σ : Type) where
  backend : σ
  calls : List Call

/-- `nm.sqlService.Instances.Get(project, instanceName).Context(nm.ctx).Do()`. -/
def sqlInstancesGet {σ : Type} (nm : NetworkManager σ) (project instanceName : String)
    (w : World σ) : Except String DatabaseInstance × World σ :=
  let r := nm.sqlService.InstancesGet project instanceName w.backend
  (r.1, ⟨r.2, w.calls ++ [Call.sqlInstancesGet project instanceName]⟩)

/-- `nm.sqlService.Instances.Patch(project, instanceName, updateRequest).Context(nm.ctx).Do()`. -/
def sqlInstancesPatch {σ : Type} (nm : NetworkManager σ) (project instanceName : String)
    (updateRequest : DatabaseInstance) (w : World σ) : Except String SQLOperation × World σ :=
  let r := nm.sqlService.InstancesPatch project instanceName updateRequest w.backend
  (r.1, ⟨r.2, w.calls ++ [Call.sqlInstancesPatch project instanceName updateRequest]⟩)

/-- `nm.sqlService.Operations.Get(project, operationName).Context(ctx).Do()`. -/
def sqlOperationsGet {σ : Type} (nm : NetworkManager σ) (project operationName : String)
    (w : World σ) : (Except String SQLOperation × Nat) × World σ :=
  let r := nm.sqlService.OperationsGet project operationName w.backend
  (r.1, ⟨r.2, w.calls ++ [Call.sqlOperationsGet project operationName]⟩)

/-- `nm.gkeService.Projects.Locations.Clusters.Get(name).Context(nm.ctx).Do()`. -/
def gkeClustersGet {σ : Type} (nm : NetworkManager σ) (name : String)
    (w : World σ) : Except String Cluster × World σ :=
  let r := nm.gkeService.ClustersGet name w.backend
  (r.1, ⟨r.2, w.calls ++ [Call.gkeClustersGet name]⟩)

/-- `nm.gkeService.Projects.Locations.Clusters.Update(name, updateRequest).Context(nm.ctx).Do()`. -/
def gkeClustersUpdate {σ : Type} (nm : NetworkManager σ) (name : String)
    (updateRequest : UpdateClusterRequest) (w : World σ) : Except String GKEOperation × World σ :=
  let r := nm.gkeService.ClustersUpdate name updateRequest w.backend
  (r.1, ⟨r.2, w.calls ++ [Call.gkeClustersUpdate name updateRequest]⟩)

/-- `nm.gkeService.Projects.Locations.Operations.Get(opName).Context(ctx).Do()`. -/
def gkeOperationsGet {σ : Type} (nm : NetworkManager σ) (opName : String)
    (w : World σ) : (Except String GKEOperation × Nat) × World σ :=
  let r := nm.gkeService.OperationsGet opName w.backend
  (r.1, ⟨r.2, w.calls ++ [Call.gkeOperationsGet opName]⟩)

/-! ## `normalizeIP` (653-662) -/

/-- `normalizeIP` ensures the IP has a CIDR suffix. -/
def normalizeIP (ip : String) : Except String String :=
  if stringsContains ip "/" then
    .ok ip
  else
    .ok (ip ++ "/32")

/-! ## Waiting for an operation (601-651) -/

/-- `time.Second`, in nanoseconds. -/
def Second : Nat := 1000000000

/-- The `5 * time.Second` of `time.After` in the two polling loops. -/
def pollInterval : Nat := 5 * Second

/-- The `select` of a polling loop, `elapsed` nanoseconds after the context with
deadline `timeout` was created: `true` when the case `<-time.After(5 * time.Second)`
runs, `false` when the case `<-ctx.Done()` runs.  The timer fires at
`elapsed + pollInterval`, the deadline at `timeout`; the earlier one wins, and when
they coincide the runtime chooses. -/
def selectTimer {σ : Type} (nm : NetworkManager σ) (timeout elapsed : Nat) : Bool :=
  if elapsed + pollInterval < timeout then true
  else if elapsed + pollInterval = timeout then nm.timerOnTie elapsed
  else false

/-- The `for { select { ... } }` of `waitForSQLOperation`; `fuel` bounds the number
of iterations and `none` is "still looping when the fuel ran out". -/
def waitForSQLOperationLoop {σ : Type} (nm : NetworkManager σ) (project operationName : String)
    (timeout : Nat) : Nat → Nat → World σ → Option (Except GoError Unit × World σ)
  | 0, _, _ => none
  | fuel + 1, elapsed, w =>
    if selectTimer nm timeout elapsed then
      let r := sqlOperationsGet nm project operationName w
      match r.1.1 with
      | .error err => some (.error (.operationStatus err), r.2)
      | .ok op =>
        if op.Status == "DONE" then
          match op.Error with
          | some errors =>
            match errors.Errors with
            | e :: _ => some (.error (.operationFailed e.Message), r.2)
            | [] => some (.ok (), r.2)
          | none => some (.ok (), r.2)
        else
          waitForSQLOperationLoop nm project operationName timeout fuel
            (elapsed + pollInterval + r.1.2) r.2
    else
      some (.error (.operationTimeout deadlineExceeded), w)

/-- `waitForSQLOperation` waits for a SQL operation to complete. -/
def waitForSQLOperation {σ : Type} (nm : NetworkManager σ) (project operationName : String)
    (timeout : Nat) (w : World σ) : Option (Except GoError Unit × World σ) :=
  waitForSQLOperationLoop nm project operationName timeout (timeout / pollInterval + 1) 0 w

/-- The `for { select { ... } }` of `waitForGKEOperation`. -/
def waitForGKEOperationLoop {σ : Type} (nm : NetworkManager σ) (opName : String)
    (timeout : Nat) : Nat → Nat → World σ → Option (Except GoError Unit × World σ)
  | 0, _, _ => none
  | fuel + 1, elapsed, w =>
    if selectTimer nm timeout elapsed then
      let r := gkeOperationsGet nm opName w
      match r.1.1 with
      | .error err => some (.error (.operationStatus err), r.2)
      | .ok op =>
        if op.Status == "DONE" then
          match op.Error with
          | some status => some (.error (.operationFailed status.Message), r.2)
          | none => some (.ok (), r.2)
        else
          waitForGKEOperationLoop nm opName timeout fuel (elapsed + pollInterval + r.1.2) r.2
    else
      some (.error (.operationTimeout deadlineExceeded), w)

/-- The `opName` of a cluster operation: `projects/%s/locations/%s/operations/%s`. -/
def operationPath (project location operationName : String) : String :=
  "projects/" ++ project ++ "/locations/" ++ location ++ "/operations/" ++ operationName

/-- `waitForGKEOperation` waits for a GKE operation to complete. -/
def waitForGKEOperation {σ : Type} (nm : NetworkManager σ)
    (project location operationName : String) (timeout : Nat) (w : World σ) :
    Option (Except GoError Unit × World σ) :=
  let opName := operationPath project location operationName
  waitForGKEOperationLoop nm opName timeout (timeout / pollInterval + 1) 0 w

/-! ## Detail fetch (367-466) -/

/-- The loop over `instance.IpAddresses` (390-398): the pair `(hasPublicIP, privateIP)`
after one more address. -/
def scanIpAddress (acc : Bool × String) (ip : IpMapping) : Bool × String :=
  if ip.Typ == "PRIMARY" then (true, acc.2)
  else if ip.Typ == "PRIVATE" then (acc.1, ip.IpAddress)
  else acc

/-- The conversion of an `sqladmin.AclEntry` (418-422). -/
def aclEntryToNetwork (network : AclEntry) : AuthorizedNetwork :=
  { Kind := network.Kind, Name := network.Name, Value := network.Value, DisplayName := "" }

/-- The conversion of a `container.CidrBlock` (457-461). -/
def cidrBlockToNetwork (network : CidrBlock) : AuthorizedNetwork :=
  { Kind := "", Name := network.DisplayName, Value := network.CidrBlock,
    DisplayName := network.DisplayName }

/-- `getSQLInstanceDetails` gets detailed info for a SQL instance. -/
def getSQLInstanceDetails {σ : Type} (nm : NetworkManager σ) (project instanceName : String)
    (w : World σ) : Except GoError CloudResource × World σ :=
  let r := sqlInstancesGet nm project instanceName w
  match r.1 with
  | .error err => (.error (.getSQLInstanceDetails err), r.2)
  | .ok inst =>
    let scanned := inst.IpAddresses.foldl scanIpAddress (false, "")
    let privateIP := scanned.2
    let ipConfiguration : Option IpConfiguration :=
      match inst.Settings with
      | some settings => settings.IpConfiguration
      | none => none
    let hasPublicIP :=
      match ipConfiguration with
      | some c => c.Ipv4Enabled
      | none => scanned.1
    let networks :=
      match ipConfiguration with
      | some c => c.AuthorizedNetworks.map aclEntryToNetwork
      | none => []
    (.ok (.sql
      { Name := inst.Name, Project := project, Region := inst.Region,
        DatabaseVersion := inst.DatabaseVersion, State := inst.State,
        AuthorizedNetworks := networks, ConnectionName := inst.ConnectionName,
        PublicIPEnabled := hasPublicIP, PrivateIP := privateIP }), r.2)

/-- The `name` of a cluster: `projects/%s/locations/%s/clusters/%s`. -/
def clusterPath (project location clusterName : String) : String :=
  "projects/" ++ project ++ "/locations/" ++ location ++ "/clusters/" ++ clusterName

/-- `getGKEClusterDetails` gets detailed info for a GKE cluster. -/
def getGKEClusterDetails {σ : Type} (nm : NetworkManager σ)
    (project location clusterName : String) (w : World σ) :
    Except GoError CloudResource × World σ :=
  let name := clusterPath project location clusterName
  let r := gkeClustersGet nm name w
  match r.1 with
  | .error err => (.error (.getGKEClusterDetails err), r.2)
  | .ok cluster =>
    let networks :=
      match cluster.MasterAuthorizedNetworksConfig with
      | some c => if c.Enabled then c.CidrBlocks.map cidrBlockToNetwork else []
      | none => []
    let g : GKECluster :=
      match cluster.PrivateClusterConfig with
      | some c =>
        { Name := cluster.Name, Project := project, Location := location,
          State := cluster.Status, Endpoint := cluster.Endpoint,
          MasterAuthorizedNetworks := networks,
          PrivateClusterEnabled := c.EnablePrivateNodes,
          PrivateEndpoint := c.PrivateEndpoint, PublicEndpoint := c.PublicEndpoint }
      | none =>
        { Name := cluster.Name, Project := project, Location := location,
          State := cluster.Status, Endpoint := cluster.Endpoint,
          MasterAuthorizedNetworks := networks,
          PrivateClusterEnabled := false,
          PrivateEndpoint := "", PublicEndpoint := cluster.Endpoint }
    (.ok (.gke g), r.2)

/-- `GetResourceDetails` fetches detailed information for a specific resource. -/
def GetResourceDetails {σ : Type} (nm : NetworkManager σ) (resource : CloudResource)
    (w : World σ) : Except GoError CloudResource × World σ :=
  match resource with
  | .sql r => getSQLInstanceDetails nm r.Project r.Name w
  | .gke r => getGKEClusterDetails nm r.Project r.Location r.Name w

/-! ## Adding a network (468-599) -/

/-- The authorized networks of a fetched instance, after the nil `Settings` and
`IpConfiguration` were initialised (497-503). -/
def fetchedIpConfiguration (inst : DatabaseInstance) : IpConfiguration :=
  match inst.Settings with
  | some settings =>
    match settings.IpConfiguration with
    | some c => c
    | none => { Ipv4Enabled := false, AuthorizedNetworks := [] }
  | none => { Ipv4Enabled := false, AuthorizedNetworks := [] }

/-- The master authorized networks configuration of a fetched cluster, after a nil
one was initialised (557-562). -/
def fetchedMasterConfig (cluster : Cluster) : MasterAuthorizedNetworksConfig :=
  match cluster.MasterAuthorizedNetworksConfig with
  | some c => c
  | none => { Enabled := true, CidrBlocks := [] }

/-- The request `&sqladmin.DatabaseInstance{Settings: instance.Settings}` (529-531). -/
def sqlUpdateRequest (settings : Settings) : DatabaseInstance :=
  { Name := "", Region := "", DatabaseVersion := "", State := "", ConnectionName := "",
    IpAddresses := [], Settings := some settings }

/-- `addNetworkToSQLInstance` adds a network to a SQL instance. -/
def addNetworkToSQLInstance {σ : Type} (nm : NetworkManager σ)
    (project instanceName networkName networkIP : String) (w : World σ) :
    Option (Except GoError Unit × World σ) :=
  match normalizeIP networkIP with
  | .error err => some (.error (.invalidIPFormat err), w)
  | .ok normalizedIP =>
    let r := sqlInstancesGet nm project instanceName w
    match r.1 with
    | .error err => some (.error (.getInstance err), r.2)
    | .ok inst =>
      let ipConfiguration := fetchedIpConfiguration inst
      match ipConfiguration.AuthorizedNetworks.find? (fun network => network.Value == normalizedIP) with
      | some network =>
        if network.Name == networkName then
          some (.error (.networkExistsSameName normalizedIP networkName), r.2)
        else
          some (.error (.networkExistsOtherName normalizedIP network.Name), r.2)
      | none =>
        let newNetwork : AclEntry :=
          { Kind := "sql#aclEntry", Name := networkName, Value := normalizedIP }
        let settings : Settings :=
          { IpConfiguration := some
              { ipConfiguration with
                AuthorizedNetworks := ipConfiguration.AuthorizedNetworks ++ [newNetwork] } }
        let updateRequest := sqlUpdateRequest settings
        let r2 := sqlInstancesPatch nm project instanceName updateRequest r.2
        match r2.1 with
        | .error err => some (.error (.updateInstance err), r2.2)
        | .ok operation => waitForSQLOperation nm project operation.Name (30 * Second) r2.2

/-- `addNetworkToGKECluster` adds a network to a GKE cluster's master authorized networks. -/
def addNetworkToGKECluster {σ : Type} (nm : NetworkManager σ)
    (project location clusterName networkName networkIP : String) (w : World σ) :
    Option (Except GoError Unit × World σ) :=
  match normalizeIP networkIP with
  | .error err => some (.error (.invalidIPFormat err), w)
  | .ok normalizedIP =>
    let name := clusterPath project location clusterName
    let r := gkeClustersGet nm name w
    match r.1 with
    | .error err => some (.error (.getCluster err), r.2)
    | .ok cluster =>
      let config := fetchedMasterConfig cluster
      match config.CidrBlocks.find? (fun network => network.CidrBlock == normalizedIP) with
      | some network =>
        if network.DisplayName == networkName then
          some (.error (.networkExistsSameName normalizedIP networkName), r.2)
        else
          some (.error (.networkExistsOtherName normalizedIP network.DisplayName), r.2)
      | none =>
        let newNetwork : CidrBlock := { CidrBlock := normalizedIP, DisplayName := networkName }
        let updateRequest : UpdateClusterRequest :=
          { DesiredMasterAuthorizedNetworksConfig :=
              { Enabled := true, CidrBlocks := config.CidrBlocks ++ [newNetwork] } }
        let r2 := gkeClustersUpdate nm name updateRequest r.2
        match r2.1 with
        | .error err => some (.error (.updateCluster err), r2.2)
        | .ok operation =>
          waitForGKEOperation nm project location operation.Name (30 * Second) r2.2

/-- `AddNetworkToResource` adds an authorized network to a resource. -/
def AddNetworkToResource {σ : Type} (nm : NetworkManager σ) (resource : CloudResource)
    (networkName networkIP : String) (w : World σ) : Option (Except GoError Unit × World σ) :=
  match resource with
  | .sql r =>
    if !r.PublicIPEnabled then
      some (.error .cannotAddNetwork, w)
    else
      addNetworkToSQLInstance nm r.Project r.Name networkName networkIP w
  | .gke r => addNetworkToGKECluster nm r.Project r.Location r.Name networkName networkIP w

/-! ## `sortResources` (664-678) -/

/-- The `less` closure of `sortResources`, on the two elements it indexes. -/
def resourceLess (a b : CloudResource) : Bool :=
  if a.GetType != b.GetType then
    strLess a.GetType b.GetType
  else if a.GetProject != b.GetProject then
    strLess a.GetProject b.GetProject
  else
    strLess a.GetName b.GetName

/-- What `sort.Slice` asks of its `less` (package `sort`, `Interface.Less`): it is a
transitive ordering, and so is "neither is less than the other". -/
def LessOrdering {α : Type} (less : α → α → Bool) : Prop :=
  (∀ a, less a a = false) ∧
  (∀ a b c, less a b = true → less b c = true → less a c = true) ∧
  (∀ a b c, less a b = false → less b c = false → less a c = false)

/-- The documented contract of `sort.Slice`: the slice is rearranged (only swaps), and
for a `less` as above no element is less than one before it.  Nothing is promised on
the order of elements neither of which is less than the other: the sort is not
guaranteed to be stable. -/
def SortSliceContract {α : Type} (sortSlice : (α → α → Bool) → List α → List α) : Prop :=
  ∀ (less : α → α → Bool) (xs : List α),
    (sortSlice less xs).Perm xs ∧
    (LessOrdering less → (sortSlice less xs).Pairwise (fun a b => less b a = false))

/-- What the routine of `sort.Slice` does with a slice in which no element is less
than an earlier one: it makes no swap.  For at most 12 elements it is an insertion
sort, which moves an element only when it is less than the one before it; for more
elements it samples the slice for a pivot without a swap, finds no sampled pair out of
order, checks that no element is less than the one before it, and returns. -/
def SortSliceKeepsSorted {α : Type} (sortSlice : (α → α → Bool) → List α → List α) : Prop :=
  ∀ (less : α → α → Bool) (xs : List α),
    xs.Pairwise (fun a b => less b a = false) → sortSlice less xs = xs

/-- `sortResources` sorts resources by type, project, then name; `sortSlice` is the
library's `sort.Slice`, and the result is the slice after the call. -/
def sortResources (sortSlice : (CloudResource → CloudResource → Bool) →
    List CloudResource → List CloudResource) (resources : List CloudResource) :
    List CloudResource :=
  sortSlice resourceLess resources

/-- The sort key `(type, project, name)` of a resource. -/
def resourceKey (r : CloudResource) : String × String × String :=
  (r.GetType, r.GetProject, r.GetName)

/-- Lexicographic `<` on keys. -/
def keyLT (a b : String × String × String) : Prop :=
  a.1 < b.1 ∨ (a.1 = b.1 ∧ (a.2.1 < b.2.1 ∨ (a.2.1 = b.2.1 ∧ a.2.2 < b.2.2)))

/-- Lexicographic `≤` on keys. -/
def keyLE (a b : String × String × String) : Prop :=
  keyLT a b ∨ a = b

/-! ## Backends used to run the engine on concrete inputs -/

/-- A stateless backend that answers every call of one kind with the same reply. -/
def fixedManager (getInstance : Except String DatabaseInstance)
    (patch : Except String SQLOperation) (sqlStatus : Except String SQLOperation × Nat)
    (getCluster : Except String Cluster) (update : Except String GKEOperation)
    (gkeStatus : Except String GKEOperation × Nat) (timerOnTie : Bool) :
    NetworkManager Unit :=
  { sqlService :=
      { InstancesList := fun _ s => (.ok [], s)
        InstancesGet := fun _ _ s => (getInstance, s)
        InstancesPatch := fun _ _ _ s => (patch, s)
        OperationsGet := fun _ _ s => (sqlStatus, s) }
    gkeService :=
      { ClustersList := fun _ s => (.ok [], s)
        ClustersGet := fun _ s => (getCluster, s)
        ClustersUpdate := fun _ _ s => (update, s)
        OperationsGet := fun _ s => (gkeStatus, s) }
    timerOnTie := fun _ => timerOnTie }

/-- An instance record with nothing but a name and a list of authorized networks. -/
def plainInstance (name : String) (networks : List AclEntry) : DatabaseInstance :=
  { Name := name, Region := "", DatabaseVersion := "", State := "", ConnectionName := "",
    IpAddresses := [],
    Settings := some { IpConfiguration := some { Ipv4Enabled := true, AuthorizedNetworks := networks } } }

/-- A cluster record with nothing but a name and a list of master authorized networks. -/
def plainCluster (name : String) (blocks : List CidrBlock) : Cluster :=
  { Name := name, Location := "", Status := "", Endpoint := "",
    PrivateClusterConfig := none,
    MasterAuthorizedNetworksConfig := some { Enabled := true, CidrBlocks := blocks } }

/-- A database instance of project `p1`, as listed in a snapshot. -/
def sampleSQL (name : String) (publicIP : Bool) : SQLInstance :=
  { Name := name, Project := "p1", Region := "", DatabaseVersion := "", State := "",
    AuthorizedNetworks := [], ConnectionName := "", PublicIPEnabled := publicIP,
    PrivateIP := "" }

/-- A cluster of project `p1`, as listed in a snapshot. -/
def sampleGKE (name location : String) : GKECluster :=
  { Name := name, Project := "p1", Location := location, State := "", Endpoint := "",
    MasterAuthorizedNetworks := [], PrivateClusterEnabled := false, PrivateEndpoint := "",
    PublicEndpoint := "" }

/-- The world before any call. -/
def emptyWorld : World Unit := { backend := (), calls := [] }

/-- A status query (`Operations.Get` of either backend). -/
def Call.isStatusQuery : Call → Bool
  | .sqlOperationsGet _ _ => true
  | .gkeOperationsGet _ => true
  | _ => false

/-- A backend holding instance `db1` and cluster `c1` with the given networks, whose
operations are reported with the given status and errors after `latency` nanoseconds. -/
def sampleManager (networks : List AclEntry) (blocks : List CidrBlock) (status : String)
    (sqlError : Option OperationErrors) (gkeError : Option GKEStatus) (latency : Nat)
    (timerOnTie : Bool) : NetworkManager Unit :=
  fixedManager (.ok (plainInstance "db1" networks))
    (.ok { Name := "op-sql", Status := "PENDING", Error := none })
    (.ok { Name := "op-sql", Status := status, Error := sqlError }, latency)
    (.ok (plainCluster "c1" blocks))
    (.ok { Name := "op-gke", Status := "PENDING", Error := none })
    (.ok { Name := "op-gke", Status := status, Error := gkeError }, latency)
    timerOnTie

/-- An entry already on `db1`. -/
def homeEntry : AclEntry := { Kind := "sql#aclEntry", Name := "home", Value := "198.51.100.7/32" }

/-- A block already on `c1`. -/
def homeBlock : CidrBlock := { CidrBlock := "198.51.100.7/32", DisplayName := "home" }

/-- The backend whose operations are DONE without error. -/
def doneManager : NetworkManager Unit :=
  sampleManager [homeEntry] [homeBlock] "DONE" none none 0 false

/-- The backend whose operations are DONE with errors. -/
def failedManager : NetworkManager Unit :=
  sampleManager [homeEntry] [homeBlock] "DONE"
    (some { Errors := [{ Message := "quota exceeded" }, { Message := "second error" }] })
    (some { Message := "permission denied" }) 0 false

/-- The backend whose operations stay RUNNING; at a tie the timer case runs. -/
def pendingManager : NetworkManager Unit :=
  sampleManager [homeEntry] [homeBlock] "RUNNING" none none 0 true

/-! ## An in-memory backend that stores what is submitted -/

/-- The state of the in-memory backend: instance records by `(project, name)` and
cluster records by path. -/
structure MemBackend where
  instances : List ((String × String) × DatabaseInstance)
  clusters : List (String × Cluster)

/-- The record stored for an instance, if any. -/
def MemBackend.getInstance (s : MemBackend) (project instanceName : String) :
    Option DatabaseInstance :=
  match s.instances.find? (fun e => e.1 == (project, instanceName)) with
  | some e => some e.2
  | none => none

/-- The record stored for a cluster, if any. -/
def MemBackend.getCluster (s : MemBackend) (name : String) : Option Cluster :=
  match s.clusters.find? (fun e => e.1 == name) with
  | some e => some e.2
  | none => none

/-- The instance records after the settings of a patch were stored. -/
def storeSettings (project instanceName : String) (settings : Option Settings) :
    List ((String × String) × DatabaseInstance) → List ((String × String) × DatabaseInstance)
  | [] => []
  | e :: rest =>
    if e.1 == (project, instanceName) then
      (e.1, { e.2 with Settings := settings }) :: storeSettings project instanceName settings rest
    else
      e :: storeSettings project instanceName settings rest

/-- The cluster records after the configuration of an update was stored. -/
def storeMasterConfig (name : String) (config : MasterAuthorizedNetworksConfig) :
    List (String × Cluster) → List (String × Cluster)
  | [] => []
  | e :: rest =>
    if e.1 == name then
      (e.1, { e.2 with MasterAuthorizedNetworksConfig := some config })
        :: storeMasterConfig name config rest
    else
      e :: storeMasterConfig name config rest

/-- The in-memory backend: a get returns the stored record, a patch/update of a stored
resource stores the submitted settings and returns a pending operation, and every
status query reports the operation DONE without error. -/
def memManager : NetworkManager MemBackend :=
  { sqlService :=
      { InstancesList := fun project s =>
          (.ok ((s.instances.filter (fun e => e.1.1 == project)).map (fun e => e.2)), s)
        InstancesGet := fun project instanceName s =>
          match s.getInstance project instanceName with
          | some inst => (.ok inst, s)
          | none => (.error "notFound", s)
        InstancesPatch := fun project instanceName updateRequest s =>
          match s.getInstance project instanceName with
          | some _ =>
            (.ok { Name := "operation-1", Status := "PENDING", Error := none },
              { s with instances :=
                  storeSettings project instanceName updateRequest.Settings s.instances })
          | none => (.error "notFound", s)
        OperationsGet := fun _ operationName s =>
          ((.ok { Name := operationName, Status := "DONE", Error := none }, 0), s) }
    gkeService :=
      { ClustersList := fun _ s => (.ok (s.clusters.map (fun e => e.2)), s)
        ClustersGet := fun name s =>
          match s.getCluster name with
          | some cluster => (.ok cluster, s)
          | none => (.error "notFound", s)
        ClustersUpdate := fun name updateRequest s =>
          match s.getCluster name with
          | some _ =>
            (.ok { Name := "operation-1", Status := "PENDING", Error := none },
              { s with
                clusters := storeMasterConfig name
                              updateRequest.DesiredMasterAuthorizedNetworksConfig s.clusters })
          | none => (.error "notFound", s)
        OperationsGet := fun opName s =>
          ((.ok { Name := opName, Status := "DONE", Error := none }, 0), s) }
    timerOnTie := fun _ => false }

/-- The scenario of the spec: project `p1` holds instance `db1` with zero authorized
networks. -/
def scenarioWorld : World MemBackend :=
  ⟨⟨[(("p1", "db1"), plainInstance "db1" [])], []⟩, []⟩

/-! ## A sorting routine that meets the contract of `sort.Slice` -/

/-- Insertion sort that keeps elements none of which is less than the other in their
original order. -/
def insertionSortSlice {α : Type} (less : α → α → Bool) (xs : List α) : List α :=
  xs.insertionSort (fun a b => less b a = false)

/-- A key as an element of the lexicographic order on triples of strings. -/
def lexKey (k : String × String × String) : String ×ₗ (String ×ₗ String) :=
  toLex (k.1, toLex (k.2.1, k.2.2))

/-- Cluster `api` of project `p1` in zone `us-east1-b`. -/
def twinEast : CloudResource := .gke (sampleGKE "api" "us-east1-b")

/-- Cluster `api` of project `p1` in zone `europe-west1-c`: same type, project and name. -/
def twinWest : CloudResource := .gke (sampleGKE "api" "europe-west1-c")

/-- The in-memory backend holding `db1` with the entry `home`. -/
def homeWorld : World MemBackend :=
  ⟨⟨[(("p1", "db1"), plainInstance "db1" [homeEntry])], []⟩, []⟩

/-- What the detail of `db1` shows in `homeWorld`. -/
def homeDetail : SQLInstance :=
  { Name := "db1", Project := "p1", Region := "", DatabaseVersion := "", State := "",
    AuthorizedNetworks := [aclEntryToNetwork homeEntry], ConnectionName := "",
    PublicIPEnabled := true, PrivateIP := "" }

/-! ## Runs of the polling loops -/

/-- The polling loop of `waitForSQLOperation`, at its `select` with `e` nanoseconds
elapsed in world `w`, is at its `select` again with `e'` elapsed in world `w'` after
zero or more status queries, each of which succeeded without reporting DONE. -/
inductive SQLPolls {σ : Type} (nm : NetworkManager σ) (project operationName : String)
    (timeout : Nat) : Nat → World σ → Nat → World σ → Prop where
  | here (e : Nat) (w : World σ) : SQLPolls nm project operationName timeout e w e w
  | poll (e : Nat) (w : World σ) (op : SQLOperation) (latency : Nat) (s' : σ)
      (e' : Nat) (w' : World σ) :
      selectTimer nm timeout e = true →
      nm.sqlService.OperationsGet project operationName w.backend = ((.ok op, latency), s') →
      op.Status ≠ "DONE" →
      SQLPolls nm project operationName timeout (e + pollInterval + latency)
        ⟨s', w.calls ++ [Call.sqlOperationsGet project operationName]⟩ e' w' →
      SQLPolls nm project operationName timeout e w e' w'

/-- The same for the polling loop of `waitForGKEOperation`. -/
inductive GKEPolls {σ : Type} (nm : NetworkManager σ) (opName : String)
    (timeout : Nat) : Nat → World σ → Nat → World σ → Prop where
  | here (e : Nat) (w : World σ) : GKEPolls nm opName timeout e w e w
  | poll (e : Nat) (w : World σ) (op : GKEOperation) (latency : Nat) (s' : σ)
      (e' : Nat) (w' : World σ) :
      selectTimer nm timeout e = true →
      nm.gkeService.OperationsGet opName w.backend = ((.ok op, latency), s') →
      op.Status ≠ "DONE" →
      GKEPolls nm opName timeout (e + pollInterval + latency)
        ⟨s', w.calls ++ [Call.gkeOperationsGet opName]⟩ e' w' →
      GKEPolls nm opName timeout e w e' w'

/-- A backend that counts the status queries: a query takes one second, and the
operation is RUNNING for the first `pending` queries and DONE, with the given errors,
from then on. -/
def countingManager (pending : Nat) (sqlError : Option OperationErrors)
    (gkeError : Option GKEStatus) : NetworkManager Nat :=
  { sqlService :=
      { InstancesList := fun _ s => (.ok [], s)
        InstancesGet := fun _ _ s => (.ok (plainInstance "db1" []), s)
        InstancesPatch := fun _ _ _ s => (.ok ⟨"op-sql", "PENDING", none⟩, s)
        OperationsGet := fun _ _ s =>
          ((.ok ⟨"op-sql", if s < pending then "RUNNING" else "DONE",
            if s < pending then none else sqlError⟩, Second), s + 1) }
    gkeService :=
      { ClustersList := fun _ s => (.ok [], s)
        ClustersGet := fun _ s => (.ok (plainCluster "c1" []), s)
        ClustersUpdate := fun _ _ s => (.ok ⟨"op-gke", "PENDING", none⟩, s)
        OperationsGet := fun _ s =>
          ((.ok ⟨"op-gke", if s < pending then "RUNNING" else "DONE",
            if s < pending then none else gkeError⟩, Second), s + 1) }
    timerOnTie := fun _ => false }

/-! ## Project discovery (124-170) -/

/-- Go `unicode.IsSpace`: the white space of Unicode. -/
def unicodeIsSpace (c : Char) : Bool :=
  (9 ≤ c.toNat && c.toNat ≤ 13) || c.toNat == 32 || c.toNat == 133 || c.toNat == 160 ||
  c.toNat == 5760 || (8192 ≤ c.toNat && c.toNat ≤ 8202) || c.toNat == 8232 ||
  c.toNat == 8233 || c.toNat == 8239 || c.toNat == 8287 || c.toNat == 12288

/-- Go `strings.TrimSpace`, on the characters: leading and trailing white space removed. -/
def trimSpaceChars (l : List Char) : List Char :=
  (l.dropWhile unicodeIsSpace).rdropWhile unicodeIsSpace

/-- Go `strings.TrimSpace`. -/
def stringsTrimSpace (s : String) : String :=
  ⟨trimSpaceChars s.toList⟩

/-- Go `strings.Split(s, "\n")`, on the characters: the runs between the newlines. -/
def splitLinesChars : List Char → List (List Char)
  | [] => [[]]
  | c :: cs =>
    if c = '\n' then
      [] :: splitLinesChars cs
    else
      match splitLinesChars cs with
      | l :: ls => (c :: l) :: ls
      | [] => [[c]]

/-- Go `strings.Split(s, "\n")`. -/
def stringsSplitLines (s : String) : List String :=
  (splitLinesChars s.toList).map String.mk

/-- The result of `cmd.Output()`: the standard output and the error (`none` is nil). -/
structure CommandOutput where
  output : String
  err : Option String
deriving DecidableEq, Repr

/-- The errors of the catalog side of `models.go`. -/
inductive CatalogError where
  /-- Built at line 135. -/
  | listProjectsAndCurrent (err currentErr : String)
  /-- Built at line 139. -/
  | noProjectSet
  /-- Built at line 154. -/
  | noProjectsFound
  /-- Built at line 176. -/
  | listProjects (err : String)
  /-- Built at line 269. -/
  | listSQLInstances (project err : String)
  /-- Built at line 328. -/
  | listGKEClusters (project err : String)
deriving DecidableEq, Repr

/-- The message of a catalog error, as `fmt.Errorf` formats it. -/
def CatalogError.Error : CatalogError → String
  | .listProjectsAndCurrent err currentErr =>
      "failed to list projects and get current project: " ++ err ++ ", " ++ currentErr
  | .noProjectSet =>
      "no project set in gcloud config. Run 'gcloud config set project PROJECT_ID'"
  | .noProjectsFound => "no projects found. Ensure you have access to at least one project"
  | .listProjects err => "failed to list projects: " ++ err
  | .listSQLInstances project err =>
      "failed to list SQL instances in project " ++ project ++ ": " ++ err
  | .listGKEClusters project err =>
      "failed to list GKE clusters in project " ++ project ++ ": " ++ err

/-- The body of the loop over the lines (161-167), on the pair of `projectMap` (the
keys set to true) and `validProjects`. -/
def addProject (acc : List String × List String) (p : String) : List String × List String :=
  if stringsTrimSpace p != "" && !(acc.1.contains (stringsTrimSpace p)) then
    (stringsTrimSpace p :: acc.1, acc.2 ++ [stringsTrimSpace p])
  else
    acc

/-- `ListProjects` gets all projects accessible to the user.  `list` is the outcome of
`gcloud projects list`: its error, or its output, which the code reads only when there
is no error.  `current` is what `gcloud config get-value project` returns if it is
run; line 149 reads its output whatever its error. -/
def ListProjects (list : Except String String) (current : CommandOutput) :
    Except CatalogError (List String) :=
  match list with
  | .error err =>
    match current.err with
    | some currentErr => .error (.listProjectsAndCurrent err currentErr)
    | none =>
      if stringsTrimSpace current.output == "" then
        .error .noProjectSet
      else
        .ok [stringsTrimSpace current.output]
  | .ok output =>
    if stringsTrimSpace output == "" then
      if stringsTrimSpace current.output != "" then
        .ok [stringsTrimSpace current.output]
      else
        .error .noProjectsFound
    else
      .ok ((stringsSplitLines (stringsTrimSpace output)).foldl addProject ([], [])).2

/-- The non-blank trimmed lines of an output, in order. -/
def nonBlankLines (output : String) : List String :=
  ((stringsSplitLines output).map stringsTrimSpace).filter (fun p => p != "")

/-- The distinct elements of a list, each at its first occurrence. -/
def firstOccurrences : List String → List String
  | [] => []
  | x :: xs => x :: (firstOccurrences xs).filter (fun y => y != x)

/-! ## The catalog (172-262) -/

/-- The `result` a fetch task sends on `resultChan`. -/
structure result where
  resources : List CloudResource
  project : String
  err : Option CatalogError
deriving DecidableEq, Repr

/-- The body of the loop over `resultChan` (243-256), on the pair of `allResources`
and `failedProjects` (its entries in the order they were appended). -/
def collectResult (acc : List CloudResource × List (String × String)) (res : result) :
    List CloudResource × List (String × String) :=
  match res.err with
  | some err =>
    let resourceType :=
      if stringsContains err.Error "SQL" then "SQL"
      else if stringsContains err.Error "GKE" then "GKE"
      else "unknown"
    (acc.1, acc.2 ++ [(res.project, resourceType)])
  | none => (acc.1 ++ res.resources, acc.2)

/-- `ListAllResources` gets all SQL instances and GKE clusters across projects.
`projects` is what `nm.ListProjects()` returned and `received` are the results read
from `resultChan` until it is closed, in the order they arrived. -/
def ListAllResources
    (sortSlice : (CloudResource → CloudResource → Bool) → List CloudResource → List CloudResource)
    (projects : Except CatalogError (List String)) (received : List result) :
    Except CatalogError (List CloudResource) :=
  match projects with
  | .error err => .error (.listProjects err.Error)
  | .ok _ => .ok (sortResources sortSlice (received.foldl collectResult ([], [])).1)

/-- The capacity of `semaphore` (186-191). -/
def maxConcurrent (projects : List String) : Nat :=
  if projects.length < 20 then projects.length else 20

/-- Where a fetch task is (200-213): before `semaphore <- struct{}{}`, holding a slot
(its backend call in flight), or past the deferred `<-semaphore`. -/
inductive TaskPhase where
  | queued
  | holding
  | released
deriving DecidableEq, Repr

/-- The number of slots of the semaphore that are held. -/
def slotsHeld (tasks : List TaskPhase) : Nat :=
  tasks.count .holding

/-- A step of the fan-out on a semaphore of the given capacity: a queued task sends
on the channel, which it can while the buffer is not full, or a task holding a slot
receives from it. -/
inductive FanOutStep (capacity : Nat) : List TaskPhase → List TaskPhase → Prop where
  | acquire (before after : List TaskPhase) :
      slotsHeld (before ++ TaskPhase.queued :: after) < capacity →
      FanOutStep capacity (before ++ TaskPhase.queued :: after)
        (before ++ TaskPhase.holding :: after)
  | release (before after : List TaskPhase) :
      FanOutStep capacity (before ++ TaskPhase.holding :: after)
        (before ++ TaskPhase.released :: after)

/-- The states the fan-out reaches from a state, by any number of steps. -/
inductive FanOutRun (capacity : Nat) : List TaskPhase → List TaskPhase → Prop where
  | start (tasks : List TaskPhase) : FanOutRun capacity tasks tasks
  | step (a b c : List TaskPhase) :
      FanOutRun capacity a b → FanOutStep capacity b c → FanOutRun capacity a c

/-- A successful result of a task of project `p1`. -/
def okResult (resources : List CloudResource) : result :=
  { resources := resources, project := "p1", err := none }

/-- A failed result of the cluster task of project `p2`, carrying stale resources. -/
def failedResult (resources : List CloudResource) : result :=
  { resources := resources, project := "p2", err := some (.listGKEClusters "p2" "denied") }

/-- The non-blank trimmed lines of a sequence of characters, in order. -/
def nonBlankLinesChars (s : List Char) : List (List Char) :=
  ((splitLinesChars s).map trimSpaceChars).filter (fun l => !l.isEmpty)

/-- The project-inventory command failed or printed only white space. -/
def inventoryFailedOrBlank : Except String String → Bool
  | .error _ => true
  | .ok output => stringsTrimSpace output == ""

/-- The current-project command yields no non-blank identifier: it failed or printed
only white space. -/
def currentYieldsNoProject (current : CommandOutput) : Bool :=
  current.err.isSome || stringsTrimSpace current.output == ""

/-! ## The two fetch tasks of a project (197-229, 264-365) -/

/-- `nm.sqlService.Instances.List(project).Context(nm.ctx).Do()`, reduced to `resp.Items`. -/
def sqlInstancesList {σ : Type} (nm : NetworkManager σ) (project : String)
    (w : World σ) : Except String (List DatabaseInstance) × World σ :=
  let r := nm.sqlService.InstancesList project w.backend
  (r.1, ⟨r.2, w.calls ++ [Call.sqlInstancesList project]⟩)

/-- `nm.gkeService.Projects.Locations.Clusters.List(parent).Context(nm.ctx).Do()`,
reduced to `resp.Clusters`. -/
def gkeClustersList {σ : Type} (nm : NetworkManager σ) (parent : String)
    (w : World σ) : Except String (List Cluster) × World σ :=
  let r := nm.gkeService.ClustersList parent w.backend
  (r.1, ⟨r.2, w.calls ++ [Call.gkeClustersList parent]⟩)

/-- The body of the loop over `resp.Items` (274-313): the resource appended for one
instance record. -/
def listedSQLInstance (project : String) (inst : DatabaseInstance) : CloudResource :=
  let scanned := inst.IpAddresses.foldl scanIpAddress (false, "")
  let privateIP := scanned.2
  let ipConfiguration : Option IpConfiguration :=
    match inst.Settings with
    | some settings => settings.IpConfiguration
    | none => none
  let hasPublicIP :=
    match ipConfiguration with
    | some c => c.Ipv4Enabled
    | none => scanned.1
  let networks :=
    match ipConfiguration with
    | some c => c.AuthorizedNetworks.map aclEntryToNetwork
    | none => []
  .sql
    { Name := inst.Name, Project := project, Region := inst.Region,
      DatabaseVersion := inst.DatabaseVersion, State := inst.State,
      AuthorizedNetworks := networks, ConnectionName := inst.ConnectionName,
      PublicIPEnabled := hasPublicIP, PrivateIP := privateIP }

/-- `listSQLInstancesInProject` gets SQL instances from a specific project. -/
def listSQLInstancesInProject {σ : Type} (nm : NetworkManager σ) (project : String)
    (w : World σ) : Except CatalogError (List CloudResource) × World σ :=
  let r := sqlInstancesList nm project w
  match r.1 with
  | .error err => (.error (.listSQLInstances project err), r.2)
  | .ok items => (.ok (items.map (listedSQLInstance project)), r.2)

/-- The body of the loop over `resp.Clusters` (332-361): the resource appended for one
cluster record. -/
def listedGKECluster (project : String) (cluster : Cluster) : CloudResource :=
  let networks :=
    match cluster.MasterAuthorizedNetworksConfig with
    | some c => if c.Enabled then c.CidrBlocks.map cidrBlockToNetwork else []
    | none => []
  let g : GKECluster :=
    match cluster.PrivateClusterConfig with
    | some c =>
      { Name := cluster.Name, Project := project, Location := cluster.Location,
        State := cluster.Status, Endpoint := cluster.Endpoint,
        MasterAuthorizedNetworks := networks,
        PrivateClusterEnabled := c.EnablePrivateNodes,
        PrivateEndpoint := c.PrivateEndpoint, PublicEndpoint := c.PublicEndpoint }
    | none =>
      { Name := cluster.Name, Project := project, Location := cluster.Location,
        State := cluster.Status, Endpoint := cluster.Endpoint,
        MasterAuthorizedNetworks := networks,
        PrivateClusterEnabled := false,
        PrivateEndpoint := "", PublicEndpoint := cluster.Endpoint }
  .gke g

/-- The `parent` of the clusters of a project in all locations (323): the project
under `projects`, then `locations` and a dash. -/
def locationsPath (project : String) : String :=
  "projects/" ++ project ++ "/locations/-"

/-- `listGKEClustersInProject` gets GKE clusters from a specific project. -/
def listGKEClustersInProject {σ : Type} (nm : NetworkManager σ) (project : String)
    (w : World σ) : Except CatalogError (List CloudResource) × World σ :=
  let parent := locationsPath project
  let r := gkeClustersList nm parent w
  match r.1 with
  | .error err => (.error (.listGKEClusters project err), r.2)
  | .ok clusters => (.ok (clusters.map (listedGKECluster project)), r.2)

/-- The fetch tasks `ListAllResources` starts for a project (197-229). -/
inductive FetchTask where
  | sqlInstances (p : String)
  | gkeClusters (p : String)
deriving DecidableEq, Repr

/-- The tasks started for the projects, in the order of the `go` statements. -/
def scheduledTasks (projects : List String) : List FetchTask :=
  projects.flatMap (fun p => [FetchTask.sqlInstances p, FetchTask.gkeClusters p])

/-- The `result` built from what a list function returned (207-211, 224-228); a failed
list function returns a nil slice. -/
def taskResult (p : String) (r : Except CatalogError (List CloudResource)) : result :=
  match r with
  | .ok resources => { resources := resources, project := p, err := none }
  | .error err => { resources := [], project := p, err := some err }

/-- The body of the goroutine of a task, between taking and giving back its slot of
the semaphore: the `result` it sends on `resultChan`, and the world after its call. -/
def runTask {σ : Type} (nm : NetworkManager σ) (task : FetchTask) (w : World σ) :
    result × World σ :=
  match task with
  | .sqlInstances p =>
    let r := listSQLInstancesInProject nm p w
    (taskResult p r.1, r.2)
  | .gkeClusters p =>
    let r := listGKEClustersInProject nm p w
    (taskResult p r.1, r.2)

/-- The record of a cluster in a location, with nothing else set. -/
def zonedCluster (name location : String) : Cluster :=
  { Name := name, Location := location, Status := "", Endpoint := "",
    PrivateClusterConfig := none, MasterAuthorizedNetworksConfig := none }

/-- The in-memory backend of project `p1` holding two clusters `api`, one in zone
`us-east1-b` and one in zone `europe-west1-c`, and no instance. -/
def twinWorld : World MemBackend :=
  ⟨⟨[], [(clusterPath "p1" "us-east1-b" "api", zonedCluster "api" "us-east1-b"),
      (clusterPath "p1" "europe-west1-c" "api", zonedCluster "api" "europe-west1-c")]⟩, []⟩

/-- A backend that counts the status queries: a query takes one second, the operation
is RUNNING for the first `pending` queries, and every later query fails with
`unavailable`. -/
def failingStatusManager (pending : Nat) : NetworkManager Nat :=
  { sqlService :=
      { InstancesList := fun _ s => (.ok [], s)
        InstancesGet := fun _ _ s => (.ok (plainInstance "db1" []), s)
        InstancesPatch := fun _ _ _ s => (.ok ⟨"op-sql", "PENDING", none⟩, s)
        OperationsGet := fun _ _ s =>
          ((if s < pending then .ok ⟨"op-sql", "RUNNING", none⟩ else .error "unavailable",
            Second), s + 1) }
    gkeService :=
      { ClustersList := fun _ s => (.ok [], s)
        ClustersGet := fun _ s => (.ok (plainCluster "c1" []), s)
        ClustersUpdate := fun _ _ s => (.ok ⟨"op-gke", "PENDING", none⟩, s)
        OperationsGet := fun _ s =>
          ((if s < pending then .ok ⟨"op-gke", "RUNNING", none⟩ else .error "unavailable",
            Second), s + 1) }
    timerOnTie := fun _ => false }

/-- A backend whose two list calls are refused. -/
def deniedListManager : NetworkManager Unit :=
  { sqlService :=
      { InstancesList := fun _ s => (.error "denied", s)
        InstancesGet := fun _ _ s => (.error "denied", s)
        InstancesPatch := fun _ _ _ s => (.error "denied", s)
        OperationsGet := fun _ _ s => ((.error "denied", 0), s) }
    gkeService :=
      { ClustersList := fun _ s => (.error "denied", s)
        ClustersGet := fun _ s => (.error "denied", s)
        ClustersUpdate := fun _ _ s => (.error "denied", s)
        OperationsGet := fun _ s => ((.error "denied", 0), s) }
    timerOnTie := fun _ => false }

/-- The value of `PublicIPEnabled` by the rule "the flag `Ipv4Enabled` when an IP
configuration is present, and otherwise whether some listed address is of type
PRIMARY". -/
def publicIPEnabledRule (inst : DatabaseInstance) : Bool :=
  match inst.Settings with
  | some settings =>
    match settings.IpConfiguration with
    | some c => c.Ipv4Enabled
    | none => inst.IpAddresses.any (fun ip => ip.Typ == "PRIMARY")
  | none => inst.IpAddresses.any (fun ip => ip.Typ == "PRIMARY")

/-- The record of instance `db2`: a PRIMARY and a PRIVATE address, and an IP
configuration with `Ipv4Enabled = false` holding the entry `home`. -/
def shutInstance : DatabaseInstance :=
  { Name := "db2", Region := "us-east1", DatabaseVersion := "POSTGRES_15", State := "RUNNABLE",
    ConnectionName := "p1:us-east1:db2",
    IpAddresses := [⟨"PRIMARY", "203.0.113.9"⟩, ⟨"PRIVATE", "10.0.0.9"⟩],
    Settings := some ⟨some ⟨false, [homeEntry]⟩⟩ }

/-- The in-memory backend holding the instance `db2` in project `p1`. -/
def shutWorld : World MemBackend :=
  ⟨⟨[(("p1", "db2"), shutInstance)], []⟩, []⟩

/-- The record of cluster `c1` in zone `z`: the master authorized networks
configuration is present, not enabled, and holds the block `home`. -/
def disabledCluster : Cluster :=
  { Name := "c1", Location := "z", Status := "RUNNING", Endpoint := "192.0.2.1",
    PrivateClusterConfig := none,
    MasterAuthorizedNetworksConfig := some ⟨false, [homeBlock]⟩ }

/-- The in-memory backend holding the cluster `c1` of project `p1` in zone `z`. -/
def disabledWorld : World MemBackend :=
  ⟨⟨[], [(clusterPath "p1" "z" "c1", disabledCluster)]⟩, []⟩

/-- What the list and the detail of `db2` show in `shutWorld`. -/
def shutDetail : SQLInstance :=
  { Name := "db2", Project := "p1", Region := "us-east1", DatabaseVersion := "POSTGRES_15",
    State := "RUNNABLE", AuthorizedNetworks := [aclEntryToNetwork homeEntry],
    ConnectionName := "p1:us-east1:db2", PublicIPEnabled := false, PrivateIP := "10.0.0.9" }

/-- What the list and the detail of `c1` show in `disabledWorld`. -/
def disabledDetail : GKECluster :=
  { Name := "c1", Project := "p1", Location := "z", State := "RUNNING", Endpoint := "192.0.2.1",
    MasterAuthorizedNetworks := [], PrivateClusterEnabled := false, PrivateEndpoint := "",
    PublicEndpoint := "192.0.2.1" }

/-- The type and the project of the resources a task lists (the constant of `GetType()`
and the `Project` the list function sets). -/
def FetchTask.key : FetchTask → ResourceType × String
  | .sqlInstances p => (ResourceTypeSQL, p)
  | .gkeClusters p => (ResourceTypeGKE, p)

/-- The record of an instance with nothing but a name and a region. -/
def plainRegional (name region : String) : DatabaseInstance :=
  { Name := name, Region := region, DatabaseVersion := "", State := "", ConnectionName := "",
    IpAddresses := [], Settings := none }

/-- The in-memory backend of project `p1` holding the instance `db1` and the clusters
`api` and `web`. -/
def catalogWorld : World MemBackend :=
  ⟨⟨[(("p1", "db1"), plainRegional "db1" "us-east1")],
    [(clusterPath "p1" "us-east1-b" "api", zonedCluster "api" "us-east1-b"),
      (clusterPath "p1" "europe-west1-c" "web", zonedCluster "web" "europe-west1-c")]⟩, []⟩

/-- The reply a task receives in a world lists no name twice (a failed call lists
nothing). -/
def replyNamesDistinct {σ : Type} (nm : NetworkManager σ) (task : FetchTask) (w : World σ) :
    Bool :=
  match task with
  | .sqlInstances p =>
    match (nm.sqlService.InstancesList p w.backend).1 with
    | .ok items => decide (items.map (fun inst => inst.Name)).Nodup
    | .error _ => true
  | .gkeClusters p =>
    match (nm.gkeService.ClustersList (locationsPath p) w.backend).1 with
    | .ok clusters => decide (clusters.map (fun cluster => cluster.Name)).Nodup
    | .error _ => true

/-- The keys `(type, project, name)` of the resources the catalog collects from the
results of the given runs of tasks. -/
def collectedKeys {σ : Type} (nm : NetworkManager σ) (runs : List (FetchTask × World σ)) :
    List (String × String × String) :=
  (((runs.map (fun run => (runTask nm run.1 run.2).1)).foldl collectResult ([], [])).1).map
    resourceKey

/-! ## The session state machine (`tui.go` 22-61, 189-207, 253-441, 519-529) -/

/-- The application states. -/
inductive sessionState where
  | stateLoading
  | stateResourceSelection
  | stateNetworkView
  | stateAddNetwork
  | stateError
deriving DecidableEq, Repr

/-- The `Model` of the terminal interface.  `S`, `L` and `T` are the library types
`spinner.Model`, `list.Model` and `textinput.Model`; a `CloudResource` field is an
interface value, `none` being nil; times are nanoseconds.  The field `networkManager`,
which `Update` neither reads nor writes, is left out. -/
structure Model (S L T : Type) where
  state : sessionState
  width : Int
  height : Int
  spinner : S
  resourceList : L
  selectedResource : Option CloudResource
  resources : List CloudResource
  nameInput : T
  ipInput : T
  addFormFocus : Int
  message : String
  isError : Bool
  isLoading : Bool
  isSubmitting : Bool
  submitStartTime : Nat
  activeTab : Int
  showHelp : Bool

/-- The messages `Update` receives: `KeyMsg` carries what `msg.String()` returns,
`errorMsg` the message of its error (every `errorMsg` is built from a non-nil error,
756-811), and `otherMsg` is a message of any other type, of the library type `X`. -/
inductive Msg (X : Type) where
  | WindowSizeMsg (Width Height : Int)
  | KeyMsg (key : String)
  | resourcesLoadedMsg (resources : List CloudResource)
  | resourceSelectedMsg (resource : Option CloudResource)
  | networkAddedMsg (success : Bool) (message : String)
  | errorMsg (err : String)
  | tickMsg (t : Nat)
  | otherMsg (x : X)

/-- The commands `Update` returns; `component` is a command of a library component,
of the library type `C`, and `batch` is `tea.Batch`. -/
inductive Cmd (C : Type) where
  | Quit
  | loadResources
  | selectResource (resource : Option CloudResource)
  | submitAddNetwork (resource : Option CloudResource) (name ip : String)
  | openConsoleURL (resource : Option CloudResource)
  | tickCmd
  | component (c : C)
  | batch (cmds : List (Cmd C))

/-- The library components and the environment `Update` calls: the methods of the
spinner, the list and the two text inputs, `getUserName()`, `getPublicIP()`,
`time.Now()` and the `%.0f` rendering of `time.Since(start).Seconds()`. -/
structure Runtime (S L T X C : Type) where
  spinnerUpdate : S → Msg X → S × C
  listSetWidth : L → Int → L
  listSetHeight : L → Int → L
  listSetItems : L → List CloudResource → L
  listSelectedItem : L → Option CloudResource
  listUpdate : L → Msg X → L × C
  inputReset : T → T
  inputSetValue : T → String → T
  inputBlur : T → T
  inputFocus : T → T
  inputValue : T → String
  inputUpdate : T → Msg X → T × C
  getUserName : String
  getPublicIP : String
  now : Nat
  sinceSeconds : Nat → String

/-- The `networks` the network view shows (520-529): the type switch on the selected
resource, which leaves the slice nil for a nil interface. -/
def shownNetworks : Option CloudResource → List AuthorizedNetwork
  | some (.sql r) => r.AuthorizedNetworks
  | some (.gke r) => r.MasterAuthorizedNetworks
  | none => []

/-- The second switch of `Update` (416-438), "Update components", and the final
`return m, tea.Batch(cmds...)`. -/
def updateComponents {S L T X C : Type} (rt : Runtime S L T X C) (m : Model S L T)
    (msg : Msg X) : Model S L T × Cmd C :=
  match m.state with
  | .stateLoading =>
    let r := rt.spinnerUpdate m.spinner msg
    ({ m with spinner := r.1 }, .batch [.component r.2])
  | .stateResourceSelection =>
    let r := rt.listUpdate m.resourceList msg
    ({ m with resourceList := r.1 }, .batch [.component r.2])
  | .stateAddNetwork =>
    if !m.isSubmitting then
      if m.addFormFocus = 0 then
        let r := rt.inputUpdate m.nameInput msg
        ({ m with nameInput := r.1 }, .batch [.component r.2])
      else if m.addFormFocus = 1 then
        let r := rt.inputUpdate m.ipInput msg
        ({ m with ipInput := r.1 }, .batch [.component r.2])
      else
        (m, .batch [])
    else
      (m, .batch [])
  | _ => (m, .batch [])

/-- The case `"?"` of the switch on the key (268-271).  Like every case below, it
returns the model after the case, with the command of a `return` statement when the
case ends in one (`none`: control falls out of the switch); the whole result is `none`
when the case panics. -/
def keyHelp {S L T C : Type} (m : Model S L T) : Option (Model S L T × Option (Cmd C)) :=
  if m.state ≠ .stateLoading ∧ m.state ≠ .stateError then
    some ({ m with showHelp := !m.showHelp }, none)
  else
    some (m, none)

/-- The case `"esc"` (272-278). -/
def keyEsc {S L T C : Type} (m : Model S L T) : Option (Model S L T × Option (Cmd C)) :=
  if m.showHelp then
    some ({ m with showHelp := false }, none)
  else if m.state = .stateNetworkView ∨ m.state = .stateAddNetwork then
    some ({ m with state := .stateResourceSelection, message := "" }, none)
  else
    some (m, none)

/-- The case `"a"` (279-305); calling `CanAddNetwork()` on a nil `selectedResource`
panics. -/
def keyAdd {S L T X C : Type} (rt : Runtime S L T X C) (m : Model S L T) :
    Option (Model S L T × Option (Cmd C)) :=
  if m.state = .stateNetworkView then
    match m.selectedResource with
    | none => none
    | some resource =>
      if resource.CanAddNetwork then
        let nameInput := rt.inputReset m.nameInput
        let ipInput := rt.inputReset m.ipInput
        let nameInput :=
          if rt.getUserName ≠ "" then rt.inputSetValue nameInput rt.getUserName else nameInput
        let ipInput :=
          if rt.getPublicIP ≠ "" then rt.inputSetValue ipInput rt.getPublicIP else ipInput
        some ({ m with
          state := .stateAddNetwork, nameInput := rt.inputBlur nameInput,
          ipInput := rt.inputBlur ipInput, addFormFocus := -1 }, none)
      else
        some ({ m with
          message := "Cannot add networks to this resource: " ++ resource.GetNetworkRestrictions,
          isError := true }, none)
  else
    some (m, none)

/-- The case `"c"` (306-310). -/
def keyConsole {S L T C : Type} (m : Model S L T) : Option (Model S L T × Option (Cmd C)) :=
  if m.state = .stateNetworkView then
    some (m, some (.openConsoleURL m.selectedResource))
  else
    some (m, none)

/-- The case `"r"` (311-315). -/
def keyReload {S L T C : Type} (m : Model S L T) : Option (Model S L T × Option (Cmd C)) :=
  if m.state = .stateResourceSelection ∨ m.state = .stateNetworkView then
    some ({ m with state := .stateLoading }, some .loadResources)
  else
    some (m, none)

/-- The case `"enter"` (316-343). -/
def keyEnter {S L T X C : Type} (rt : Runtime S L T X C) (m : Model S L T) :
    Option (Model S L T × Option (Cmd C)) :=
  if m.state = .stateResourceSelection then
    match rt.listSelectedItem m.resourceList with
    | some resource => some (m, some (.selectResource (some resource)))
    | none => some (m, none)
  else if m.state = .stateAddNetwork then
    if m.addFormFocus = -1 then
      some ({ m with
        addFormFocus := 0, nameInput := rt.inputFocus m.nameInput,
        ipInput := rt.inputBlur m.ipInput }, none)
    else if m.addFormFocus = 0 then
      some ({ m with
        addFormFocus := 1, nameInput := rt.inputBlur m.nameInput,
        ipInput := rt.inputFocus m.ipInput }, none)
    else if m.addFormFocus = 1 then
      some ({ m with
        message := "Adding network... (0s) - GCP may take up to 60 seconds",
        isError := false, isSubmitting := true, submitStartTime := rt.now },
        some (.batch [.submitAddNetwork m.selectedResource (rt.inputValue m.nameInput)
          (rt.inputValue m.ipInput), .tickCmd]))
    else
      some (m, none)
  else
    some (m, none)

/-- The case `"tab"` (344-359). -/
def keyTab {S L T X C : Type} (rt : Runtime S L T X C) (m : Model S L T) :
    Option (Model S L T × Option (Cmd C)) :=
  if m.state = .stateAddNetwork then
    if m.addFormFocus = -1 then
      some ({ m with
        addFormFocus := 0, nameInput := rt.inputFocus m.nameInput,
        ipInput := rt.inputBlur m.ipInput }, none)
    else if m.addFormFocus = 0 then
      some ({ m with
        addFormFocus := 1, nameInput := rt.inputBlur m.nameInput,
        ipInput := rt.inputFocus m.ipInput }, none)
    else
      some ({ m with
        addFormFocus := 0, ipInput := rt.inputBlur m.ipInput,
        nameInput := rt.inputFocus m.nameInput }, none)
  else
    some (m, none)

/-- The case `tea.KeyMsg` of `Update` (264-360): the switch on `msg.String()`. -/
def handleKey {S L T X C : Type} (rt : Runtime S L T X C) (m : Model S L T) (key : String) :
    Option (Model S L T × Option (Cmd C)) :=
  if key = "ctrl+c" ∨ key = "q" then some (m, some .Quit)
  else if key = "?" then keyHelp m
  else if key = "esc" then keyEsc m
  else if key = "a" then keyAdd rt m
  else if key = "c" then keyConsole m
  else if key = "r" then keyReload m
  else if key = "enter" then keyEnter rt m
  else if key = "tab" then keyTab rt m
  else some (m, none)

/-- The switch of `Update` on the type of the message (257-414), with the result read
as for `handleKey`. -/
def handleMsg {S L T X C : Type} (rt : Runtime S L T X C) (m : Model S L T) (msg : Msg X) :
    Option (Model S L T × Option (Cmd C)) :=
  match msg with
  | .WindowSizeMsg Width Height =>
    some ({ m with
      width := Width, height := Height,
      resourceList := rt.listSetHeight (rt.listSetWidth m.resourceList (Width - 4))
        (Height - 10) }, none)
  | .KeyMsg key => handleKey rt m key
  | .resourcesLoadedMsg resources =>
    some ({ m with
      isLoading := false, resources := resources,
      resourceList := rt.listSetItems m.resourceList resources,
      state := .stateResourceSelection }, none)
  | .resourceSelectedMsg resource =>
    some ({ m with selectedResource := resource, state := .stateNetworkView, message := "" },
      none)
  | .networkAddedMsg success message =>
    if success then
      some ({ m with
        isSubmitting := false, message := message, isError := false,
        state := .stateNetworkView }, some (.selectResource m.selectedResource))
    else
      some ({ m with isSubmitting := false, message := message, isError := true }, none)
  | .errorMsg err =>
    some ({ m with
      message := err, isError := true, isSubmitting := false,
      state := if m.state ≠ .stateAddNetwork then .stateError else m.state }, none)
  | .tickMsg _ =>
    if m.isSubmitting ∧ m.state = .stateAddNetwork then
      some ({ m with
        message := "Adding network... (" ++ rt.sinceSeconds m.submitStartTime ++
          "s) - GCP may take up to 60 seconds" }, some .tickCmd)
    else
      some (m, none)
  | .otherMsg _ => some (m, none)

/-- `Update` handles messages: the model and the command it returns, `none` when it
panics. -/
def Model.Update {S L T X C : Type} (rt : Runtime S L T X C) (m : Model S L T) (msg : Msg X) :
    Option (Model S L T × Cmd C) :=
  match handleMsg rt m msg with
  | none => none
  | some (m1, some cmd) => some (m1, cmd)
  | some (m1, none) => some (updateComponents rt m1 msg)

/-- A runtime whose spinner has no state, whose list is the slice of its items with
the first one selected, and whose text inputs are their values. -/
def plainRuntime : Runtime Unit (List CloudResource) String Unit Unit :=
  { spinnerUpdate := fun s _ => (s, ())
    listSetWidth := fun l _ => l
    listSetHeight := fun l _ => l
    listSetItems := fun _ items => items
    listSelectedItem := fun l => l.head?
    listUpdate := fun l _ => (l, ())
    inputReset := fun _ => ""
    inputSetValue := fun _ v => v
    inputBlur := fun t => t
    inputFocus := fun t => t
    inputValue := fun t => t
    inputUpdate := fun t _ => (t, ())
    getUserName := "ada"
    getPublicIP := "203.0.113.5/32"
    now := 0
    sinceSeconds := fun _ => "1" }

/-- The model while the form to add a network to `db1` is being submitted. -/
def submittingModel : Model Unit (List CloudResource) String :=
  { state := .stateAddNetwork, width := 80, height := 24, spinner := (),
    resourceList := [.sql homeDetail], selectedResource := some (.sql homeDetail),
    resources := [.sql homeDetail], nameInput := "office", ipInput := "198.51.100.7",
    addFormFocus := 1, message := "Adding network... (0s) - GCP may take up to 60 seconds",
    isError := false, isLoading := false, isSubmitting := true, submitStartTime := 0,
    activeTab := 0, showHelp := false }

/-! ## Lemmas on strings -/

theorem singleton_infix_iff_mem (c : Char) (l : List Char) : [c] <:+: l ↔ c ∈ l := by
  constructor
  · rintro ⟨s, t, h⟩
    rw [← h]
    simp
  · intro h
    obtain ⟨s, t, h⟩ := List.append_of_mem h
    exact ⟨s, t, by simp [h]⟩

theorem stringsContains_slash_iff (s : String) :
    stringsContains s "/" = true ↔ '/' ∈ s.toList := by
  unfold stringsContains
  rw [decide_eq_true_iff]
  exact singleton_infix_iff_mem '/' s.toList

theorem stringsContains_append_slash32 (s : String) :
    stringsContains (s ++ "/32") "/" = true := by
  rw [stringsContains_slash_iff]
  simp

theorem strLess_iff (a b : String) : strLess a b = true ↔ a < b := by
  unfold strLess
  rw [decide_eq_true_iff, String.lt_iff_toList_lt]

theorem strLess_eq_false_iff (a b : String) : strLess a b = false ↔ b ≤ a := by
  rw [← not_lt, ← strLess_iff]
  cases strLess a b <;> simp

/-! ## `normalizeIP` -/

theorem normalizeIP_of_slash (s : String) (h : '/' ∈ s.toList) : normalizeIP s = .ok s := by
  unfold normalizeIP
  rw [(stringsContains_slash_iff s).mpr h]
  rfl

theorem normalizeIP_of_no_slash (s : String) (h : '/' ∉ s.toList) :
    normalizeIP s = .ok (s ++ "/32") := by
  unfold normalizeIP
  have : stringsContains s "/" = false := by
    cases hc : stringsContains s "/"
    · rfl
    · exact absurd ((stringsContains_slash_iff s).mp hc) h
  rw [this]
  rfl

theorem normalizeIP_eq (ip : String) :
    normalizeIP ip = .ok (if '/' ∈ ip.toList then ip else ip ++ "/32") := by
  by_cases h : '/' ∈ ip.toList
  · rw [if_pos h]
    exact normalizeIP_of_slash ip h
  · rw [if_neg h]
    exact normalizeIP_of_no_slash ip h

theorem normalizeIP_ne_error (ip err : String) : normalizeIP ip ≠ .error err := by
  rw [normalizeIP_eq]
  intro h
  cases h

theorem normalizeIP_ok_slash (ip nip : String) (h : normalizeIP ip = .ok nip) :
    '/' ∈ nip.toList := by
  rw [normalizeIP_eq] at h
  by_cases hs : '/' ∈ ip.toList
  · rw [if_pos hs] at h
    cases h
    exact hs
  · rw [if_neg hs] at h
    cases h
    simp

/-! ## The polling loops never report an invalid address -/

theorem waitForSQLOperationLoop_ne_invalidIP {σ : Type} (nm : NetworkManager σ)
    (project operationName : String) (timeout : Nat) (err : String) (w' : World σ) :
    ∀ (fuel elapsed : Nat) (w : World σ),
      waitForSQLOperationLoop nm project operationName timeout fuel elapsed w
        ≠ some (.error (.invalidIPFormat err), w') := by
  intro fuel
  induction fuel with
  | zero => intro elapsed w h; simp [waitForSQLOperationLoop] at h
  | succ n ih =>
    intro elapsed w h
    simp only [waitForSQLOperationLoop] at h
    split at h
    · split at h
      · simp at h
      · split at h
        · split at h
          · split at h
            · simp at h
            · simp at h
          · simp at h
        · exact ih _ _ h
    · simp at h

theorem waitForGKEOperationLoop_ne_invalidIP {σ : Type} (nm : NetworkManager σ)
    (opName : String) (timeout : Nat) (err : String) (w' : World σ) :
    ∀ (fuel elapsed : Nat) (w : World σ),
      waitForGKEOperationLoop nm opName timeout fuel elapsed w
        ≠ some (.error (.invalidIPFormat err), w') := by
  intro fuel
  induction fuel with
  | zero => intro elapsed w h; simp [waitForGKEOperationLoop] at h
  | succ n ih =>
    intro elapsed w h
    simp only [waitForGKEOperationLoop] at h
    split at h
    · split at h
      · simp at h
      · split at h
        · split at h
          · simp at h
          · simp at h
        · exact ih _ _ h
    · simp at h

theorem addNetworkToSQLInstance_ne_invalidIP {σ : Type} (nm : NetworkManager σ)
    (project instanceName networkName networkIP err : String) (w w' : World σ) :
    addNetworkToSQLInstance nm project instanceName networkName networkIP w
      ≠ some (.error (.invalidIPFormat err), w') := by
  intro h
  unfold addNetworkToSQLInstance at h
  rw [normalizeIP_eq] at h
  simp only at h
  split at h
  · simp at h
  · split at h
    · split at h <;> simp at h
    · split at h
      · simp at h
      · exact waitForSQLOperationLoop_ne_invalidIP nm _ _ _ err w' _ _ _ h

theorem addNetworkToGKECluster_ne_invalidIP {σ : Type} (nm : NetworkManager σ)
    (project location clusterName networkName networkIP err : String) (w w' : World σ) :
    addNetworkToGKECluster nm project location clusterName networkName networkIP w
      ≠ some (.error (.invalidIPFormat err), w') := by
  intro h
  unfold addNetworkToGKECluster at h
  rw [normalizeIP_eq] at h
  simp only at h
  split at h
  · simp at h
  · split at h
    · split at h <;> simp at h
    · split at h
      · simp at h
      · exact waitForGKEOperationLoop_ne_invalidIP nm _ _ err w' _ _ _ h


/-! ## The polling loops: termination, calls issued, number of queries -/

theorem pollInterval_eq : pollInterval = 5000000000 := by decide

theorem selectTimer_le {σ : Type} (nm : NetworkManager σ) (timeout elapsed : Nat)
    (h : selectTimer nm timeout elapsed = true) : elapsed + pollInterval ≤ timeout := by
  unfold selectTimer at h
  split at h
  · omega
  · split at h
    · omega
    · simp at h

theorem selectTimer_of_lt {σ : Type} (nm : NetworkManager σ) (timeout elapsed : Nat)
    (h : elapsed + pollInterval < timeout) : selectTimer nm timeout elapsed = true := by
  unfold selectTimer
  rw [if_pos h]

theorem slots_step (timeout elapsed latency : Nat) (h : elapsed + pollInterval ≤ timeout) :
    (timeout - (elapsed + pollInterval + latency)) / pollInterval + 1
      ≤ (timeout - elapsed) / pollInterval := by
  rw [pollInterval_eq] at *
  omega

/-- With enough fuel the SQL polling loop returns; it only issues status queries for
its operation, at most one per poll interval left before the deadline; and when
every query succeeds without reporting DONE it returns the timeout error. -/
theorem waitForSQLOperationLoop_run {σ : Type} (nm : NetworkManager σ)
    (project operationName : String) (timeout : Nat) :
    ∀ (fuel elapsed : Nat) (w : World σ), 0 < fuel → timeout < fuel * pollInterval + elapsed →
      ∃ r w' qs,
        waitForSQLOperationLoop nm project operationName timeout fuel elapsed w = some (r, w') ∧
        w'.calls = w.calls ++ qs ∧
        (∀ c ∈ qs, c = Call.sqlOperationsGet project operationName) ∧
        qs.length ≤ (timeout - elapsed) / pollInterval ∧
        ((∀ s, ∃ op, (nm.sqlService.OperationsGet project operationName s).1.1 = .ok op ∧
            op.Status ≠ "DONE") →
          r = .error (.operationTimeout deadlineExceeded)) := by
  intro fuel
  induction fuel with
  | zero => intro elapsed w h; omega
  | succ n ih =>
    intro elapsed w _ hfuel
    simp only [waitForSQLOperationLoop]
    by_cases hsel : selectTimer nm timeout elapsed = true
    · rw [if_pos hsel]
      have hle := selectTimer_le nm timeout elapsed hsel
      have hslot : 1 ≤ (timeout - elapsed) / pollInterval := by
        rw [pollInterval_eq] at *
        omega
      have hcalls : (sqlOperationsGet nm project operationName w).2.calls
          = w.calls ++ [Call.sqlOperationsGet project operationName] := rfl
      have hreply : (sqlOperationsGet nm project operationName w).1.1
          = (nm.sqlService.OperationsGet project operationName w.backend).1.1 := rfl
      cases hr : (sqlOperationsGet nm project operationName w).1.1 with
      | error err =>
        refine ⟨_, _, [Call.sqlOperationsGet project operationName], rfl, hcalls, ?_, ?_, ?_⟩
        · simp
        · simpa using hslot
        · intro hp
          obtain ⟨op, hop, _⟩ := hp w.backend
          rw [← hreply, hr] at hop
          cases hop
      | ok op =>
        by_cases hdone : op.Status = "DONE"
        · have hd : (op.Status == "DONE") = true := by simp [hdone]
          simp only [hd, if_true]
          have hpend : (∀ s, ∃ op, (nm.sqlService.OperationsGet project operationName s).1.1
              = .ok op ∧ op.Status ≠ "DONE") → False := by
            intro hp
            obtain ⟨op', hop, hnd⟩ := hp w.backend
            rw [← hreply, hr] at hop
            cases hop
            exact hnd hdone
          cases hE : op.Error with
          | none =>
            exact ⟨_, _, [Call.sqlOperationsGet project operationName], rfl, hcalls,
              by simp, by simpa using hslot, fun hp => (hpend hp).elim⟩
          | some errors =>
            cases hL : errors.Errors with
            | nil =>
              simp only [hL]
              exact ⟨_, _, [Call.sqlOperationsGet project operationName], rfl, hcalls,
                by simp, by simpa using hslot, fun hp => (hpend hp).elim⟩
            | cons e es =>
              simp only [hL]
              exact ⟨_, _, [Call.sqlOperationsGet project operationName], rfl, hcalls,
                by simp, by simpa using hslot, fun hp => (hpend hp).elim⟩
        · have hd : (op.Status == "DONE") = false := by simp [hdone]
          simp only [hd]
          have hn : 0 < n := by
            rw [pollInterval_eq] at *
            rcases n with _ | m
            · omega
            · omega
          have hfuel' : timeout < n * pollInterval
              + (elapsed + pollInterval + (sqlOperationsGet nm project operationName w).1.2) := by
            rw [pollInterval_eq] at *
            omega
          obtain ⟨r, w', qs, hrun, hc, hall, hlen, hto⟩ :=
            ih (elapsed + pollInterval + (sqlOperationsGet nm project operationName w).1.2)
              (sqlOperationsGet nm project operationName w).2 hn hfuel'
          refine ⟨r, w', Call.sqlOperationsGet project operationName :: qs, ?_, ?_, ?_, ?_, hto⟩
          · simpa using hrun
          · rw [hc, hcalls]
            simp
          · intro c hc'
            rcases List.mem_cons.mp hc' with h | h
            · exact h
            · exact hall c h
          · have := slots_step timeout elapsed
              (sqlOperationsGet nm project operationName w).1.2 hle
            simp only [List.length_cons]
            omega
    · rw [if_neg hsel]
      exact ⟨_, w, [], rfl, by simp, by simp, by simp, fun _ => rfl⟩

/-- The same for the GKE polling loop. -/
theorem waitForGKEOperationLoop_run {σ : Type} (nm : NetworkManager σ)
    (opName : String) (timeout : Nat) :
    ∀ (fuel elapsed : Nat) (w : World σ), 0 < fuel → timeout < fuel * pollInterval + elapsed →
      ∃ r w' qs,
        waitForGKEOperationLoop nm opName timeout fuel elapsed w = some (r, w') ∧
        w'.calls = w.calls ++ qs ∧
        (∀ c ∈ qs, c = Call.gkeOperationsGet opName) ∧
        qs.length ≤ (timeout - elapsed) / pollInterval ∧
        ((∀ s, ∃ op, (nm.gkeService.OperationsGet opName s).1.1 = .ok op ∧
            op.Status ≠ "DONE") →
          r = .error (.operationTimeout deadlineExceeded)) := by
  intro fuel
  induction fuel with
  | zero => intro elapsed w h; omega
  | succ n ih =>
    intro elapsed w _ hfuel
    simp only [waitForGKEOperationLoop]
    by_cases hsel : selectTimer nm timeout elapsed = true
    · rw [if_pos hsel]
      have hle := selectTimer_le nm timeout elapsed hsel
      have hslot : 1 ≤ (timeout - elapsed) / pollInterval := by
        rw [pollInterval_eq] at *
        omega
      have hcalls : (gkeOperationsGet nm opName w).2.calls
          = w.calls ++ [Call.gkeOperationsGet opName] := rfl
      have hreply : (gkeOperationsGet nm opName w).1.1
          = (nm.gkeService.OperationsGet opName w.backend).1.1 := rfl
      cases hr : (gkeOperationsGet nm opName w).1.1 with
      | error err =>
        refine ⟨_, _, [Call.gkeOperationsGet opName], rfl, hcalls, ?_, ?_, ?_⟩
        · simp
        · simpa using hslot
        · intro hp
          obtain ⟨op, hop, _⟩ := hp w.backend
          rw [← hreply, hr] at hop
          cases hop
      | ok op =>
        by_cases hdone : op.Status = "DONE"
        · have hd : (op.Status == "DONE") = true := by simp [hdone]
          simp only [hd, if_true]
          have hpend : (∀ s, ∃ op, (nm.gkeService.OperationsGet opName s).1.1
              = .ok op ∧ op.Status ≠ "DONE") → False := by
            intro hp
            obtain ⟨op', hop, hnd⟩ := hp w.backend
            rw [← hreply, hr] at hop
            cases hop
            exact hnd hdone
          cases hE : op.Error with
          | none =>
            exact ⟨_, _, [Call.gkeOperationsGet opName], rfl, hcalls,
              by simp, by simpa using hslot, fun hp => (hpend hp).elim⟩
          | some status =>
            exact ⟨_, _, [Call.gkeOperationsGet opName], rfl, hcalls,
              by simp, by simpa using hslot, fun hp => (hpend hp).elim⟩
        · have hd : (op.Status == "DONE") = false := by simp [hdone]
          simp only [hd]
          have hn : 0 < n := by
            rw [pollInterval_eq] at *
            rcases n with _ | m
            · omega
            · omega
          have hfuel' : timeout < n * pollInterval
              + (elapsed + pollInterval + (gkeOperationsGet nm opName w).1.2) := by
            rw [pollInterval_eq] at *
            omega
          obtain ⟨r, w', qs, hrun, hc, hall, hlen, hto⟩ :=
            ih (elapsed + pollInterval + (gkeOperationsGet nm opName w).1.2)
              (gkeOperationsGet nm opName w).2 hn hfuel'
          refine ⟨r, w', Call.gkeOperationsGet opName :: qs, ?_, ?_, ?_, ?_, hto⟩
          · simpa using hrun
          · rw [hc, hcalls]
            simp
          · intro c hc'
            rcases List.mem_cons.mp hc' with h | h
            · exact h
            · exact hall c h
          · have := slots_step timeout elapsed (gkeOperationsGet nm opName w).1.2 hle
            simp only [List.length_cons]
            omega
    · rw [if_neg hsel]
      exact ⟨_, w, [], rfl, by simp, by simp, by simp, fun _ => rfl⟩

theorem fuel_enough (timeout : Nat) :
    0 < timeout / pollInterval + 1 ∧ timeout < (timeout / pollInterval + 1) * pollInterval + 0 := by
  rw [pollInterval_eq]
  omega

/-- `waitForSQLOperation` returns: the fuel it gives its loop is enough. -/
theorem waitForSQLOperation_run {σ : Type} (nm : NetworkManager σ)
    (project operationName : String) (timeout : Nat) (w : World σ) :
    ∃ r w' qs,
      waitForSQLOperation nm project operationName timeout w = some (r, w') ∧
      w'.calls = w.calls ++ qs ∧
      (∀ c ∈ qs, c = Call.sqlOperationsGet project operationName) ∧
      qs.length ≤ timeout / pollInterval ∧
      ((∀ s, ∃ op, (nm.sqlService.OperationsGet project operationName s).1.1 = .ok op ∧
          op.Status ≠ "DONE") →
        r = .error (.operationTimeout deadlineExceeded)) := by
  have h := waitForSQLOperationLoop_run nm project operationName timeout
    (timeout / pollInterval + 1) 0 w (fuel_enough timeout).1 (fuel_enough timeout).2
  simpa [waitForSQLOperation] using h

/-- `waitForGKEOperation` returns: the fuel it gives its loop is enough. -/
theorem waitForGKEOperation_run {σ : Type} (nm : NetworkManager σ)
    (project location operationName : String) (timeout : Nat) (w : World σ) :
    ∃ r w' qs,
      waitForGKEOperation nm project location operationName timeout w = some (r, w') ∧
      w'.calls = w.calls ++ qs ∧
      (∀ c ∈ qs, c = Call.gkeOperationsGet (operationPath project location operationName)) ∧
      qs.length ≤ timeout / pollInterval ∧
      ((∀ s, ∃ op, (nm.gkeService.OperationsGet
          (operationPath project location operationName) s).1.1 = .ok op ∧
            op.Status ≠ "DONE") →
        r = .error (.operationTimeout deadlineExceeded)) := by
  have h := waitForGKEOperationLoop_run nm (operationPath project location operationName)
    timeout (timeout / pollInterval + 1) 0 w (fuel_enough timeout).1 (fuel_enough timeout).2
  simpa [waitForGKEOperation] using h

/-! ## The add paths up to the submitted request -/

theorem find?_eq_none_of_forall_ne {α : Type} (p : α → Bool) (l : List α)
    (h : ∀ a ∈ l, p a = false) : l.find? p = none := by
  induction l with
  | nil => rfl
  | cons a t ih =>
    have ha : p a = false := h a (List.mem_cons_self a t)
    simp only [List.find?, ha]
    exact ih (fun b hb => h b (List.mem_cons_of_mem a hb))

theorem find?_isSome_of_exists {α : Type} (p : α → Bool) (l : List α)
    (h : ∃ a ∈ l, p a = true) : ∃ a ∈ l, p a = true ∧ l.find? p = some a := by
  induction l with
  | nil =>
    obtain ⟨a, ha, _⟩ := h
    cases ha
  | cons b t ih =>
    cases hb : p b with
    | true => exact ⟨b, List.mem_cons_self b t, hb, by simp [List.find?, hb]⟩
    | false =>
      obtain ⟨a, ha, hpa⟩ := h
      rcases List.mem_cons.mp ha with rfl | hat
      · rw [hb] at hpa
        cases hpa
      · obtain ⟨c, hc, hpc, hfind⟩ := ih ⟨a, hat, hpa⟩
        exact ⟨c, List.mem_cons_of_mem b hc, hpc, by simp [List.find?, hb, hfind]⟩

/-- The request `addNetworkToSQLInstance` submits for a fetched instance. -/
theorem addNetworkToSQLInstance_submit {σ : Type} (nm : NetworkManager σ)
    (project instanceName networkName networkIP normalizedIP : String) (w : World σ)
    (inst : DatabaseInstance) (s1 : σ)
    (hn : normalizeIP networkIP = .ok normalizedIP)
    (hget : nm.sqlService.InstancesGet project instanceName w.backend = (.ok inst, s1))
    (hno : ∀ e ∈ (fetchedIpConfiguration inst).AuthorizedNetworks, e.Value ≠ normalizedIP) :
    addNetworkToSQLInstance nm project instanceName networkName networkIP w =
      match nm.sqlService.InstancesPatch project instanceName
          (sqlUpdateRequest ⟨some ⟨(fetchedIpConfiguration inst).Ipv4Enabled,
            (fetchedIpConfiguration inst).AuthorizedNetworks ++
              [⟨"sql#aclEntry", networkName, normalizedIP⟩]⟩⟩) s1 with
      | (.error err, s2) =>
        some (.error (.updateInstance err),
          ⟨s2, w.calls ++ [Call.sqlInstancesGet project instanceName] ++
            [Call.sqlInstancesPatch project instanceName
              (sqlUpdateRequest ⟨some ⟨(fetchedIpConfiguration inst).Ipv4Enabled,
            (fetchedIpConfiguration inst).AuthorizedNetworks ++
              [⟨"sql#aclEntry", networkName, normalizedIP⟩]⟩⟩)]⟩)
      | (.ok operation, s2) =>
        waitForSQLOperation nm project operation.Name (30 * Second)
          ⟨s2, w.calls ++ [Call.sqlInstancesGet project instanceName] ++
            [Call.sqlInstancesPatch project instanceName
              (sqlUpdateRequest ⟨some ⟨(fetchedIpConfiguration inst).Ipv4Enabled,
            (fetchedIpConfiguration inst).AuthorizedNetworks ++
              [⟨"sql#aclEntry", networkName, normalizedIP⟩]⟩⟩)]⟩ := by
  have hfind : (fetchedIpConfiguration inst).AuthorizedNetworks.find?
      (fun network => network.Value == normalizedIP) = none :=
    find?_eq_none_of_forall_ne _ _ (fun e he => by simpa using hno e he)
  unfold addNetworkToSQLInstance
  simp only [hn, sqlInstancesGet, hget, hfind, sqlInstancesPatch]
  generalize nm.sqlService.InstancesPatch project instanceName
      (sqlUpdateRequest ⟨some ⟨(fetchedIpConfiguration inst).Ipv4Enabled,
            (fetchedIpConfiguration inst).AuthorizedNetworks ++
              [⟨"sql#aclEntry", networkName, normalizedIP⟩]⟩⟩) s1 = res
  rcases res with ⟨_ | _, s2⟩ <;> rfl

/-- The request `addNetworkToGKECluster` submits for a fetched cluster. -/
theorem addNetworkToGKECluster_submit {σ : Type} (nm : NetworkManager σ)
    (project location clusterName networkName networkIP normalizedIP : String) (w : World σ)
    (cluster : Cluster) (s1 : σ)
    (hn : normalizeIP networkIP = .ok normalizedIP)
    (hget : nm.gkeService.ClustersGet (clusterPath project location clusterName) w.backend
      = (.ok cluster, s1))
    (hno : ∀ b ∈ (fetchedMasterConfig cluster).CidrBlocks, b.CidrBlock ≠ normalizedIP) :
    addNetworkToGKECluster nm project location clusterName networkName networkIP w =
      match nm.gkeService.ClustersUpdate (clusterPath project location clusterName)
          ⟨⟨true, (fetchedMasterConfig cluster).CidrBlocks ++ [⟨normalizedIP, networkName⟩]⟩⟩ s1 with
      | (.error err, s2) =>
        some (.error (.updateCluster err),
          ⟨s2, w.calls ++ [Call.gkeClustersGet (clusterPath project location clusterName)] ++
            [Call.gkeClustersUpdate (clusterPath project location clusterName)
              ⟨⟨true, (fetchedMasterConfig cluster).CidrBlocks ++ [⟨normalizedIP, networkName⟩]⟩⟩]⟩)
      | (.ok operation, s2) =>
        waitForGKEOperation nm project location operation.Name (30 * Second)
          ⟨s2, w.calls ++ [Call.gkeClustersGet (clusterPath project location clusterName)] ++
            [Call.gkeClustersUpdate (clusterPath project location clusterName)
              ⟨⟨true, (fetchedMasterConfig cluster).CidrBlocks ++ [⟨normalizedIP, networkName⟩]⟩⟩]⟩ := by
  have hfind : (fetchedMasterConfig cluster).CidrBlocks.find?
      (fun network => network.CidrBlock == normalizedIP) = none :=
    find?_eq_none_of_forall_ne _ _ (fun e he => by simpa using hno e he)
  unfold addNetworkToGKECluster
  simp only [hn, gkeClustersGet, hget, hfind, gkeClustersUpdate]
  generalize nm.gkeService.ClustersUpdate (clusterPath project location clusterName)
      ⟨⟨true, (fetchedMasterConfig cluster).CidrBlocks ++ [⟨normalizedIP, networkName⟩]⟩⟩ s1 = res
  rcases res with ⟨_ | _, s2⟩ <;> rfl


/-! ## Every add path returns, and polls at most six times -/

theorem selectTimer_first {σ : Type} (nm : NetworkManager σ) :
    selectTimer nm (30 * Second) 0 = true :=
  selectTimer_of_lt nm _ _ (by decide)

theorem waitForSQLOperation_first_done {σ : Type} (nm : NetworkManager σ)
    (project operationName : String) (w : World σ) (op : SQLOperation) (latency : Nat) (s' : σ)
    (hq : nm.sqlService.OperationsGet project operationName w.backend = ((.ok op, latency), s'))
    (hdone : op.Status = "DONE") :
    waitForSQLOperation nm project operationName (30 * Second) w
      = some (match op.Error with
          | some errors =>
            match errors.Errors with
            | e :: _ => .error (.operationFailed e.Message)
            | [] => .ok ()
          | none => .ok (),
        ⟨s', w.calls ++ [Call.sqlOperationsGet project operationName]⟩) := by
  simp only [waitForSQLOperation, waitForSQLOperationLoop, selectTimer_first, sqlOperationsGet,
    hq, hdone]
  rcases op.Error with _ | ⟨_ | _⟩ <;> simp

theorem waitForGKEOperation_first_done {σ : Type} (nm : NetworkManager σ)
    (project location operationName : String) (w : World σ) (op : GKEOperation)
    (latency : Nat) (s' : σ)
    (hq : nm.gkeService.OperationsGet (operationPath project location operationName) w.backend
      = ((.ok op, latency), s'))
    (hdone : op.Status = "DONE") :
    waitForGKEOperation nm project location operationName (30 * Second) w
      = some (match op.Error with
          | some status => .error (.operationFailed status.Message)
          | none => .ok (),
        ⟨s', w.calls ++ [Call.gkeOperationsGet (operationPath project location operationName)]⟩) := by
  simp only [waitForGKEOperation, waitForGKEOperationLoop, selectTimer_first, gkeOperationsGet,
    hq, hdone]
  rcases op.Error with _ | _ <;> simp


/-! ## Runs of the polling loops up to a query that reports DONE -/

theorem waitForSQLOperationLoop_polls {σ : Type} (nm : NetworkManager σ)
    (project operationName : String) (timeout : Nat) (e : Nat) (w : World σ)
    (e' : Nat) (w' : World σ) (hrun : SQLPolls nm project operationName timeout e w e' w')
    (hsel : selectTimer nm timeout e' = true) :
    ∀ fuel, timeout < fuel * pollInterval + e →
      ∃ fuel', waitForSQLOperationLoop nm project operationName timeout fuel e w
        = waitForSQLOperationLoop nm project operationName timeout (fuel' + 1) e' w' := by
  induction hrun with
  | here e w =>
    intro fuel hfuel
    have hle := selectTimer_le nm timeout e hsel
    rcases fuel with _ | f
    · rw [pollInterval_eq] at *
      omega
    · exact ⟨f, rfl⟩
  | poll e w op latency s' e' w' hs hq hnd _ ih =>
    intro fuel hfuel
    have hle := selectTimer_le nm timeout e hs
    rcases fuel with _ | f
    · rw [pollInterval_eq] at *
      omega
    · have hf : timeout < f * pollInterval + (e + pollInterval + latency) := by
        rw [pollInterval_eq] at *
        omega
      obtain ⟨fuel', h⟩ := ih hsel f hf
      refine ⟨fuel', ?_⟩
      rw [← h]
      simp [waitForSQLOperationLoop, hs, sqlOperationsGet, hq, hnd]

theorem waitForGKEOperationLoop_polls {σ : Type} (nm : NetworkManager σ)
    (opName : String) (timeout : Nat) (e : Nat) (w : World σ)
    (e' : Nat) (w' : World σ) (hrun : GKEPolls nm opName timeout e w e' w')
    (hsel : selectTimer nm timeout e' = true) :
    ∀ fuel, timeout < fuel * pollInterval + e →
      ∃ fuel', waitForGKEOperationLoop nm opName timeout fuel e w
        = waitForGKEOperationLoop nm opName timeout (fuel' + 1) e' w' := by
  induction hrun with
  | here e w =>
    intro fuel hfuel
    have hle := selectTimer_le nm timeout e hsel
    rcases fuel with _ | f
    · rw [pollInterval_eq] at *
      omega
    · exact ⟨f, rfl⟩
  | poll e w op latency s' e' w' hs hq hnd _ ih =>
    intro fuel hfuel
    have hle := selectTimer_le nm timeout e hs
    rcases fuel with _ | f
    · rw [pollInterval_eq] at *
      omega
    · have hf : timeout < f * pollInterval + (e + pollInterval + latency) := by
        rw [pollInterval_eq] at *
        omega
      obtain ⟨fuel', h⟩ := ih hsel f hf
      refine ⟨fuel', ?_⟩
      rw [← h]
      simp [waitForGKEOperationLoop, hs, gkeOperationsGet, hq, hnd]

/-- A wait whose queries were answered without DONE until one reports DONE returns at
that query. -/
theorem waitForSQLOperation_done_after_polls {σ : Type} (nm : NetworkManager σ)
    (project operationName : String) (timeout : Nat) (w : World σ)
    (e' : Nat) (w' : World σ) (op : SQLOperation) (latency : Nat) (s' : σ)
    (hrun : SQLPolls nm project operationName timeout 0 w e' w')
    (hsel : selectTimer nm timeout e' = true)
    (hq : nm.sqlService.OperationsGet project operationName w'.backend
      = ((.ok op, latency), s'))
    (hdone : op.Status = "DONE") :
    waitForSQLOperation nm project operationName timeout w
      = some (match op.Error with
          | some errors =>
            match errors.Errors with
            | e :: _ => .error (.operationFailed e.Message)
            | [] => .ok ()
          | none => .ok (),
        ⟨s', w'.calls ++ [Call.sqlOperationsGet project operationName]⟩) := by
  obtain ⟨fuel', h⟩ := waitForSQLOperationLoop_polls nm project operationName timeout 0 w e' w'
    hrun hsel (timeout / pollInterval + 1) (fuel_enough timeout).2
  unfold waitForSQLOperation
  rw [h]
  simp only [waitForSQLOperationLoop, hsel, sqlOperationsGet, hq, hdone]
  rcases op.Error with _ | ⟨_ | _⟩ <;> simp

theorem waitForGKEOperation_done_after_polls {σ : Type} (nm : NetworkManager σ)
    (project location operationName : String) (timeout : Nat) (w : World σ)
    (e' : Nat) (w' : World σ) (op : GKEOperation) (latency : Nat) (s' : σ)
    (hrun : GKEPolls nm (operationPath project location operationName) timeout 0 w e' w')
    (hsel : selectTimer nm timeout e' = true)
    (hq : nm.gkeService.OperationsGet (operationPath project location operationName) w'.backend
      = ((.ok op, latency), s'))
    (hdone : op.Status = "DONE") :
    waitForGKEOperation nm project location operationName timeout w
      = some (match op.Error with
          | some status => .error (.operationFailed status.Message)
          | none => .ok (),
        ⟨s', w'.calls ++ [Call.gkeOperationsGet (operationPath project location operationName)]⟩) := by
  obtain ⟨fuel', h⟩ := waitForGKEOperationLoop_polls nm
    (operationPath project location operationName) timeout 0 w e' w'
    hrun hsel (timeout / pollInterval + 1) (fuel_enough timeout).2
  unfold waitForGKEOperation
  simp only
  rw [h]
  simp only [waitForGKEOperationLoop, hsel, gkeOperationsGet, hq, hdone]
  rcases op.Error with _ | _ <;> simp
/-! ## The in-memory backend -/

theorem getInstance_storeSettings (project instanceName : String) (settings : Option Settings)
    (clusters : List (String × Cluster)) :
    ∀ (l : List ((String × String) × DatabaseInstance)),
      MemBackend.getInstance ⟨storeSettings project instanceName settings l, clusters⟩
          project instanceName
        = match MemBackend.getInstance ⟨l, clusters⟩ project instanceName with
          | some inst => some { inst with Settings := settings }
          | none => none := by
  intro l
  induction l with
  | nil => rfl
  | cons e rest ih =>
    by_cases he : (e.1 == (project, instanceName)) = true
    · simp [MemBackend.getInstance, storeSettings, he, List.find?]
    · have he' : (e.1 == (project, instanceName)) = false := by simpa using he
      simp only [MemBackend.getInstance, storeSettings, he', List.find?] at ih ⊢
      exact ih

/-- The network list a detail fetch shows for an instance record. -/
theorem detail_networks (inst : DatabaseInstance) :
    (match (match inst.Settings with
        | some settings => settings.IpConfiguration
        | none => none) with
      | some c => c.AuthorizedNetworks.map aclEntryToNetwork
      | none => [])
      = (fetchedIpConfiguration inst).AuthorizedNetworks.map aclEntryToNetwork := by
  unfold fetchedIpConfiguration
  rcases inst.Settings with _ | ⟨_ | _⟩ <;> rfl

theorem getInstance_after_store (s : MemBackend) (project instanceName : String)
    (settings : Option Settings) (inst : DatabaseInstance)
    (hinst : s.getInstance project instanceName = some inst) :
    MemBackend.getInstance ⟨storeSettings project instanceName settings s.instances, s.clusters⟩
        project instanceName
      = some { inst with Settings := settings } := by
  have h := getInstance_storeSettings project instanceName settings s.clusters s.instances
  have hinst' : MemBackend.getInstance ⟨s.instances, s.clusters⟩ project instanceName
      = some inst := hinst
  rw [hinst'] at h
  exact h

theorem memManager_get (s : MemBackend) (project instanceName : String)
    (inst : DatabaseInstance) (hinst : s.getInstance project instanceName = some inst) :
    memManager.sqlService.InstancesGet project instanceName s = (.ok inst, s) := by
  simp [memManager, hinst]

theorem memManager_patch (s : MemBackend) (project instanceName : String)
    (updateRequest inst : DatabaseInstance)
    (hinst : s.getInstance project instanceName = some inst) :
    memManager.sqlService.InstancesPatch project instanceName updateRequest s
      = (.ok ⟨"operation-1", "PENDING", none⟩,
          ⟨storeSettings project instanceName updateRequest.Settings s.instances, s.clusters⟩) := by
  simp [memManager, hinst]

/-- The detail fetch on the in-memory backend, for a stored instance record. -/
theorem memManager_details (w : World MemBackend) (project instanceName : String)
    (inst : DatabaseInstance) (hinst : w.backend.getInstance project instanceName = some inst) :
    ∃ r0 : SQLInstance,
      getSQLInstanceDetails memManager project instanceName w
        = (.ok (.sql r0), ⟨w.backend, w.calls ++ [Call.sqlInstancesGet project instanceName]⟩) ∧
      r0.AuthorizedNetworks
        = (fetchedIpConfiguration inst).AuthorizedNetworks.map aclEntryToNetwork := by
  have hget := memManager_get w.backend project instanceName inst hinst
  simp only [getSQLInstanceDetails, sqlInstancesGet, hget]
  exact ⟨_, rfl, detail_networks inst⟩

theorem memManager_details_none (w : World MemBackend) (project instanceName : String)
    (hinst : w.backend.getInstance project instanceName = none) :
    (getSQLInstanceDetails memManager project instanceName w).1
      = .error (.getSQLInstanceDetails "notFound") := by
  have hget : memManager.sqlService.InstancesGet project instanceName w.backend
      = (.error "notFound", w.backend) := by
    simp [memManager, hinst]
  simp only [getSQLInstanceDetails, sqlInstancesGet, hget]

/-- Add, then fetch the detail, on the in-memory backend. -/
theorem memManager_add_then_details (w : World MemBackend)
    (project instanceName networkName networkIP normalizedIP : String) (inst : DatabaseInstance)
    (hn : normalizeIP networkIP = .ok normalizedIP)
    (hinst : w.backend.getInstance project instanceName = some inst)
    (hno : ∀ e ∈ (fetchedIpConfiguration inst).AuthorizedNetworks, e.Value ≠ normalizedIP) :
    ∃ w1 r1 w2,
      addNetworkToSQLInstance memManager project instanceName networkName networkIP w
        = some (.ok (), w1) ∧
      getSQLInstanceDetails memManager project instanceName w1 = (.ok (.sql r1), w2) ∧
      r1.AuthorizedNetworks
        = (fetchedIpConfiguration inst).AuthorizedNetworks.map aclEntryToNetwork ++
          [{ Kind := "sql#aclEntry", Name := networkName, Value := normalizedIP,
             DisplayName := "" }] := by
  have hadd := addNetworkToSQLInstance_submit memManager project instanceName networkName
    networkIP normalizedIP w inst w.backend hn
    (memManager_get w.backend project instanceName inst hinst) hno
  rw [memManager_patch w.backend project instanceName _ inst hinst] at hadd
  simp only at hadd
  rw [waitForSQLOperation_first_done memManager project "operation-1" _
    { Name := "operation-1", Status := "DONE", Error := none } 0 _ rfl rfl] at hadd
  simp only at hadd
  obtain ⟨r1, hd1, hnet1⟩ := memManager_details
    ⟨⟨storeSettings project instanceName
        (sqlUpdateRequest ⟨some ⟨(fetchedIpConfiguration inst).Ipv4Enabled,
          (fetchedIpConfiguration inst).AuthorizedNetworks ++
            [⟨"sql#aclEntry", networkName, normalizedIP⟩]⟩⟩).Settings w.backend.instances,
        w.backend.clusters⟩,
      w.calls ++ [Call.sqlInstancesGet project instanceName] ++
        [Call.sqlInstancesPatch project instanceName
          (sqlUpdateRequest ⟨some ⟨(fetchedIpConfiguration inst).Ipv4Enabled,
            (fetchedIpConfiguration inst).AuthorizedNetworks ++
              [⟨"sql#aclEntry", networkName, normalizedIP⟩]⟩⟩)] ++
        [Call.sqlOperationsGet project "operation-1"]⟩
    project instanceName _ (getInstance_after_store w.backend project instanceName _ inst hinst)
  refine ⟨_, r1, _, hadd, hd1, ?_⟩
  rw [hnet1]
  simp [fetchedIpConfiguration, sqlUpdateRequest, aclEntryToNetwork]

/-! ## The order of `sortResources` -/

theorem keyLT_iff_lex (a b : String × String × String) :
    keyLT a b ↔ lexKey a < lexKey b := by
  unfold keyLT lexKey
  rw [Prod.Lex.lt_iff]
  simp only [Prod.Lex.lt_iff]

theorem lexKey_injective (a b : String × String × String) (h : lexKey a = lexKey b) :
    a = b := by
  obtain ⟨a1, a2, a3⟩ := a
  obtain ⟨b1, b2, b3⟩ := b
  simp only [lexKey] at h
  have h1 := toLex.injective h
  simp only [Prod.mk.injEq] at h1
  obtain ⟨h11, h12⟩ := h1
  have h2 := toLex.injective h12
  simp only [Prod.mk.injEq] at h2
  obtain ⟨h21, h22⟩ := h2
  subst h11 h21 h22
  rfl

theorem keyLE_iff_lex (a b : String × String × String) :
    keyLE a b ↔ lexKey a ≤ lexKey b := by
  unfold keyLE
  rw [keyLT_iff_lex, le_iff_lt_or_eq]
  constructor
  · rintro (h | h)
    · exact Or.inl h
    · exact Or.inr (by rw [h])
  · rintro (h | h)
    · exact Or.inl h
    · exact Or.inr (lexKey_injective a b h)

theorem resourceLess_iff (a b : CloudResource) :
    resourceLess a b = true ↔ keyLT (resourceKey a) (resourceKey b) := by
  unfold resourceLess keyLT resourceKey
  by_cases ht : a.GetType = b.GetType
  · by_cases hp : a.GetProject = b.GetProject
    · simp [ht, hp, strLess_iff]
    · simp [ht, hp, strLess_iff]
  · simp [ht, strLess_iff]

theorem resourceLess_iff_lex (a b : CloudResource) :
    resourceLess a b = true ↔ lexKey (resourceKey a) < lexKey (resourceKey b) := by
  rw [resourceLess_iff, keyLT_iff_lex]

theorem resourceLess_eq_false_iff (a b : CloudResource) :
    resourceLess a b = false ↔ lexKey (resourceKey b) ≤ lexKey (resourceKey a) := by
  rw [← not_lt, ← resourceLess_iff_lex]
  cases resourceLess a b <;> simp

/-- The `less` of `sortResources` is an ordering `sort.Slice` accepts. -/
theorem resourceLess_ordering : LessOrdering resourceLess := by
  refine ⟨?_, ?_, ?_⟩
  · intro a
    rw [resourceLess_eq_false_iff]
  · intro a b c hab hbc
    rw [resourceLess_iff_lex] at *
    exact lt_trans hab hbc
  · intro a b c hab hbc
    rw [resourceLess_eq_false_iff] at *
    exact le_trans hbc hab

/-! ## The sorting routine meets the contract -/

theorem sorted_insertionSort_of_ordering {α : Type} (less : α → α → Bool)
    (h : LessOrdering less) (xs : List α) :
    (xs.insertionSort (fun a b => less b a = false)).Pairwise (fun a b => less b a = false) := by
  obtain ⟨hirr, htrans, hneg⟩ := h
  haveI : IsTotal α (fun a b => less b a = false) := ⟨by
    intro a b
    cases hba : less b a with
    | false => exact Or.inl rfl
    | true =>
      cases hab : less a b with
      | false => exact Or.inr rfl
      | true =>
        have := htrans a b a hab hba
        rw [hirr a] at this
        cases this⟩
  haveI : IsTrans α (fun a b => less b a = false) := ⟨by
    intro a b c hab hbc
    exact hneg c b a hbc hab⟩
  exact List.sorted_insertionSort (fun a b => less b a = false) xs

theorem insertionSortSlice_contract {α : Type} :
    SortSliceContract (insertionSortSlice : (α → α → Bool) → List α → List α) := by
  intro less xs
  exact ⟨List.perm_insertionSort _ xs, fun h => sorted_insertionSort_of_ordering less h xs⟩

theorem insertionSortSlice_keepsSorted {α : Type} :
    SortSliceKeepsSorted (insertionSortSlice : (α → α → Bool) → List α → List α) := by
  intro less xs hsorted
  exact List.Sorted.insertionSort_eq hsorted

/-- A routine that meets the contract and makes no swap in a sorted slice returns, on
its own result for a `less` that is an ordering, that result. -/
theorem sortSlice_twice {α : Type} (sortSlice : (α → α → Bool) → List α → List α)
    (hsort : SortSliceContract sortSlice) (hkeep : SortSliceKeepsSorted sortSlice)
    (less : α → α → Bool) (hless : LessOrdering less) (xs : List α) :
    sortSlice less (sortSlice less xs) = sortSlice less xs :=
  hkeep less (sortSlice less xs) ((hsort less xs).2 hless)

/-- Under the contract, the result of `sortResources` has no resource before one
with a smaller key. -/
theorem sortResources_pairwise
    (sortSlice : (CloudResource → CloudResource → Bool) → List CloudResource → List CloudResource)
    (hsort : SortSliceContract sortSlice) (resources : List CloudResource) :
    (sortResources sortSlice resources).Pairwise
      (fun a b => lexKey (resourceKey a) ≤ lexKey (resourceKey b)) := by
  have h := (hsort resourceLess resources).2 resourceLess_ordering
  refine List.Pairwise.imp ?_ h
  intro a b hab
  exact (resourceLess_eq_false_iff b a).mp hab

theorem sortResources_perm
    (sortSlice : (CloudResource → CloudResource → Bool) → List CloudResource → List CloudResource)
    (hsort : SortSliceContract sortSlice) (resources : List CloudResource) :
    (sortResources sortSlice resources).Perm resources :=
  (hsort resourceLess resources).1

/-! ## The duplicate errors and their messages -/

theorem addNetworkToSQLInstance_duplicate {σ : Type} (nm : NetworkManager σ)
    (project instanceName networkName networkIP normalizedIP : String) (w : World σ)
    (inst : DatabaseInstance) (s1 : σ) (e : AclEntry)
    (hn : normalizeIP networkIP = .ok normalizedIP)
    (hget : nm.sqlService.InstancesGet project instanceName w.backend = (.ok inst, s1))
    (hfind : (fetchedIpConfiguration inst).AuthorizedNetworks.find?
      (fun network => network.Value == normalizedIP) = some e) :
    addNetworkToSQLInstance nm project instanceName networkName networkIP w =
      some (.error (if e.Name = networkName
          then GoError.networkExistsSameName normalizedIP networkName
          else GoError.networkExistsOtherName normalizedIP e.Name),
        ⟨s1, w.calls ++ [Call.sqlInstancesGet project instanceName]⟩) := by
  unfold addNetworkToSQLInstance
  simp only [hn, sqlInstancesGet, hget, hfind]
  by_cases hname : e.Name = networkName
  · simp [hname]
  · simp [hname]

theorem addNetworkToGKECluster_duplicate {σ : Type} (nm : NetworkManager σ)
    (project location clusterName networkName networkIP normalizedIP : String) (w : World σ)
    (cluster : Cluster) (s1 : σ) (b : CidrBlock)
    (hn : normalizeIP networkIP = .ok normalizedIP)
    (hget : nm.gkeService.ClustersGet (clusterPath project location clusterName) w.backend
      = (.ok cluster, s1))
    (hfind : (fetchedMasterConfig cluster).CidrBlocks.find?
      (fun network => network.CidrBlock == normalizedIP) = some b) :
    addNetworkToGKECluster nm project location clusterName networkName networkIP w =
      some (.error (if b.DisplayName = networkName
          then GoError.networkExistsSameName normalizedIP networkName
          else GoError.networkExistsOtherName normalizedIP b.DisplayName),
        ⟨s1, w.calls ++ [Call.gkeClustersGet (clusterPath project location clusterName)]⟩) := by
  unfold addNetworkToGKECluster
  simp only [hn, gkeClustersGet, hget, hfind]
  by_cases hname : b.DisplayName = networkName
  · simp [hname]
  · simp [hname]

theorem duplicate_messages_differ (normalizedIP networkName existingName : String) :
    (GoError.networkExistsSameName normalizedIP networkName).Error
      ≠ (GoError.networkExistsOtherName normalizedIP existingName).Error := by
  intro h
  have h' := congrArg String.toList h
  simp only [GoError.Error, String.toList, String.data_append, List.append_assoc] at h'
  have h2 := List.append_cancel_left (List.append_cancel_left h')
  simp at h2

theorem otherName_message_contains (normalizedIP existingName : String) :
    stringsContains (GoError.networkExistsOtherName normalizedIP existingName).Error
      existingName = true := by
  unfold stringsContains
  rw [decide_eq_true_iff]
  simp only [GoError.Error, String.toList, String.data_append]
  exact (List.suffix_append _ _).isInfix

/-! ## The catalog: what the loop over the results collects -/

theorem collectResult_foldl_fst (received : List result) :
    ∀ acc : List CloudResource × List (String × String),
      (received.foldl collectResult acc).1
        = acc.1 ++ (received.filter (fun res => res.err.isNone)).flatMap
            (fun res => res.resources) := by
  induction received with
  | nil => intro acc; simp
  | cons res rest ih =>
    intro acc
    rw [List.foldl_cons, ih]
    cases herr : res.err with
    | none => simp [collectResult, herr, List.filter_cons]
    | some err => simp [collectResult, herr, List.filter_cons]

theorem ListAllResources_ok
    (sortSlice : (CloudResource → CloudResource → Bool) → List CloudResource → List CloudResource)
    (projects : List String) (received : List result) :
    ListAllResources sortSlice (.ok projects) received
      = .ok (sortResources sortSlice
          ((received.filter (fun res => res.err.isNone)).flatMap (fun res => res.resources))) := by
  simp [ListAllResources, collectResult_foldl_fst]

/-! ## The semaphore of the fan-out -/

theorem maxConcurrent_eq_min (projects : List String) :
    maxConcurrent projects = min 20 projects.length := by
  unfold maxConcurrent
  split <;> omega

theorem slotsHeld_append_cons (before after : List TaskPhase) (t : TaskPhase) :
    slotsHeld (before ++ t :: after)
      = slotsHeld before + (if t = TaskPhase.holding then 1 else 0) + slotsHeld after := by
  unfold slotsHeld
  rw [List.count_append, List.count_cons]
  cases t with
  | queued => simp
  | holding =>
    simp
    omega
  | released => simp

theorem fanOutStep_slotsHeld (capacity : Nat) (a b : List TaskPhase)
    (hstep : FanOutStep capacity a b) (h : slotsHeld a ≤ capacity) :
    slotsHeld b ≤ capacity ∧ b.length = a.length := by
  cases hstep with
  | acquire before after hfree =>
    rw [slotsHeld_append_cons] at hfree h ⊢
    simp at hfree h ⊢
    omega
  | release before after =>
    rw [slotsHeld_append_cons] at h ⊢
    simp at h ⊢
    omega

theorem fanOutRun_slotsHeld (capacity : Nat) (a b : List TaskPhase)
    (hrun : FanOutRun capacity a b) (h : slotsHeld a ≤ capacity) :
    slotsHeld b ≤ capacity ∧ b.length = a.length := by
  induction hrun with
  | start => exact ⟨h, rfl⟩
  | step b c _ hstep ih =>
    obtain ⟨h1, h2⟩ := ih
    obtain ⟨h3, h4⟩ := fanOutStep_slotsHeld capacity b c hstep h1
    exact ⟨h3, h4.trans h2⟩

theorem fanOut_progress (capacity : Nat) (hcap : 1 ≤ capacity) (tasks : List TaskPhase)
    (t : TaskPhase) (ht : t ∈ tasks) (hne : t ≠ TaskPhase.released) :
    ∃ next, FanOutStep capacity tasks next := by
  by_cases hheld : TaskPhase.holding ∈ tasks
  · obtain ⟨before, after, hsplit⟩ := List.append_of_mem hheld
    rw [hsplit]
    exact ⟨_, FanOutStep.release before after⟩
  · have hzero : slotsHeld tasks = 0 := List.count_eq_zero.mpr hheld
    have hq : t = TaskPhase.queued := by
      cases t with
      | queued => rfl
      | holding => exact absurd ht hheld
      | released => exact absurd rfl hne
    subst hq
    obtain ⟨before, after, hsplit⟩ := List.append_of_mem ht
    subst hsplit
    exact ⟨_, FanOutStep.acquire before after (by omega)⟩

/-! ## `strings.TrimSpace` and `strings.Split` -/

theorem newline_isSpace : unicodeIsSpace '\n' = true := by decide

theorem splitLinesChars_ne_nil (s : List Char) : splitLinesChars s ≠ [] := by
  cases s with
  | nil => simp [splitLinesChars]
  | cons c cs =>
    simp only [splitLinesChars]
    split
    · simp
    · split <;> simp

theorem splitLinesChars_cons_newline (cs : List Char) :
    splitLinesChars ('\n' :: cs) = [] :: splitLinesChars cs := by
  simp [splitLinesChars]

theorem splitLinesChars_cons_other (c : Char) (cs : List Char) (hc : c ≠ '\n') :
    ∃ l ls, splitLinesChars cs = l :: ls ∧ splitLinesChars (c :: cs) = (c :: l) :: ls := by
  cases h : splitLinesChars cs with
  | nil => exact absurd h (splitLinesChars_ne_nil cs)
  | cons l ls =>
    refine ⟨l, ls, rfl, ?_⟩
    simp [splitLinesChars, hc, h]

theorem trimSpaceChars_eq_nil_iff (l : List Char) :
    trimSpaceChars l = [] ↔ ∀ x ∈ l, unicodeIsSpace x = true := by
  unfold trimSpaceChars
  rw [List.rdropWhile_eq_nil_iff]
  constructor
  · intro h
    by_cases hd : l.dropWhile unicodeIsSpace = []
    · exact List.dropWhile_eq_nil_iff.mp hd
    · have h1 := List.head_dropWhile_not unicodeIsSpace l hd
      have h2 := h _ (List.head_mem hd)
      rw [h2] at h1
      cases h1
  · intro h x hx
    exact h x ((List.dropWhile_suffix unicodeIsSpace).subset hx)

theorem trimSpaceChars_cons_space (c : Char) (l : List Char) (hc : unicodeIsSpace c = true) :
    trimSpaceChars (c :: l) = trimSpaceChars l := by
  simp [trimSpaceChars, List.dropWhile_cons, hc]

theorem trimSpaceChars_nil : trimSpaceChars [] = [] := by
  simp [trimSpaceChars, List.rdropWhile]

theorem nonBlankLinesChars_nil : nonBlankLinesChars [] = [] := by
  simp [nonBlankLinesChars, splitLinesChars, trimSpaceChars_nil]

theorem nonBlankLinesChars_cons_space (c : Char) (cs : List Char)
    (hc : unicodeIsSpace c = true) :
    nonBlankLinesChars (c :: cs) = nonBlankLinesChars cs := by
  by_cases hn : c = '\n'
  · subst hn
    simp [nonBlankLinesChars, splitLinesChars_cons_newline, trimSpaceChars_nil]
  · obtain ⟨l, ls, h1, h2⟩ := splitLinesChars_cons_other c cs hn
    simp only [nonBlankLinesChars, h1, h2, List.map_cons, trimSpaceChars_cons_space c l hc]

theorem nonBlankLinesChars_dropWhile (s : List Char) :
    nonBlankLinesChars (s.dropWhile unicodeIsSpace) = nonBlankLinesChars s := by
  induction s with
  | nil => rfl
  | cons c cs ih =>
    rw [List.dropWhile_cons]
    split
    · rename_i hc
      rw [ih, nonBlankLinesChars_cons_space c cs hc]
    · rfl

theorem splitLinesChars_snoc (s : List Char) :
    ∃ init last, splitLinesChars s = init ++ [last] ∧
      splitLinesChars (s ++ ['\n']) = init ++ [last, []] ∧
      ∀ c, c ≠ '\n' → splitLinesChars (s ++ [c]) = init ++ [last ++ [c]] := by
  induction s with
  | nil =>
    refine ⟨[], [], rfl, by simp [splitLinesChars], ?_⟩
    intro c hc
    simp [splitLinesChars, hc]
  | cons d s ih =>
    obtain ⟨init, last, h1, h2, h3⟩ := ih
    by_cases hd : d = '\n'
    · subst hd
      refine ⟨[] :: init, last, ?_, ?_, ?_⟩
      · simp [splitLinesChars, h1]
      · simp only [List.cons_append, splitLinesChars_cons_newline, h2]
      · intro c hc
        simp only [List.cons_append, splitLinesChars_cons_newline, h3 c hc]
    · have hstep : ∀ t : List Char, ∀ l ls, splitLinesChars t = l :: ls →
          splitLinesChars (d :: t) = (d :: l) :: ls := by
        intro t l ls ht
        obtain ⟨l', ls', e1, e2⟩ := splitLinesChars_cons_other d t hd
        rw [ht] at e1
        cases e1
        exact e2
      cases init with
      | nil =>
        refine ⟨[], d :: last, ?_, ?_, ?_⟩
        · exact hstep s last [] h1
        · exact hstep (s ++ ['\n']) last [[]] h2
        · intro c hc
          exact hstep (s ++ [c]) (last ++ [c]) [] (h3 c hc)
      | cons i is =>
        refine ⟨(d :: i) :: is, last, ?_, ?_, ?_⟩
        · exact hstep s i (is ++ [last]) h1
        · exact hstep (s ++ ['\n']) i (is ++ [last, []]) h2
        · intro c hc
          exact hstep (s ++ [c]) i (is ++ [last ++ [c]]) (h3 c hc)

theorem dropWhile_snoc_of_not_all (l : List Char) (c : Char)
    (h : ¬ ∀ x ∈ l, unicodeIsSpace x = true) :
    (l ++ [c]).dropWhile unicodeIsSpace = l.dropWhile unicodeIsSpace ++ [c] := by
  induction l with
  | nil => exact absurd (fun x hx => by cases hx) h
  | cons x xs ih =>
    by_cases hx : unicodeIsSpace x = true
    · have h' : ¬ ∀ y ∈ xs, unicodeIsSpace y = true := by
        intro hall
        apply h
        intro y hy
        rcases List.mem_cons.mp hy with rfl | hy'
        · exact hx
        · exact hall y hy'
      simp only [List.cons_append, List.dropWhile_cons, hx, if_true]
      exact ih h'
    · simp [List.dropWhile_cons, hx]

theorem trimSpaceChars_snoc_space (l : List Char) (c : Char) (hc : unicodeIsSpace c = true) :
    trimSpaceChars (l ++ [c]) = trimSpaceChars l := by
  by_cases hall : ∀ x ∈ l, unicodeIsSpace x = true
  · rw [(trimSpaceChars_eq_nil_iff l).mpr hall]
    rw [trimSpaceChars_eq_nil_iff]
    intro x hx
    rcases List.mem_append.mp hx with h | h
    · exact hall x h
    · rw [List.mem_singleton.mp h]
      exact hc
  · unfold trimSpaceChars
    rw [dropWhile_snoc_of_not_all l c hall, List.rdropWhile_concat, if_pos hc]

theorem nonBlankLinesChars_snoc_space (s : List Char) (c : Char)
    (hc : unicodeIsSpace c = true) :
    nonBlankLinesChars (s ++ [c]) = nonBlankLinesChars s := by
  obtain ⟨init, last, h1, h2, h3⟩ := splitLinesChars_snoc s
  by_cases hn : c = '\n'
  · subst hn
    simp [nonBlankLinesChars, h1, h2, trimSpaceChars_nil, List.filter_cons]
  · simp [nonBlankLinesChars, h1, h3 c hn, trimSpaceChars_snoc_space last c hc]

theorem nonBlankLinesChars_rdropWhile (s : List Char) :
    nonBlankLinesChars (s.rdropWhile unicodeIsSpace) = nonBlankLinesChars s := by
  induction s using List.reverseRecOn with
  | nil => rfl
  | append_singleton l c ih =>
    rw [List.rdropWhile_concat]
    split
    · rename_i hc
      rw [ih, nonBlankLinesChars_snoc_space l c hc]
    · rfl

/-- The non-blank trimmed lines of an output are those of the trimmed output. -/
theorem nonBlankLinesChars_trim (s : List Char) :
    nonBlankLinesChars (trimSpaceChars s) = nonBlankLinesChars s := by
  unfold trimSpaceChars
  rw [nonBlankLinesChars_rdropWhile, nonBlankLinesChars_dropWhile]

theorem trimSpaceChars_cons_nonspace (c : Char) (l : List Char)
    (hc : unicodeIsSpace c ≠ true) : trimSpaceChars (c :: l) ≠ [] := by
  intro h
  exact hc ((trimSpaceChars_eq_nil_iff (c :: l)).mp h c (List.mem_cons_self c l))

theorem nonBlankLinesChars_eq_nil_iff (s : List Char) :
    nonBlankLinesChars s = [] ↔ ∀ x ∈ s, unicodeIsSpace x = true := by
  induction s with
  | nil => simp [nonBlankLinesChars_nil]
  | cons c cs ih =>
    by_cases hc : unicodeIsSpace c = true
    · rw [nonBlankLinesChars_cons_space c cs hc, ih]
      simp [hc]
    · have hn : c ≠ '\n' := by
        intro h
        rw [h] at hc
        exact hc newline_isSpace
      obtain ⟨l, ls, _, h2⟩ := splitLinesChars_cons_other c cs hn
      have ht := trimSpaceChars_cons_nonspace c l hc
      constructor
      · intro h
        exfalso
        simp only [nonBlankLinesChars, h2, List.map_cons] at h
        rw [List.filter_cons_of_pos (by simpa using ht)] at h
        cases h
      · intro h
        exact absurd (h c (List.mem_cons_self c cs)) hc

theorem trimSpaceChars_idempotent (l : List Char) :
    trimSpaceChars (trimSpaceChars l) = trimSpaceChars l := by
  cases ht : trimSpaceChars l with
  | nil => exact trimSpaceChars_nil
  | cons x t =>
    have hpre : (x :: t) <+: l.dropWhile unicodeIsSpace := by
      rw [← ht]
      exact List.rdropWhile_prefix unicodeIsSpace _
    obtain ⟨rest, hrest⟩ := hpre
    have hd : l.dropWhile unicodeIsSpace ≠ [] := by
      rw [← hrest]
      simp
    have hx : unicodeIsSpace x ≠ true := by
      have h := List.head_dropWhile_not unicodeIsSpace l hd
      have hhead : (l.dropWhile unicodeIsSpace).head hd = x := by
        simp [← hrest]
      rw [hhead] at h
      simpa using h
    have h1 : (x :: t).dropWhile unicodeIsSpace = x :: t := by
      simp [List.dropWhile_cons, hx]
    have h2 : (x :: t).rdropWhile unicodeIsSpace = x :: t := by
      rw [← ht]
      exact List.rdropWhile_idempotent unicodeIsSpace _
    unfold trimSpaceChars
    rw [h1, h2]

theorem mem_nonBlankLinesChars (s x : List Char) (hx : x ∈ nonBlankLinesChars s) :
    x ≠ [] ∧ trimSpaceChars x = x := by
  obtain ⟨hmem, hne⟩ := List.mem_filter.mp hx
  obtain ⟨line, _, hline⟩ := List.mem_map.mp hmem
  refine ⟨by simpa using hne, ?_⟩
  rw [← hline]
  exact trimSpaceChars_idempotent line

/-! ## The strings, from their characters -/

theorem string_mk_ne_empty_iff (l : List Char) : (String.mk l != "") = !l.isEmpty := by
  cases l with
  | nil => rfl
  | cons c cs =>
    have : String.mk (c :: cs) ≠ "" := by
      intro h
      have h' := congrArg String.toList h
      cases h'
    simp [this]

theorem nonBlankLines_eq (output : String) :
    nonBlankLines output = (nonBlankLinesChars output.toList).map String.mk := by
  unfold nonBlankLines nonBlankLinesChars stringsSplitLines
  generalize splitLinesChars output.toList = lines
  induction lines with
  | nil => rfl
  | cons l ls ih =>
    have hl : stringsTrimSpace (String.mk l) = String.mk (trimSpaceChars l) := rfl
    simp only [List.map_cons, List.filter_cons, hl, string_mk_ne_empty_iff]
    split
    · rw [List.map_cons, ih]
    · exact ih

theorem nonBlankLines_trim (output : String) :
    nonBlankLines (stringsTrimSpace output) = nonBlankLines output := by
  rw [nonBlankLines_eq, nonBlankLines_eq]
  show (nonBlankLinesChars (trimSpaceChars output.toList)).map String.mk = _
  rw [nonBlankLinesChars_trim]

theorem stringsTrimSpace_eq_empty_iff (s : String) :
    stringsTrimSpace s = "" ↔ ∀ x ∈ s.toList, unicodeIsSpace x = true := by
  rw [← trimSpaceChars_eq_nil_iff]
  unfold stringsTrimSpace
  constructor
  · intro h
    exact congrArg String.toList h
  · intro h
    rw [h]

theorem nonBlankLines_eq_nil_iff (output : String) :
    nonBlankLines output = [] ↔ stringsTrimSpace output = "" := by
  rw [nonBlankLines_eq, List.map_eq_nil_iff, nonBlankLinesChars_eq_nil_iff,
    stringsTrimSpace_eq_empty_iff]

theorem mem_nonBlankLines (output p : String) (hp : p ∈ nonBlankLines output) :
    p ≠ "" ∧ stringsTrimSpace p = p := by
  rw [nonBlankLines_eq] at hp
  obtain ⟨x, hx, rfl⟩ := List.mem_map.mp hp
  obtain ⟨hne, htrim⟩ := mem_nonBlankLinesChars _ x hx
  constructor
  · intro h
    exact hne (congrArg String.toList h)
  · show String.mk (trimSpaceChars x) = String.mk x
    rw [htrim]

/-! ## The loop of `ListProjects` keeps the first occurrences -/

theorem mem_firstOccurrences (l : List String) (x : String) :
    x ∈ firstOccurrences l ↔ x ∈ l := by
  induction l with
  | nil => simp [firstOccurrences]
  | cons a t ih =>
    simp only [firstOccurrences, List.mem_cons, List.mem_filter, ih]
    constructor
    · rintro (h | ⟨h, _⟩)
      · exact Or.inl h
      · exact Or.inr h
    · rintro (h | h)
      · exact Or.inl h
      · by_cases hxa : x = a
        · exact Or.inl hxa
        · exact Or.inr ⟨h, by simpa using hxa⟩

theorem nodup_firstOccurrences (l : List String) : (firstOccurrences l).Nodup := by
  induction l with
  | nil => simp [firstOccurrences]
  | cons a t ih =>
    simp only [firstOccurrences, List.nodup_cons, List.mem_filter]
    refine ⟨?_, ih.filter _⟩
    rintro ⟨_, h⟩
    simp at h

theorem firstOccurrences_order (l : List String) :
    (firstOccurrences l).Pairwise (fun a b => l.indexOf a < l.indexOf b) := by
  induction l with
  | nil => simp [firstOccurrences]
  | cons a t ih =>
    simp only [firstOccurrences, List.pairwise_cons]
    constructor
    · intro b hb
      obtain ⟨_, hne⟩ := List.mem_filter.mp hb
      have hne' : a ≠ b := by
        intro h
        simp [h] at hne
      rw [List.indexOf_cons_self, List.indexOf_cons_ne _ hne']
      exact Nat.succ_pos _
    · refine List.Pairwise.imp_of_mem ?_ (ih.filter _)
      intro x y hx hy hxy
      have hxa : a ≠ x := by
        intro h
        have := (List.mem_filter.mp hx).2
        simp [h] at this
      have hya : a ≠ y := by
        intro h
        have := (List.mem_filter.mp hy).2
        simp [h] at this
      rw [List.indexOf_cons_ne _ hxa, List.indexOf_cons_ne _ hya]
      exact Nat.succ_lt_succ hxy

theorem addProject_foldl (lines : List String) :
    ∀ seen valid : List String, (∀ x, x ∈ seen ↔ x ∈ valid) →
      (lines.foldl addProject (seen, valid)).2
        = valid ++ (firstOccurrences
            ((lines.map stringsTrimSpace).filter (fun p => p != ""))).filter
              (fun x => !valid.contains x) := by
  induction lines with
  | nil => intro seen valid _; simp [firstOccurrences]
  | cons l ls ih =>
    intro seen valid hsv
    rw [List.foldl_cons]
    by_cases hblank : stringsTrimSpace l = ""
    · have hstep : addProject (seen, valid) l = (seen, valid) := by
        simp [addProject, hblank]
      rw [hstep, ih seen valid hsv]
      simp [List.filter_cons, hblank]
    · by_cases hseen : stringsTrimSpace l ∈ seen
      · have hstep : addProject (seen, valid) l = (seen, valid) := by
          simp [addProject, hseen]
        have hvalid : stringsTrimSpace l ∈ valid := (hsv _).mp hseen
        rw [hstep, ih seen valid hsv]
        simp only [List.map_cons, List.filter_cons, bne_iff_ne, ne_eq, hblank,
          not_false_eq_true, decide_True, if_true, firstOccurrences]
        have hc : valid.contains (stringsTrimSpace l) = true := by simpa using hvalid
        simp only [hc, Bool.not_true, Bool.false_eq_true, if_false, List.filter_filter]
        congr 1
        apply List.filter_congr
        intro x _
        by_cases hx : x ∈ valid
        · simp [hx]
        · have hne : x ≠ stringsTrimSpace l := fun h => hx (h ▸ hvalid)
          simp [hx, hne]
      · have hstep : addProject (seen, valid) l
            = (stringsTrimSpace l :: seen, valid ++ [stringsTrimSpace l]) := by
          simp [addProject, hblank, hseen]
        have hvalid : stringsTrimSpace l ∉ valid := fun h => hseen ((hsv _).mpr h)
        have hsv' : ∀ x, x ∈ stringsTrimSpace l :: seen ↔ x ∈ valid ++ [stringsTrimSpace l] := by
          intro x
          rw [List.mem_cons, List.mem_append, List.mem_singleton, hsv x]
          exact or_comm
        rw [hstep, ih _ _ hsv']
        simp only [List.map_cons, List.filter_cons, bne_iff_ne, ne_eq, hblank,
          not_false_eq_true, decide_True, if_true, firstOccurrences]
        have hc : valid.contains (stringsTrimSpace l) = false := by simpa using hvalid
        simp only [hc, Bool.not_false, if_true, List.filter_filter, List.append_assoc,
          List.singleton_append]
        congr 2
        apply List.filter_congr
        intro x _
        by_cases hx : x ∈ valid
        · simp [hx]
        · by_cases hxl : x = stringsTrimSpace l
          · simp [hxl]
          · simp [hx, hxl]

/-- The list the loop of `ListProjects` builds from an output. -/
theorem addProject_lines (output : String) :
    ((stringsSplitLines (stringsTrimSpace output)).foldl addProject ([], [])).2
      = firstOccurrences (nonBlankLines output) := by
  rw [addProject_foldl _ [] [] (fun _ => Iff.rfl)]
  have h : ((stringsSplitLines (stringsTrimSpace output)).map stringsTrimSpace).filter
      (fun p => p != "") = nonBlankLines (stringsTrimSpace output) := rfl
  rw [h, nonBlankLines_trim]
  simp

theorem stringsTrimSpace_idempotent (s : String) :
    stringsTrimSpace (stringsTrimSpace s) = stringsTrimSpace s := by
  show String.mk (trimSpaceChars (trimSpaceChars s.toList)) = String.mk (trimSpaceChars s.toList)
  rw [trimSpaceChars_idempotent]

/-- The three ways `ListProjects` returns. -/
theorem ListProjects_cases (list : Except String String) (current : CommandOutput) :
    (inventoryFailedOrBlank list = true ∧ stringsTrimSpace current.output ≠ "" ∧
      ((∃ err, list = .error err) → current.err = none) ∧
      ListProjects list current = .ok [stringsTrimSpace current.output]) ∨
    (inventoryFailedOrBlank list = true ∧ currentYieldsNoProject current = true ∧
      ∃ e, ListProjects list current = .error e) ∨
    (∃ output, list = .ok output ∧ stringsTrimSpace output ≠ "" ∧
      inventoryFailedOrBlank list = false ∧
      ListProjects list current = .ok (firstOccurrences (nonBlankLines output))) := by
  cases list with
  | error err =>
    cases herr : current.err with
    | some currentErr =>
      right; left
      exact ⟨rfl, by simp [currentYieldsNoProject, herr],
        .listProjectsAndCurrent err currentErr, by simp [ListProjects, herr]⟩
    | none =>
      by_cases hcur : stringsTrimSpace current.output = ""
      · right; left
        exact ⟨rfl, by simp [currentYieldsNoProject, hcur], .noProjectSet,
          by simp [ListProjects, herr, hcur]⟩
      · left
        exact ⟨rfl, hcur, fun _ => rfl, by simp [ListProjects, herr, hcur]⟩
  | ok output =>
    by_cases hout : stringsTrimSpace output = ""
    · by_cases hcur : stringsTrimSpace current.output = ""
      · right; left
        exact ⟨by simp [inventoryFailedOrBlank, hout], by simp [currentYieldsNoProject, hcur],
          .noProjectsFound, by simp [ListProjects, hout, hcur]⟩
      · left
        refine ⟨by simp [inventoryFailedOrBlank, hout], hcur, ?_,
          by simp [ListProjects, hout, hcur]⟩
        rintro ⟨err, h⟩
        cases h
    · right; right
      refine ⟨output, rfl, hout, by simp [inventoryFailedOrBlank, hout], ?_⟩
      simp only [ListProjects, beq_iff_eq, hout, if_false]
      rw [addProject_lines]

/-! ## Runs of the polling loops up to a query that fails -/

theorem SQLPolls_calls {σ : Type} (nm : NetworkManager σ) (project operationName : String)
    (timeout : Nat) (e : Nat) (w : World σ) (e' : Nat) (w' : World σ)
    (hrun : SQLPolls nm project operationName timeout e w e' w') :
    ∃ k, w'.calls = w.calls ++ List.replicate k (Call.sqlOperationsGet project operationName) := by
  induction hrun with
  | here e w => exact ⟨0, by simp⟩
  | poll e w op latency s' e' w' _ _ _ _ ih =>
    obtain ⟨k, hk⟩ := ih
    refine ⟨k + 1, ?_⟩
    rw [hk, List.replicate_succ]
    simp

theorem GKEPolls_calls {σ : Type} (nm : NetworkManager σ) (opName : String)
    (timeout : Nat) (e : Nat) (w : World σ) (e' : Nat) (w' : World σ)
    (hrun : GKEPolls nm opName timeout e w e' w') :
    ∃ k, w'.calls = w.calls ++ List.replicate k (Call.gkeOperationsGet opName) := by
  induction hrun with
  | here e w => exact ⟨0, by simp⟩
  | poll e w op latency s' e' w' _ _ _ _ ih =>
    obtain ⟨k, hk⟩ := ih
    refine ⟨k + 1, ?_⟩
    rw [hk, List.replicate_succ]
    simp

theorem waitForSQLOperationLoop_query_error {σ : Type} (nm : NetworkManager σ)
    (project operationName : String) (timeout fuel elapsed : Nat) (w : World σ)
    (err : String) (latency : Nat) (s' : σ)
    (hsel : selectTimer nm timeout elapsed = true)
    (hq : nm.sqlService.OperationsGet project operationName w.backend
      = ((.error err, latency), s')) :
    waitForSQLOperationLoop nm project operationName timeout (fuel + 1) elapsed w
      = some (.error (.operationStatus err),
          ⟨s', w.calls ++ [Call.sqlOperationsGet project operationName]⟩) := by
  simp [waitForSQLOperationLoop, hsel, sqlOperationsGet, hq]

theorem waitForGKEOperationLoop_query_error {σ : Type} (nm : NetworkManager σ)
    (opName : String) (timeout fuel elapsed : Nat) (w : World σ)
    (err : String) (latency : Nat) (s' : σ)
    (hsel : selectTimer nm timeout elapsed = true)
    (hq : nm.gkeService.OperationsGet opName w.backend = ((.error err, latency), s')) :
    waitForGKEOperationLoop nm opName timeout (fuel + 1) elapsed w
      = some (.error (.operationStatus err), ⟨s', w.calls ++ [Call.gkeOperationsGet opName]⟩) := by
  simp [waitForGKEOperationLoop, hsel, gkeOperationsGet, hq]

/-- A wait whose queries were answered without DONE until one fails returns at that
query. -/
theorem waitForSQLOperation_error_after_polls {σ : Type} (nm : NetworkManager σ)
    (project operationName : String) (timeout : Nat) (w : World σ)
    (e' : Nat) (w' : World σ) (err : String) (latency : Nat) (s' : σ)
    (hrun : SQLPolls nm project operationName timeout 0 w e' w')
    (hsel : selectTimer nm timeout e' = true)
    (hq : nm.sqlService.OperationsGet project operationName w'.backend
      = ((.error err, latency), s')) :
    waitForSQLOperation nm project operationName timeout w
      = some (.error (.operationStatus err),
          ⟨s', w'.calls ++ [Call.sqlOperationsGet project operationName]⟩) := by
  obtain ⟨fuel', h⟩ := waitForSQLOperationLoop_polls nm project operationName timeout 0 w e' w'
    hrun hsel (timeout / pollInterval + 1) (fuel_enough timeout).2
  unfold waitForSQLOperation
  rw [h]
  exact waitForSQLOperationLoop_query_error nm project operationName timeout fuel' e' w'
    err latency s' hsel hq

theorem waitForGKEOperation_error_after_polls {σ : Type} (nm : NetworkManager σ)
    (project location operationName : String) (timeout : Nat) (w : World σ)
    (e' : Nat) (w' : World σ) (err : String) (latency : Nat) (s' : σ)
    (hrun : GKEPolls nm (operationPath project location operationName) timeout 0 w e' w')
    (hsel : selectTimer nm timeout e' = true)
    (hq : nm.gkeService.OperationsGet (operationPath project location operationName) w'.backend
      = ((.error err, latency), s')) :
    waitForGKEOperation nm project location operationName timeout w
      = some (.error (.operationStatus err),
          ⟨s', w'.calls ++
            [Call.gkeOperationsGet (operationPath project location operationName)]⟩) := by
  obtain ⟨fuel', h⟩ := waitForGKEOperationLoop_polls nm
    (operationPath project location operationName) timeout 0 w e' w'
    hrun hsel (timeout / pollInterval + 1) (fuel_enough timeout).2
  unfold waitForGKEOperation
  simp only
  rw [h]
  exact waitForGKEOperationLoop_query_error nm _ timeout fuel' e' w' err latency s' hsel hq

/-! ## The catalog: failed results -/

theorem filter_isNone_remove_failed (before after : List result) (failed : result)
    (hfailed : failed.err ≠ none) :
    (before ++ failed :: after).filter (fun res => res.err.isNone)
      = (before ++ after).filter (fun res => res.err.isNone) := by
  cases herr : failed.err with
  | none => exact absurd herr hfailed
  | some err => simp [List.filter_cons, herr]

theorem filter_isNone_all_failed (received : List result)
    (hall : ∀ res ∈ received, res.err ≠ none) :
    received.filter (fun res => res.err.isNone) = [] := by
  rw [List.filter_eq_nil_iff]
  intro res hres
  cases herr : res.err with
  | none => exact absurd herr (hall res hres)
  | some err => simp

/-! ## The list and the detail conversions -/

theorem scanIpAddress_foldl_fst (l : List IpMapping) :
    ∀ acc : Bool × String,
      (l.foldl scanIpAddress acc).1 = (acc.1 || l.any (fun ip => ip.Typ == "PRIMARY")) := by
  induction l with
  | nil => intro acc; simp
  | cons ip rest ih =>
    intro acc
    rw [List.foldl_cons, ih, List.any_cons]
    unfold scanIpAddress
    by_cases h1 : (ip.Typ == "PRIMARY") = true
    · simp [h1]
    · by_cases h2 : (ip.Typ == "PRIVATE") = true
      · simp [h1, h2]
      · simp [h1, h2]

theorem getSQLInstanceDetails_eq_listed {σ : Type} (nm : NetworkManager σ)
    (project instanceName : String) (w : World σ) (inst : DatabaseInstance) (s' : σ)
    (hget : nm.sqlService.InstancesGet project instanceName w.backend = (.ok inst, s')) :
    getSQLInstanceDetails nm project instanceName w
      = (.ok (listedSQLInstance project inst),
          ⟨s', w.calls ++ [Call.sqlInstancesGet project instanceName]⟩) := by
  simp only [getSQLInstanceDetails, sqlInstancesGet, hget, listedSQLInstance]

theorem listSQLInstancesInProject_ok {σ : Type} (nm : NetworkManager σ)
    (project : String) (w : World σ) (items : List DatabaseInstance) (s' : σ)
    (hlist : nm.sqlService.InstancesList project w.backend = (.ok items, s')) :
    listSQLInstancesInProject nm project w
      = (.ok (items.map (listedSQLInstance project)),
          ⟨s', w.calls ++ [Call.sqlInstancesList project]⟩) := by
  simp only [listSQLInstancesInProject, sqlInstancesList, hlist]

theorem listGKEClustersInProject_ok {σ : Type} (nm : NetworkManager σ)
    (project : String) (w : World σ) (clusters : List Cluster) (s' : σ)
    (hlist : nm.gkeService.ClustersList (locationsPath project) w.backend = (.ok clusters, s')) :
    listGKEClustersInProject nm project w
      = (.ok (clusters.map (listedGKECluster project)),
          ⟨s', w.calls ++ [Call.gkeClustersList (locationsPath project)]⟩) := by
  simp only [listGKEClustersInProject, gkeClustersList, hlist]

theorem listedSQLInstance_publicIP (project : String) (inst : DatabaseInstance) :
    ∃ s, listedSQLInstance project inst = .sql s ∧
      s.PublicIPEnabled = publicIPEnabledRule inst ∧
      s.Name = inst.Name ∧ s.Project = project := by
  refine ⟨_, rfl, ?_, rfl, rfl⟩
  unfold publicIPEnabledRule
  rcases hS : inst.Settings with _ | ⟨_ | c⟩
  · simp [scanIpAddress_foldl_fst]
  · simp [scanIpAddress_foldl_fst]
  · simp

theorem getGKEClusterDetails_networks {σ : Type} (nm : NetworkManager σ)
    (project location clusterName : String) (w : World σ) (cluster : Cluster) (s' : σ)
    (hget : nm.gkeService.ClustersGet (clusterPath project location clusterName) w.backend
      = (.ok cluster, s')) :
    ∃ g, (getGKEClusterDetails nm project location clusterName w).1 = .ok (.gke g) ∧
      g.MasterAuthorizedNetworks =
        (match cluster.MasterAuthorizedNetworksConfig with
          | some c => if c.Enabled then c.CidrBlocks.map cidrBlockToNetwork else []
          | none => []) := by
  simp only [getGKEClusterDetails, gkeClustersGet, hget]
  rcases cluster.PrivateClusterConfig with _ | c
  · exact ⟨_, rfl, rfl⟩
  · exact ⟨_, rfl, rfl⟩

theorem listedGKECluster_networks (project : String) (cluster : Cluster) :
    ∃ g, listedGKECluster project cluster = .gke g ∧
      g.MasterAuthorizedNetworks =
        (match cluster.MasterAuthorizedNetworksConfig with
          | some c => if c.Enabled then c.CidrBlocks.map cidrBlockToNetwork else []
          | none => []) ∧
      g.Name = cluster.Name ∧ g.Project = project := by
  simp only [listedGKECluster]
  rcases cluster.PrivateClusterConfig with _ | c
  · exact ⟨_, rfl, rfl, rfl, rfl⟩
  · exact ⟨_, rfl, rfl, rfl, rfl⟩

theorem reported_blocks_enabled (config : Option MasterAuthorizedNetworksConfig)
    (n : AuthorizedNetwork)
    (hn : n ∈ (match config with
      | some c => if c.Enabled then c.CidrBlocks.map cidrBlockToNetwork else []
      | none => [])) :
    ∃ c, config = some c ∧ c.Enabled = true ∧ ∃ b ∈ c.CidrBlocks, n = cidrBlockToNetwork b := by
  rcases config with _ | c
  · simp at hn
  · by_cases hE : c.Enabled = true
    · simp only [hE, if_true, List.mem_map] at hn
      obtain ⟨b, hb, rfl⟩ := hn
      exact ⟨c, rfl, hE, b, hb, rfl⟩
    · simp [hE] at hn

/-! ## The keys of a snapshot -/

theorem ListProjects_nodup (list : Except String String) (current : CommandOutput)
    (projects : List String) (h : ListProjects list current = .ok projects) :
    projects.Nodup := by
  rcases ListProjects_cases list current with
    ⟨_, _, _, hres⟩ | ⟨_, _, e, hres⟩ | ⟨output, _, _, _, hres⟩
  · rw [hres] at h
    cases h
    simp
  · rw [hres] at h
    cases h
  · rw [hres] at h
    cases h
    exact nodup_firstOccurrences _

theorem mem_scheduledTasks (projects : List String) (t : FetchTask) :
    t ∈ scheduledTasks projects ↔
      ∃ p ∈ projects, t = FetchTask.sqlInstances p ∨ t = FetchTask.gkeClusters p := by
  simp [scheduledTasks, List.mem_flatMap]

theorem scheduledTasks_nodup (projects : List String) (h : projects.Nodup) :
    (scheduledTasks projects).Nodup := by
  induction projects with
  | nil => simp [scheduledTasks]
  | cons p ps ih =>
    obtain ⟨hp, hps⟩ := List.nodup_cons.mp h
    have hcons : scheduledTasks (p :: ps)
        = FetchTask.sqlInstances p :: FetchTask.gkeClusters p :: scheduledTasks ps := by
      simp [scheduledTasks]
    rw [hcons]
    refine List.nodup_cons.mpr ⟨?_, List.nodup_cons.mpr ⟨?_, ih hps⟩⟩
    · intro hmem
      rcases List.mem_cons.mp hmem with heq | hmem'
      · cases heq
      · obtain ⟨q, hq, h1 | h1⟩ := (mem_scheduledTasks ps _).mp hmem'
        · cases h1
          exact hp hq
        · cases h1
    · intro hmem
      obtain ⟨q, hq, h1 | h1⟩ := (mem_scheduledTasks ps _).mp hmem
      · cases h1
      · cases h1
        exact hp hq

theorem FetchTask.key_injective (a b : FetchTask) (h : a.key = b.key) : a = b := by
  cases a with
  | sqlInstances p =>
    cases b with
    | sqlInstances q =>
      have h2 : p = q := congrArg Prod.snd h
      rw [h2]
    | gkeClusters q =>
      have h1 : ResourceTypeSQL = ResourceTypeGKE := congrArg Prod.fst h
      exact absurd h1 (by decide)
  | gkeClusters p =>
    cases b with
    | sqlInstances q =>
      have h1 : ResourceTypeGKE = ResourceTypeSQL := congrArg Prod.fst h
      exact absurd h1 (by decide)
    | gkeClusters q =>
      have h2 : p = q := congrArg Prod.snd h
      rw [h2]

theorem resourceKey_listedSQLInstance (project : String) (inst : DatabaseInstance) :
    resourceKey (listedSQLInstance project inst) = (ResourceTypeSQL, project, inst.Name) := rfl

theorem resourceKey_listedGKECluster (project : String) (cluster : Cluster) :
    resourceKey (listedGKECluster project cluster) = (ResourceTypeGKE, project, cluster.Name) := by
  obtain ⟨g, hg, _, hname, hproject⟩ := listedGKECluster_networks project cluster
  rw [hg, ← hname, ← hproject]
  rfl

theorem runTask_resource_keys {σ : Type} (nm : NetworkManager σ) (task : FetchTask)
    (w : World σ) (h : replyNamesDistinct nm task w = true) :
    ∃ names : List String, names.Nodup ∧
      (runTask nm task w).1.resources.map resourceKey
        = names.map (fun n => (task.key.1, task.key.2, n)) := by
  cases task with
  | sqlInstances p =>
    simp only [replyNamesDistinct] at h
    simp only [runTask, listSQLInstancesInProject, sqlInstancesList, FetchTask.key]
    rcases hreply : (nm.sqlService.InstancesList p w.backend).1 with err | items
    · exact ⟨[], List.nodup_nil, rfl⟩
    · rw [hreply] at h
      refine ⟨items.map (fun inst => inst.Name), by simpa using h, ?_⟩
      simp [taskResult, List.map_map, Function.comp_def, resourceKey_listedSQLInstance]
  | gkeClusters p =>
    simp only [replyNamesDistinct] at h
    simp only [runTask, listGKEClustersInProject, gkeClustersList, FetchTask.key]
    rcases hreply : (nm.gkeService.ClustersList (locationsPath p) w.backend).1 with err | clusters
    · exact ⟨[], List.nodup_nil, rfl⟩
    · rw [hreply] at h
      refine ⟨clusters.map (fun cluster => cluster.Name), by simpa using h, ?_⟩
      simp [taskResult, List.map_map, Function.comp_def, resourceKey_listedGKECluster]

theorem collectedKeys_cons {σ : Type} (nm : NetworkManager σ) (run : FetchTask × World σ)
    (runs : List (FetchTask × World σ)) :
    collectedKeys nm (run :: runs)
      = (if (runTask nm run.1 run.2).1.err.isNone
          then (runTask nm run.1 run.2).1.resources.map resourceKey else [])
        ++ collectedKeys nm runs := by
  simp only [collectedKeys, collectResult_foldl_fst, List.map_cons, List.filter_cons,
    List.nil_append]
  by_cases h : (runTask nm run.1 run.2).1.err.isNone = true
  · simp [h]
  · simp [h]

theorem collectedKeys_nodup {σ : Type} (nm : NetworkManager σ)
    (runs : List (FetchTask × World σ))
    (hdistinct : ∀ run ∈ runs, replyNamesDistinct nm run.1 run.2 = true)
    (htasks : (runs.map Prod.fst).Nodup) :
    (collectedKeys nm runs).Nodup ∧
    ∀ k ∈ collectedKeys nm runs, ∃ run ∈ runs, (k.1, k.2.1) = run.1.key := by
  induction runs with
  | nil => simp [collectedKeys]
  | cons r rs ih =>
    rw [List.map_cons, List.nodup_cons] at htasks
    obtain ⟨hnot, hrs⟩ := htasks
    obtain ⟨ih1, ih2⟩ := ih (fun run h => hdistinct run (List.mem_cons_of_mem _ h)) hrs
    obtain ⟨names, hnames, hkeys⟩ :=
      runTask_resource_keys nm r.1 r.2 (hdistinct r (List.mem_cons_self _ _))
    have hhead : ∀ k ∈ (if (runTask nm r.1 r.2).1.err.isNone
        then (runTask nm r.1 r.2).1.resources.map resourceKey else []),
        (k.1, k.2.1) = r.1.key := by
      intro k hk
      split at hk
      · rw [hkeys, List.mem_map] at hk
        obtain ⟨n, _, rfl⟩ := hk
        rfl
      · cases hk
    have hheadNodup : (if (runTask nm r.1 r.2).1.err.isNone
        then (runTask nm r.1 r.2).1.resources.map resourceKey else []).Nodup := by
      split
      · rw [hkeys]
        apply hnames.map
        intro a b hab
        exact congrArg (fun k : String × String × String => k.2.2) hab
      · exact List.nodup_nil
    rw [collectedKeys_cons]
    refine ⟨List.nodup_append.mpr ⟨hheadNodup, ih1, ?_⟩, ?_⟩
    · intro k hk1 hk2
      obtain ⟨run, hrun, hkey⟩ := ih2 k hk2
      have heq : r.1 = run.1 := FetchTask.key_injective _ _ ((hhead k hk1).symm.trans hkey)
      exact hnot (heq ▸ List.mem_map_of_mem Prod.fst hrun)
    · intro k hk
      rcases List.mem_append.mp hk with h1 | h2
      · exact ⟨r, List.mem_cons_self _ _, hhead k h1⟩
      · obtain ⟨run, hrun, hkey⟩ := ih2 k h2
        exact ⟨run, List.mem_cons_of_mem _ hrun, hkey⟩

/-! ## The session state machine: what `Update` writes -/

theorem updateComponents_selectedResource {S L T X C : Type} (rt : Runtime S L T X C)
    (m : Model S L T) (msg : Msg X) :
    (updateComponents rt m msg).1.selectedResource = m.selectedResource := by
  unfold updateComponents
  repeat' split
  all_goals rfl

theorem keyAdd_selectedResource {S L T X C : Type} (rt : Runtime S L T X C)
    (m m1 : Model S L T) (cmd : Option (Cmd C)) (h : keyAdd rt m = some (m1, cmd)) :
    m1.selectedResource = m.selectedResource := by
  unfold keyAdd at h
  split at h
  · split at h
    · cases h
    · split at h
      · cases h
        rfl
      · cases h
        rfl
  · cases h
    rfl

theorem keyEnter_selectedResource {S L T X C : Type} (rt : Runtime S L T X C)
    (m m1 : Model S L T) (cmd : Option (Cmd C)) (h : keyEnter rt m = some (m1, cmd)) :
    m1.selectedResource = m.selectedResource := by
  unfold keyEnter at h
  split at h
  · split at h
    · cases h
      rfl
    · cases h
      rfl
  · split_ifs at h
    all_goals
      cases h
      rfl

theorem keyTab_selectedResource {S L T X C : Type} (rt : Runtime S L T X C)
    (m m1 : Model S L T) (cmd : Option (Cmd C)) (h : keyTab rt m = some (m1, cmd)) :
    m1.selectedResource = m.selectedResource := by
  unfold keyTab at h
  split_ifs at h
  all_goals
    cases h
    rfl

theorem handleKey_selectedResource {S L T X C : Type} (rt : Runtime S L T X C)
    (m m1 : Model S L T) (key : String) (cmd : Option (Cmd C))
    (h : handleKey rt m key = some (m1, cmd)) :
    m1.selectedResource = m.selectedResource := by
  unfold handleKey at h
  split_ifs at h
  · cases h
    rfl
  · unfold keyHelp at h
    split_ifs at h
    all_goals
      cases h
      rfl
  · unfold keyEsc at h
    split_ifs at h
    all_goals
      cases h
      rfl
  · exact keyAdd_selectedResource rt m m1 cmd h
  · unfold keyConsole at h
    split_ifs at h
    all_goals
      cases h
      rfl
  · unfold keyReload at h
    split_ifs at h
    all_goals
      cases h
      rfl
  · exact keyEnter_selectedResource rt m m1 cmd h
  · exact keyTab_selectedResource rt m m1 cmd h
  · cases h
    rfl

theorem keyAdd_eq_none_iff {S L T X C : Type} (rt : Runtime S L T X C) (m : Model S L T) :
    (keyAdd rt m : Option (Model S L T × Option (Cmd C))) = none ↔
      m.state = .stateNetworkView ∧ m.selectedResource = none := by
  unfold keyAdd
  constructor
  · intro h
    split at h
    · rename_i hstate
      split at h
      · rename_i hnil
        exact ⟨hstate, hnil⟩
      · split at h <;> cases h
    · cases h
  · rintro ⟨hstate, hnil⟩
    simp [hstate, hnil]

theorem handleKey_eq_none_iff {S L T X C : Type} (rt : Runtime S L T X C)
    (m : Model S L T) (key : String) :
    (handleKey rt m key : Option (Model S L T × Option (Cmd C))) = none ↔
      key = "a" ∧ m.state = .stateNetworkView ∧ m.selectedResource = none := by
  unfold handleKey
  constructor
  · intro h
    split_ifs at h with h1 h2 h3 h4 h5 h6 h7 h8
    · unfold keyHelp at h
      split_ifs at h
    · unfold keyEsc at h
      split_ifs at h
    · exact ⟨h4, (keyAdd_eq_none_iff rt m).mp h⟩
    · unfold keyConsole at h
      split_ifs at h
    · unfold keyReload at h
      split_ifs at h
    · unfold keyEnter at h
      split at h
      · split at h <;> cases h
      · split_ifs at h
    · unfold keyTab at h
      split_ifs at h
  · rintro ⟨rfl, hstate, hnil⟩
    have hadd := (keyAdd_eq_none_iff rt m).mpr ⟨hstate, hnil⟩
    simpa using hadd


theorem handleMsg_selectedResource {S L T X C : Type} (rt : Runtime S L T X C)
    (m m1 : Model S L T) (msg : Msg X) (cmd : Option (Cmd C))
    (hmsg : ∀ resource, msg ≠ Msg.resourceSelectedMsg resource)
    (h : handleMsg rt m msg = some (m1, cmd)) :
    m1.selectedResource = m.selectedResource := by
  cases msg with
  | WindowSizeMsg Width Height => cases h; rfl
  | KeyMsg key => exact handleKey_selectedResource rt m m1 key cmd h
  | resourcesLoadedMsg resources => cases h; rfl
  | resourceSelectedMsg resource => exact absurd rfl (hmsg resource)
  | networkAddedMsg success message =>
    simp only [handleMsg] at h
    split_ifs at h
    all_goals
      cases h
      rfl
  | errorMsg err => cases h; rfl
  | tickMsg t =>
    simp only [handleMsg] at h
    split_ifs at h
    all_goals
      cases h
      rfl
  | otherMsg x => cases h; rfl

theorem handleMsg_eq_none_iff {S L T X C : Type} (rt : Runtime S L T X C)
    (m : Model S L T) (msg : Msg X) :
    (handleMsg rt m msg : Option (Model S L T × Option (Cmd C))) = none ↔
      msg = Msg.KeyMsg "a" ∧ m.state = .stateNetworkView ∧ m.selectedResource = none := by
  cases msg with
  | KeyMsg key =>
    rw [show handleMsg rt m (Msg.KeyMsg key) = (handleKey rt m key :
      Option (Model S L T × Option (Cmd C))) from rfl, handleKey_eq_none_iff]
    constructor
    · rintro ⟨rfl, h2, h3⟩
      exact ⟨rfl, h2, h3⟩
    · rintro ⟨h1, h2, h3⟩
      cases h1
      exact ⟨rfl, h2, h3⟩
  | networkAddedMsg success message =>
    simp only [handleMsg]
    constructor
    · intro h
      split_ifs at h
    · rintro ⟨h1, _, _⟩
      cases h1
  | tickMsg t =>
    simp only [handleMsg]
    constructor
    · intro h
      split_ifs at h
    · rintro ⟨h1, _, _⟩
      cases h1
  | WindowSizeMsg Width Height =>
    exact ⟨fun h => (by cases h), fun h => (by cases h.1)⟩
  | resourcesLoadedMsg resources =>
    exact ⟨fun h => (by cases h), fun h => (by cases h.1)⟩
  | resourceSelectedMsg resource =>
    exact ⟨fun h => (by cases h), fun h => (by cases h.1)⟩
  | errorMsg err =>
    exact ⟨fun h => (by cases h), fun h => (by cases h.1)⟩
  | otherMsg x =>
    exact ⟨fun h => (by cases h), fun h => (by cases h.1)⟩

theorem Update_eq_none_iff {S L T X C : Type} (rt : Runtime S L T X C)
    (m : Model S L T) (msg : Msg X) :
    (Model.Update rt m msg : Option (Model S L T × Cmd C)) = none ↔
      msg = Msg.KeyMsg "a" ∧ m.state = .stateNetworkView ∧ m.selectedResource = none := by
  rw [← handleMsg_eq_none_iff rt m msg]
  unfold Model.Update
  rcases handleMsg rt m msg with _ | ⟨m1, _ | cmd⟩ <;> simp

theorem Update_selectedResource {S L T X C : Type} (rt : Runtime S L T X C)
    (m m1 : Model S L T) (msg : Msg X) (cmd : Cmd C)
    (hmsg : ∀ resource, msg ≠ Msg.resourceSelectedMsg resource)
    (h : Model.Update rt m msg = some (m1, cmd)) :
    m1.selectedResource = m.selectedResource := by
  unfold Model.Update at h
  rcases hh : handleMsg rt m msg with _ | ⟨m2, _ | cmd2⟩
  · rw [hh] at h
    cases h
  · rw [hh] at h
    simp only [Option.some.injEq] at h
    have h1 : m1 = (updateComponents rt m2 msg).1 := by rw [h]
    rw [h1, updateComponents_selectedResource]
    exact handleMsg_selectedResource rt m m2 msg none hmsg hh
  · rw [hh] at h
    simp only [Option.some.injEq, Prod.mk.injEq] at h
    rw [← h.1]
    exact handleMsg_selectedResource rt m m2 msg (some cmd2) hmsg hh

theorem updateComponents_status {S L T X C : Type} (rt : Runtime S L T X C)
    (m : Model S L T) (msg : Msg X) :
    (updateComponents rt m msg).1.message = m.message ∧
    (updateComponents rt m msg).1.isError = m.isError ∧
    (updateComponents rt m msg).1.state = m.state := by
  unfold updateComponents
  repeat' split
  all_goals exact ⟨rfl, rfl, rfl⟩
/-! ## Claims -/


/-- C1. For both variants: when the fetched network list holds no entry with the
normalized value, the add path issues the get, then one patch/update whose network
list is the fetched list followed by the new entry `{name, normalized value}` (every
fetched entry kept, in order, the new one last), then only status queries. -/
theorem addNetwork_submits_fetched_list_with_new_entry_last {σ : Type}
    (nm : NetworkManager σ) (networkName networkIP normalizedIP : String) (w : World σ)
    (hn : normalizeIP networkIP = .ok normalizedIP) :
    (∀ (project instanceName : String) (inst : DatabaseInstance) (s1 : σ),
      nm.sqlService.InstancesGet project instanceName w.backend = (.ok inst, s1) →
      (∀ e ∈ (fetchedIpConfiguration inst).AuthorizedNetworks, e.Value ≠ normalizedIP) →
      ∃ r w' polls settings ipConfiguration,
        addNetworkToSQLInstance nm project instanceName networkName networkIP w
          = some (r, w') ∧
        w'.calls = w.calls ++ [Call.sqlInstancesGet project instanceName,
          Call.sqlInstancesPatch project instanceName (sqlUpdateRequest settings)] ++ polls ∧
        settings.IpConfiguration = some ipConfiguration ∧
        ipConfiguration.AuthorizedNetworks =
          (fetchedIpConfiguration inst).AuthorizedNetworks ++
            [{ Kind := "sql#aclEntry", Name := networkName, Value := normalizedIP }] ∧
        (∀ c ∈ polls, c.isStatusQuery = true)) ∧
    (∀ (project location clusterName : String) (cluster : Cluster) (s1 : σ),
      nm.gkeService.ClustersGet (clusterPath project location clusterName) w.backend
        = (.ok cluster, s1) →
      (∀ b ∈ (fetchedMasterConfig cluster).CidrBlocks, b.CidrBlock ≠ normalizedIP) →
      ∃ r w' polls config,
        addNetworkToGKECluster nm project location clusterName networkName networkIP w
          = some (r, w') ∧
        w'.calls = w.calls ++ [Call.gkeClustersGet (clusterPath project location clusterName),
          Call.gkeClustersUpdate (clusterPath project location clusterName)
            { DesiredMasterAuthorizedNetworksConfig := config }] ++ polls ∧
        config.CidrBlocks =
          (fetchedMasterConfig cluster).CidrBlocks ++
            [{ CidrBlock := normalizedIP, DisplayName := networkName }] ∧
        (∀ c ∈ polls, c.isStatusQuery = true)) := by
  constructor
  · intro project instanceName inst s1 hget hno
    rw [addNetworkToSQLInstance_submit nm project instanceName networkName networkIP
      normalizedIP w inst s1 hn hget hno]
    generalize nm.sqlService.InstancesPatch project instanceName
      (sqlUpdateRequest ⟨some ⟨(fetchedIpConfiguration inst).Ipv4Enabled,
        (fetchedIpConfiguration inst).AuthorizedNetworks ++
          [⟨"sql#aclEntry", networkName, normalizedIP⟩]⟩⟩) s1 = res
    rcases res with ⟨err | operation, s2⟩
    · exact ⟨_, _, [], ⟨some ⟨(fetchedIpConfiguration inst).Ipv4Enabled,
        (fetchedIpConfiguration inst).AuthorizedNetworks ++
          [⟨"sql#aclEntry", networkName, normalizedIP⟩]⟩⟩,
        ⟨(fetchedIpConfiguration inst).Ipv4Enabled,
        (fetchedIpConfiguration inst).AuthorizedNetworks ++
          [⟨"sql#aclEntry", networkName, normalizedIP⟩]⟩, rfl, by simp, rfl, rfl, by simp⟩
    · obtain ⟨r, w', qs, hrun, hc, hall, _, _⟩ :=
        waitForSQLOperation_run nm project operation.Name (30 * Second)
          ⟨s2, w.calls ++ [Call.sqlInstancesGet project instanceName] ++
            [Call.sqlInstancesPatch project instanceName
              (sqlUpdateRequest ⟨some ⟨(fetchedIpConfiguration inst).Ipv4Enabled,
                (fetchedIpConfiguration inst).AuthorizedNetworks ++
                  [⟨"sql#aclEntry", networkName, normalizedIP⟩]⟩⟩)]⟩
      refine ⟨r, w', qs, ⟨some ⟨(fetchedIpConfiguration inst).Ipv4Enabled,
        (fetchedIpConfiguration inst).AuthorizedNetworks ++
          [⟨"sql#aclEntry", networkName, normalizedIP⟩]⟩⟩,
        ⟨(fetchedIpConfiguration inst).Ipv4Enabled,
        (fetchedIpConfiguration inst).AuthorizedNetworks ++
          [⟨"sql#aclEntry", networkName, normalizedIP⟩]⟩, hrun, ?_, rfl, rfl, ?_⟩
      · rw [hc]
        simp
      · intro c hcq
        rw [hall c hcq]
        rfl
  · intro project location clusterName cluster s1 hget hno
    rw [addNetworkToGKECluster_submit nm project location clusterName networkName networkIP
      normalizedIP w cluster s1 hn hget hno]
    generalize nm.gkeService.ClustersUpdate (clusterPath project location clusterName)
      ⟨⟨true, (fetchedMasterConfig cluster).CidrBlocks ++ [⟨normalizedIP, networkName⟩]⟩⟩ s1
      = res
    rcases res with ⟨err | operation, s2⟩
    · exact ⟨_, _, [], ⟨true, (fetchedMasterConfig cluster).CidrBlocks ++ [⟨normalizedIP, networkName⟩]⟩, rfl, by simp, rfl, by simp⟩
    · obtain ⟨r, w', qs, hrun, hc, hall, _, _⟩ :=
        waitForGKEOperation_run nm project location operation.Name (30 * Second)
          ⟨s2, w.calls ++ [Call.gkeClustersGet (clusterPath project location clusterName)] ++
            [Call.gkeClustersUpdate (clusterPath project location clusterName)
              ⟨⟨true, (fetchedMasterConfig cluster).CidrBlocks ++
                [⟨normalizedIP, networkName⟩]⟩⟩]⟩
      refine ⟨r, w', qs, ⟨true, (fetchedMasterConfig cluster).CidrBlocks ++ [⟨normalizedIP, networkName⟩]⟩, hrun, ?_, rfl, ?_⟩
      · rw [hc]
        simp
      · intro c hcq
        rw [hall c hcq]
        rfl



/-- C1 at `db1` and `c1`, each holding the entry `home`, adding `office` at `203.0.113.5`. -/
theorem addNetwork_submits_fetched_list_with_new_entry_last_witness :
    normalizeIP "203.0.113.5" = .ok "203.0.113.5/32" ∧
    (∃ r w' polls settings ipConfiguration,
      addNetworkToSQLInstance (sampleManager [homeEntry] [homeBlock] "DONE" none none 0 false)
        "p1" "db1" "office" "203.0.113.5" emptyWorld = some (r, w') ∧
      w'.calls = emptyWorld.calls ++ [Call.sqlInstancesGet "p1" "db1",
        Call.sqlInstancesPatch "p1" "db1" (sqlUpdateRequest settings)] ++ polls ∧
      settings.IpConfiguration = some ipConfiguration ∧
      ipConfiguration.AuthorizedNetworks = [homeEntry] ++
        [{ Kind := "sql#aclEntry", Name := "office", Value := "203.0.113.5/32" }] ∧
      (∀ c ∈ polls, c.isStatusQuery = true)) ∧
    (∃ r w' polls config,
      addNetworkToGKECluster (sampleManager [homeEntry] [homeBlock] "DONE" none none 0 false)
        "p1" "us-central1" "c1" "office" "203.0.113.5" emptyWorld = some (r, w') ∧
      w'.calls = emptyWorld.calls ++ [Call.gkeClustersGet (clusterPath "p1" "us-central1" "c1"),
        Call.gkeClustersUpdate (clusterPath "p1" "us-central1" "c1")
          { DesiredMasterAuthorizedNetworksConfig := config }] ++ polls ∧
      config.CidrBlocks = [homeBlock] ++
        [{ CidrBlock := "203.0.113.5/32", DisplayName := "office" }] ∧
      (∀ c ∈ polls, c.isStatusQuery = true)) :=
  ⟨rfl,
   (addNetwork_submits_fetched_list_with_new_entry_last
      (sampleManager [homeEntry] [homeBlock] "DONE" none none 0 false)
      "office" "203.0.113.5" "203.0.113.5/32" emptyWorld rfl).1
      "p1" "db1" (plainInstance "db1" [homeEntry]) () rfl (by decide),
   (addNetwork_submits_fetched_list_with_new_entry_last
      (sampleManager [homeEntry] [homeBlock] "DONE" none none 0 false)
      "office" "203.0.113.5" "203.0.113.5/32" emptyWorld rfl).2
      "p1" "us-central1" "c1" (plainCluster "c1" [homeBlock]) () rfl (by decide)⟩
/-- C2. For both variants: when the fetched network list holds an entry with the
normalized value, the add path fails with the duplicate-network error of that entry
(one message when its name is the proposed name, another when it is not) and the
get is the only backend call: no patch/update is submitted. -/
theorem addNetwork_duplicate_fails_without_patch {σ : Type}
    (nm : NetworkManager σ) (networkName networkIP normalizedIP : String) (w : World σ)
    (hn : normalizeIP networkIP = .ok normalizedIP) :
    (∀ (project instanceName : String) (inst : DatabaseInstance) (s1 : σ),
      nm.sqlService.InstancesGet project instanceName w.backend = (.ok inst, s1) →
      (∃ e ∈ (fetchedIpConfiguration inst).AuthorizedNetworks, e.Value = normalizedIP) →
      ∃ e ∈ (fetchedIpConfiguration inst).AuthorizedNetworks, e.Value = normalizedIP ∧
        addNetworkToSQLInstance nm project instanceName networkName networkIP w =
          some (.error (if e.Name = networkName
              then GoError.networkExistsSameName normalizedIP networkName
              else GoError.networkExistsOtherName normalizedIP e.Name),
            ⟨s1, w.calls ++ [Call.sqlInstancesGet project instanceName]⟩)) ∧
    (∀ (project location clusterName : String) (cluster : Cluster) (s1 : σ),
      nm.gkeService.ClustersGet (clusterPath project location clusterName) w.backend
        = (.ok cluster, s1) →
      (∃ b ∈ (fetchedMasterConfig cluster).CidrBlocks, b.CidrBlock = normalizedIP) →
      ∃ b ∈ (fetchedMasterConfig cluster).CidrBlocks, b.CidrBlock = normalizedIP ∧
        addNetworkToGKECluster nm project location clusterName networkName networkIP w =
          some (.error (if b.DisplayName = networkName
              then GoError.networkExistsSameName normalizedIP networkName
              else GoError.networkExistsOtherName normalizedIP b.DisplayName),
            ⟨s1, w.calls ++ [Call.gkeClustersGet (clusterPath project location clusterName)]⟩)) := by
  constructor
  · intro project instanceName inst s1 hget hdup
    obtain ⟨e, he, hv, hfind⟩ := find?_isSome_of_exists
      (fun network : AclEntry => network.Value == normalizedIP) _
      (by obtain ⟨e, he, hv⟩ := hdup; exact ⟨e, he, by simpa using hv⟩)
    refine ⟨e, he, by simpa using hv, ?_⟩
    unfold addNetworkToSQLInstance
    simp only [hn, sqlInstancesGet, hget, hfind]
    by_cases hname : e.Name = networkName
    · simp [hname]
    · simp [hname]
  · intro project location clusterName cluster s1 hget hdup
    obtain ⟨b, hb, hv, hfind⟩ := find?_isSome_of_exists
      (fun network : CidrBlock => network.CidrBlock == normalizedIP) _
      (by obtain ⟨b, hb, hv⟩ := hdup; exact ⟨b, hb, by simpa using hv⟩)
    refine ⟨b, hb, by simpa using hv, ?_⟩
    unfold addNetworkToGKECluster
    simp only [hn, gkeClustersGet, hget, hfind]
    by_cases hname : b.DisplayName = networkName
    · simp [hname]
    · simp [hname]



/-- C2 at `db1` and `c1`: adding `office2` at the value stored under `home`. -/
theorem addNetwork_duplicate_fails_without_patch_witness :
    normalizeIP "198.51.100.7" = .ok "198.51.100.7/32" ∧
    (∃ e ∈ [homeEntry], e.Value = "198.51.100.7/32" ∧
      addNetworkToSQLInstance doneManager "p1" "db1" "office2" "198.51.100.7" emptyWorld =
        some (.error (if e.Name = "office2"
            then GoError.networkExistsSameName "198.51.100.7/32" "office2"
            else GoError.networkExistsOtherName "198.51.100.7/32" e.Name),
          ⟨(), emptyWorld.calls ++ [Call.sqlInstancesGet "p1" "db1"]⟩)) ∧
    (∃ b ∈ [homeBlock], b.CidrBlock = "198.51.100.7/32" ∧
      addNetworkToGKECluster doneManager "p1" "us-central1" "c1" "office2" "198.51.100.7"
          emptyWorld =
        some (.error (if b.DisplayName = "office2"
            then GoError.networkExistsSameName "198.51.100.7/32" "office2"
            else GoError.networkExistsOtherName "198.51.100.7/32" b.DisplayName),
          ⟨(), emptyWorld.calls ++ [Call.gkeClustersGet (clusterPath "p1" "us-central1" "c1")]⟩)) :=
  ⟨rfl,
   (addNetwork_duplicate_fails_without_patch doneManager
      "office2" "198.51.100.7" "198.51.100.7/32" emptyWorld rfl).1
      "p1" "db1" (plainInstance "db1" [homeEntry]) () rfl ⟨homeEntry, by decide, rfl⟩,
   (addNetwork_duplicate_fails_without_patch doneManager
      "office2" "198.51.100.7" "198.51.100.7/32" emptyWorld rfl).2
      "p1" "us-central1" "c1" (plainCluster "c1" [homeBlock]) () rfl ⟨homeBlock, by decide, rfl⟩⟩
/-- C3. For a database instance with `PublicIPEnabled = false`, `AddNetworkToResource`
returns a failure and leaves the world as it was: no get, no patch, no status query. -/
theorem addNetwork_without_public_ip_makes_no_call {σ : Type} (nm : NetworkManager σ)
    (r : SQLInstance) (networkName networkIP : String) (w : World σ)
    (h : r.PublicIPEnabled = false) :
    AddNetworkToResource nm (.sql r) networkName networkIP w
      = some (.error .cannotAddNetwork, w) := by
  simp [AddNetworkToResource, h]


/-- C3 at the private instance `db1`. -/
theorem addNetwork_without_public_ip_makes_no_call_witness :
    (sampleSQL "db1" false).PublicIPEnabled = false ∧
    AddNetworkToResource doneManager (.sql (sampleSQL "db1" false)) "office" "203.0.113.5"
      emptyWorld = some (.error .cannotAddNetwork, emptyWorld) :=
  ⟨rfl, addNetwork_without_public_ip_makes_no_call doneManager (sampleSQL "db1" false)
    "office" "203.0.113.5" emptyWorld rfl⟩
/-- C4. For every string `s`, also an empty or malformed one, `normalizeIP` succeeds:
it returns `s` unchanged when `s` contains a slash and `s` followed by `/32`
otherwise; `10.0.0.1` becomes `10.0.0.1/32` and `10.0.0.0/24` stays as it is; and
adding a network (either variant, and through `AddNetworkToResource`) never fails
with the invalid-IP-format error. -/
theorem normalizeIP_total (s : String) :
    normalizeIP s = .ok (if stringsContains s "/" = true then s else s ++ "/32") ∧
    (stringsContains s "/" = true ↔ '/' ∈ s.toList) ∧
    normalizeIP "10.0.0.1" = .ok "10.0.0.1/32" ∧
    normalizeIP "10.0.0.0/24" = .ok "10.0.0.0/24" ∧
    normalizeIP "" = .ok "/32" ∧
    (∀ (σ : Type) (nm : NetworkManager σ) (resource : CloudResource) (networkName : String)
        (w w' : World σ) (err : String),
      AddNetworkToResource nm resource networkName s w
        ≠ some (.error (.invalidIPFormat err), w')) ∧
    (∀ (σ : Type) (nm : NetworkManager σ) (project instanceName networkName : String)
        (w w' : World σ) (err : String),
      addNetworkToSQLInstance nm project instanceName networkName s w
        ≠ some (.error (.invalidIPFormat err), w')) ∧
    (∀ (σ : Type) (nm : NetworkManager σ) (project location clusterName networkName : String)
        (w w' : World σ) (err : String),
      addNetworkToGKECluster nm project location clusterName networkName s w
        ≠ some (.error (.invalidIPFormat err), w')) := by
  refine ⟨?_, stringsContains_slash_iff s, rfl, rfl, rfl, ?_, ?_, ?_⟩
  · unfold normalizeIP
    split <;> rfl
  · intro σ nm resource networkName w w' err h
    cases resource with
    | sql r =>
      simp only [AddNetworkToResource] at h
      split at h
      · simp at h
      · exact addNetworkToSQLInstance_ne_invalidIP nm _ _ _ _ err w w' h
    | gke r =>
      exact addNetworkToGKECluster_ne_invalidIP nm _ _ _ _ _ err w w' h
  · intro σ nm project instanceName networkName w w' err
    exact addNetworkToSQLInstance_ne_invalidIP nm _ _ _ _ err w w'
  · intro σ nm project location clusterName networkName w w' err
    exact addNetworkToGKECluster_ne_invalidIP nm _ _ _ _ _ err w w'

/-- C5. `normalizeIP` is idempotent: normalizing the normalized value of any string
returns that value again. -/
theorem normalizeIP_idempotent (s : String) :
    (normalizeIP s >>= normalizeIP) = normalizeIP s ∧
    ∃ t, normalizeIP s = .ok t ∧ normalizeIP t = .ok t := by
  have key : ∃ t, normalizeIP s = .ok t ∧ normalizeIP t = .ok t := by
    refine ⟨if '/' ∈ s.toList then s else s ++ "/32", normalizeIP_eq s, ?_⟩
    exact normalizeIP_of_slash _ (normalizeIP_ok_slash s _ (normalizeIP_eq s))
  refine ⟨?_, key⟩
  obtain ⟨t, h1, h2⟩ := key
  rw [h1]
  exact h2


/-- C6. For both backends: when the status queries of a wait were answered without
DONE until one reports DONE (the first that does), the wait returns at that query,
with the operation-failed error carrying the message of the first reported backend
error when the error field holds one, and with success when the operation carries no
error (for SQL also when the error field is present but lists no error).  The same
per iteration of the loops: a query answered DONE returns so, a query answered
otherwise passes on to the next iteration. -/
theorem wait_done_outcome {σ : Type} (nm : NetworkManager σ) :
    (∀ (project operationName : String) (timeout : Nat) (w : World σ) (e' : Nat)
        (w' : World σ) (op : SQLOperation) (latency : Nat) (s' : σ),
      SQLPolls nm project operationName timeout 0 w e' w' →
      selectTimer nm timeout e' = true →
      nm.sqlService.OperationsGet project operationName w'.backend = ((.ok op, latency), s') →
      op.Status = "DONE" →
      (∀ errors e es, op.Error = some errors → errors.Errors = e :: es →
        waitForSQLOperation nm project operationName timeout w
          = some (.error (.operationFailed e.Message),
              ⟨s', w'.calls ++ [Call.sqlOperationsGet project operationName]⟩)) ∧
      (op.Error = none ∨ op.Error = some ⟨[]⟩ →
        waitForSQLOperation nm project operationName timeout w
          = some (.ok (), ⟨s', w'.calls ++ [Call.sqlOperationsGet project operationName]⟩))) ∧
    (∀ (project location operationName : String) (timeout : Nat) (w : World σ) (e' : Nat)
        (w' : World σ) (op : GKEOperation) (latency : Nat) (s' : σ),
      GKEPolls nm (operationPath project location operationName) timeout 0 w e' w' →
      selectTimer nm timeout e' = true →
      nm.gkeService.OperationsGet (operationPath project location operationName) w'.backend
        = ((.ok op, latency), s') →
      op.Status = "DONE" →
      (∀ status, op.Error = some status →
        waitForGKEOperation nm project location operationName timeout w
          = some (.error (.operationFailed status.Message),
              ⟨s', w'.calls ++
                [Call.gkeOperationsGet (operationPath project location operationName)]⟩)) ∧
      (op.Error = none →
        waitForGKEOperation nm project location operationName timeout w
          = some (.ok (), ⟨s', w'.calls ++
              [Call.gkeOperationsGet (operationPath project location operationName)]⟩))) ∧
    (∀ (project operationName : String) (timeout fuel elapsed : Nat) (w : World σ)
        (op : SQLOperation) (latency : Nat) (s' : σ),
      selectTimer nm timeout elapsed = true →
      nm.sqlService.OperationsGet project operationName w.backend = ((.ok op, latency), s') →
      (op.Status = "DONE" →
        (∀ errors e es, op.Error = some errors → errors.Errors = e :: es →
          waitForSQLOperationLoop nm project operationName timeout (fuel + 1) elapsed w
            = some (.error (.operationFailed e.Message),
                ⟨s', w.calls ++ [Call.sqlOperationsGet project operationName]⟩)) ∧
        (op.Error = none ∨ op.Error = some ⟨[]⟩ →
          waitForSQLOperationLoop nm project operationName timeout (fuel + 1) elapsed w
            = some (.ok (), ⟨s', w.calls ++ [Call.sqlOperationsGet project operationName]⟩))) ∧
      (op.Status ≠ "DONE" →
        waitForSQLOperationLoop nm project operationName timeout (fuel + 1) elapsed w
          = waitForSQLOperationLoop nm project operationName timeout fuel
              (elapsed + pollInterval + latency)
              ⟨s', w.calls ++ [Call.sqlOperationsGet project operationName]⟩)) ∧
    (∀ (opName : String) (timeout fuel elapsed : Nat) (w : World σ)
        (op : GKEOperation) (latency : Nat) (s' : σ),
      selectTimer nm timeout elapsed = true →
      nm.gkeService.OperationsGet opName w.backend = ((.ok op, latency), s') →
      (op.Status = "DONE" →
        (∀ status, op.Error = some status →
          waitForGKEOperationLoop nm opName timeout (fuel + 1) elapsed w
            = some (.error (.operationFailed status.Message),
                ⟨s', w.calls ++ [Call.gkeOperationsGet opName]⟩)) ∧
        (op.Error = none →
          waitForGKEOperationLoop nm opName timeout (fuel + 1) elapsed w
            = some (.ok (), ⟨s', w.calls ++ [Call.gkeOperationsGet opName]⟩))) ∧
      (op.Status ≠ "DONE" →
        waitForGKEOperationLoop nm opName timeout (fuel + 1) elapsed w
          = waitForGKEOperationLoop nm opName timeout fuel (elapsed + pollInterval + latency)
              ⟨s', w.calls ++ [Call.gkeOperationsGet opName]⟩)) := by
  refine ⟨?_, ?_, ?_, ?_⟩
  · intro project operationName timeout w e' w' op latency s' hrun hsel hq hdone
    have h := waitForSQLOperation_done_after_polls nm project operationName timeout w e' w'
      op latency s' hrun hsel hq hdone
    refine ⟨?_, ?_⟩
    · intro errors e es hE hL
      rw [h, hE]
      simp only [hL]
    · rintro (hE | hE)
      · rw [h, hE]
      · rw [h, hE]
  · intro project location operationName timeout w e' w' op latency s' hrun hsel hq hdone
    have h := waitForGKEOperation_done_after_polls nm project location operationName timeout
      w e' w' op latency s' hrun hsel hq hdone
    refine ⟨?_, ?_⟩
    · intro status hE
      rw [h, hE]
    · intro hE
      rw [h, hE]
  · intro project operationName timeout fuel elapsed w op latency s' hsel hq
    refine ⟨fun hdone => ⟨?_, ?_⟩, fun hnd => ?_⟩
    · intro errors e es hE hL
      simp [waitForSQLOperationLoop, hsel, sqlOperationsGet, hq, hdone, hE, hL]
    · rintro (hE | hE)
      · simp [waitForSQLOperationLoop, hsel, sqlOperationsGet, hq, hdone, hE]
      · simp [waitForSQLOperationLoop, hsel, sqlOperationsGet, hq, hdone, hE]
    · simp [waitForSQLOperationLoop, hsel, sqlOperationsGet, hq, hnd]
  · intro opName timeout fuel elapsed w op latency s' hsel hq
    refine ⟨fun hdone => ⟨?_, ?_⟩, fun hnd => ?_⟩
    · intro status hE
      simp [waitForGKEOperationLoop, hsel, gkeOperationsGet, hq, hdone, hE]
    · intro hE
      simp [waitForGKEOperationLoop, hsel, gkeOperationsGet, hq, hdone, hE]
    · simp [waitForGKEOperationLoop, hsel, gkeOperationsGet, hq, hnd]

/-- C6 on the counting backend (the second query is the first to report DONE) and, per
iteration, on the backends `failedManager`, `doneManager` and `pendingManager`. -/
theorem wait_done_outcome_witness :
    waitForSQLOperation
        (countingManager 1 (some ⟨[⟨"quota exceeded"⟩, ⟨"second error"⟩]⟩) (some ⟨"denied"⟩))
        "p1" "op-sql" (30 * Second) ⟨0, []⟩
      = some (.error (.operationFailed "quota exceeded"),
          ⟨2, [Call.sqlOperationsGet "p1" "op-sql"] ++ [Call.sqlOperationsGet "p1" "op-sql"]⟩) ∧
    waitForSQLOperation (countingManager 1 (some ⟨[]⟩) none)
        "p1" "op-sql" (30 * Second) ⟨0, []⟩
      = some (.ok (),
          ⟨2, [Call.sqlOperationsGet "p1" "op-sql"] ++ [Call.sqlOperationsGet "p1" "op-sql"]⟩) ∧
    waitForGKEOperation
        (countingManager 1 (some ⟨[⟨"quota exceeded"⟩, ⟨"second error"⟩]⟩) (some ⟨"denied"⟩))
        "p1" "z" "op-gke" (30 * Second) ⟨0, []⟩
      = some (.error (.operationFailed "denied"),
          ⟨2, [Call.gkeOperationsGet (operationPath "p1" "z" "op-gke")] ++
            [Call.gkeOperationsGet (operationPath "p1" "z" "op-gke")]⟩) ∧
    waitForGKEOperation (countingManager 1 none none) "p1" "z" "op-gke" (30 * Second) ⟨0, []⟩
      = some (.ok (),
          ⟨2, [Call.gkeOperationsGet (operationPath "p1" "z" "op-gke")] ++
            [Call.gkeOperationsGet (operationPath "p1" "z" "op-gke")]⟩) ∧
    waitForSQLOperationLoop failedManager "p1" "op-sql" (30 * Second) (6 + 1) 0 emptyWorld
      = some (.error (.operationFailed "quota exceeded"),
          ⟨(), emptyWorld.calls ++ [Call.sqlOperationsGet "p1" "op-sql"]⟩) ∧
    waitForSQLOperationLoop doneManager "p1" "op-sql" (30 * Second) (6 + 1) 0 emptyWorld
      = some (.ok (), ⟨(), emptyWorld.calls ++ [Call.sqlOperationsGet "p1" "op-sql"]⟩) ∧
    waitForSQLOperationLoop pendingManager "p1" "op-sql" (30 * Second) (6 + 1) 0 emptyWorld
      = waitForSQLOperationLoop pendingManager "p1" "op-sql" (30 * Second) 6
          (0 + pollInterval + 0)
          ⟨(), emptyWorld.calls ++ [Call.sqlOperationsGet "p1" "op-sql"]⟩ ∧
    waitForGKEOperationLoop failedManager "op" (30 * Second) (6 + 1) 0 emptyWorld
      = some (.error (.operationFailed "permission denied"),
          ⟨(), emptyWorld.calls ++ [Call.gkeOperationsGet "op"]⟩) ∧
    waitForGKEOperationLoop doneManager "op" (30 * Second) (6 + 1) 0 emptyWorld
      = some (.ok (), ⟨(), emptyWorld.calls ++ [Call.gkeOperationsGet "op"]⟩) ∧
    waitForGKEOperationLoop pendingManager "op" (30 * Second) (6 + 1) 0 emptyWorld
      = waitForGKEOperationLoop pendingManager "op" (30 * Second) 6 (0 + pollInterval + 0)
          ⟨(), emptyWorld.calls ++ [Call.gkeOperationsGet "op"]⟩ :=
  ⟨((wait_done_outcome
        (countingManager 1 (some ⟨[⟨"quota exceeded"⟩, ⟨"second error"⟩]⟩) (some ⟨"denied"⟩))).1
      "p1" "op-sql" (30 * Second) ⟨0, []⟩ (0 + pollInterval + Second)
      ⟨1, [Call.sqlOperationsGet "p1" "op-sql"]⟩ _ Second 2
      (SQLPolls.poll 0 ⟨0, []⟩ ⟨"op-sql", "RUNNING", none⟩ Second 1 _ _ (by decide) rfl
        (by decide) (SQLPolls.here _ _))
      (by decide) rfl rfl).1 _ _ _ rfl rfl,
   ((wait_done_outcome (countingManager 1 (some ⟨[]⟩) none)).1
      "p1" "op-sql" (30 * Second) ⟨0, []⟩ (0 + pollInterval + Second)
      ⟨1, [Call.sqlOperationsGet "p1" "op-sql"]⟩ _ Second 2
      (SQLPolls.poll 0 ⟨0, []⟩ ⟨"op-sql", "RUNNING", none⟩ Second 1 _ _ (by decide) rfl
        (by decide) (SQLPolls.here _ _))
      (by decide) rfl rfl).2 (Or.inr rfl),
   ((wait_done_outcome
        (countingManager 1 (some ⟨[⟨"quota exceeded"⟩, ⟨"second error"⟩]⟩) (some ⟨"denied"⟩))).2.1
      "p1" "z" "op-gke" (30 * Second) ⟨0, []⟩ (0 + pollInterval + Second)
      ⟨1, [Call.gkeOperationsGet (operationPath "p1" "z" "op-gke")]⟩ _ Second 2
      (GKEPolls.poll 0 ⟨0, []⟩ ⟨"op-gke", "RUNNING", none⟩ Second 1 _ _ (by decide) rfl
        (by decide) (GKEPolls.here _ _))
      (by decide) rfl rfl).1 _ rfl,
   ((wait_done_outcome (countingManager 1 none none)).2.1
      "p1" "z" "op-gke" (30 * Second) ⟨0, []⟩ (0 + pollInterval + Second)
      ⟨1, [Call.gkeOperationsGet (operationPath "p1" "z" "op-gke")]⟩ _ Second 2
      (GKEPolls.poll 0 ⟨0, []⟩ ⟨"op-gke", "RUNNING", none⟩ Second 1 _ _ (by decide) rfl
        (by decide) (GKEPolls.here _ _))
      (by decide) rfl rfl).2 rfl,
   (((wait_done_outcome failedManager).2.2.1 "p1" "op-sql" (30 * Second) 6 0 emptyWorld
      _ 0 () (by decide) rfl).1 rfl).1 _ _ _ rfl rfl,
   (((wait_done_outcome doneManager).2.2.1 "p1" "op-sql" (30 * Second) 6 0 emptyWorld
      _ 0 () (by decide) rfl).1 rfl).2 (Or.inl rfl),
   ((wait_done_outcome pendingManager).2.2.1 "p1" "op-sql" (30 * Second) 6 0 emptyWorld
      _ 0 () (by decide) rfl).2 (by decide),
   (((wait_done_outcome failedManager).2.2.2 "op" (30 * Second) 6 0 emptyWorld
      _ 0 () (by decide) rfl).1 rfl).1 _ rfl,
   (((wait_done_outcome doneManager).2.2.2 "op" (30 * Second) 6 0 emptyWorld
      _ 0 () (by decide) rfl).1 rfl).2 rfl,
   ((wait_done_outcome pendingManager).2.2.2 "op" (30 * Second) 6 0 emptyWorld
      _ 0 () (by decide) rfl).2 (by decide)⟩

/-- C8. Round trip on the in-memory backend, which stores the submitted patch and
reports the operation DONE without error: for a public-IP-enabled database instance
whose detail shows a network list with no entry of the normalized value, adding a
network succeeds and the next detail fetch shows that list followed by the new entry;
in the scenario of the spec (`db1` of `p1`, no network, `office` at `203.0.113.5`) the
detail then shows exactly the entry `office`, `203.0.113.5/32`. -/
theorem addNetwork_then_fetchDetail_round_trip :
    (∀ (w w0 : World MemBackend) (r r0 : SQLInstance)
        (networkName networkIP normalizedIP : String),
      r.PublicIPEnabled = true →
      normalizeIP networkIP = .ok normalizedIP →
      GetResourceDetails memManager (.sql r) w = (.ok (.sql r0), w0) →
      (∀ e ∈ r0.AuthorizedNetworks, e.Value ≠ normalizedIP) →
      ∃ w1 r1 w2,
        AddNetworkToResource memManager (.sql r) networkName networkIP w
          = some (.ok (), w1) ∧
        GetResourceDetails memManager (.sql r) w1 = (.ok (.sql r1), w2) ∧
        r1.AuthorizedNetworks = r0.AuthorizedNetworks ++
          [{ Kind := "sql#aclEntry", Name := networkName, Value := normalizedIP,
             DisplayName := "" }]) ∧
    (∃ r0 w0 w1 r1 w2,
      GetResourceDetails memManager (.sql (sampleSQL "db1" true)) scenarioWorld
        = (.ok (.sql r0), w0) ∧
      r0.AuthorizedNetworks = [] ∧
      AddNetworkToResource memManager (.sql (sampleSQL "db1" true)) "office" "203.0.113.5"
        scenarioWorld = some (.ok (), w1) ∧
      GetResourceDetails memManager (.sql (sampleSQL "db1" true)) w1 = (.ok (.sql r1), w2) ∧
      r1.AuthorizedNetworks =
        [{ Kind := "sql#aclEntry", Name := "office", Value := "203.0.113.5/32",
           DisplayName := "" }]) := by
  constructor
  · intro w w0 r r0 networkName networkIP normalizedIP hpub hn hbefore hno
    cases hinst : w.backend.getInstance r.Project r.Name with
    | none =>
      have h := memManager_details_none w r.Project r.Name hinst
      simp only [GetResourceDetails] at hbefore
      rw [hbefore] at h
      cases h
    | some inst =>
      obtain ⟨r0', hd, hnet⟩ := memManager_details w r.Project r.Name inst hinst
      simp only [GetResourceDetails] at hbefore
      rw [hd] at hbefore
      have hr0 : r0' = r0 := by
        have := congrArg Prod.fst hbefore
        simpa using this
      subst hr0
      have hno' : ∀ e ∈ (fetchedIpConfiguration inst).AuthorizedNetworks,
          e.Value ≠ normalizedIP := by
        intro e he
        have hmem : aclEntryToNetwork e ∈ r0'.AuthorizedNetworks := by
          rw [hnet]
          exact List.mem_map_of_mem _ he
        exact hno _ hmem
      obtain ⟨w1, r1, w2, hadd, hd1, hnet1⟩ := memManager_add_then_details w r.Project r.Name
        networkName networkIP normalizedIP inst hn hinst hno'
      refine ⟨w1, r1, w2, ?_, hd1, ?_⟩
      · simp only [AddNetworkToResource, hpub]
        exact hadd
      · rw [hnet1, hnet]
  · exact ⟨_, _, _, _, _, rfl, rfl, rfl, rfl, rfl⟩


/-- C8 at `db1` holding the entry `home`: adding `office` at `203.0.113.5`. -/
theorem addNetwork_then_fetchDetail_round_trip_witness :
    (sampleSQL "db1" true).PublicIPEnabled = true ∧
    GetResourceDetails memManager (.sql (sampleSQL "db1" true)) homeWorld
      = (.ok (.sql homeDetail),
          ⟨homeWorld.backend, homeWorld.calls ++ [Call.sqlInstancesGet "p1" "db1"]⟩) ∧
    ∃ w1 r1 w2,
      AddNetworkToResource memManager (.sql (sampleSQL "db1" true)) "office" "203.0.113.5"
        homeWorld = some (.ok (), w1) ∧
      GetResourceDetails memManager (.sql (sampleSQL "db1" true)) w1 = (.ok (.sql r1), w2) ∧
      r1.AuthorizedNetworks = homeDetail.AuthorizedNetworks ++
        [{ Kind := "sql#aclEntry", Name := "office", Value := "203.0.113.5/32",
           DisplayName := "" }] :=
  ⟨rfl, rfl,
   addNetwork_then_fetchDetail_round_trip.1 homeWorld _ (sampleSQL "db1" true) homeDetail
     "office" "203.0.113.5" "203.0.113.5/32" rfl rfl rfl (by decide)⟩


/-- C9. Under the contract of `sort.Slice`, for every list of resources the result of
`sortResources` is in ascending order of the key (type, project, name) compared
lexicographically: for all positions `i < j` the key at `i` is less than or equal to
the key at `j`. -/
theorem sortResources_ascending
    (sortSlice : (CloudResource → CloudResource → Bool) → List CloudResource → List CloudResource)
    (hsort : SortSliceContract sortSlice) (resources : List CloudResource) (i j : Nat)
    (hij : i < j) (hj : j < (sortResources sortSlice resources).length) :
    keyLE (resourceKey ((sortResources sortSlice resources).get ⟨i, lt_trans hij hj⟩))
      (resourceKey ((sortResources sortSlice resources).get ⟨j, hj⟩)) := by
  rw [keyLE_iff_lex]
  have h := List.pairwise_iff_get.mp (sortResources_pairwise sortSlice hsort resources)
  exact h ⟨i, lt_trans hij hj⟩ ⟨j, hj⟩ hij

/-- C9 on an instance, two clusters and insertion sort: clusters first (`GKE` is less
than `SQL`), then by name. -/
theorem sortResources_ascending_witness :
    SortSliceContract (insertionSortSlice : (CloudResource → CloudResource → Bool) →
      List CloudResource → List CloudResource) ∧
    sortResources insertionSortSlice
        [.sql (sampleSQL "db1" true), .gke (sampleGKE "web" "z"), .gke (sampleGKE "api" "z")]
      = [.gke (sampleGKE "api" "z"), .gke (sampleGKE "web" "z"), .sql (sampleSQL "db1" true)] ∧
    keyLE
      (resourceKey ((sortResources insertionSortSlice
        [.sql (sampleSQL "db1" true), .gke (sampleGKE "web" "z"),
          .gke (sampleGKE "api" "z")]).get ⟨1, by decide⟩))
      (resourceKey ((sortResources insertionSortSlice
        [.sql (sampleSQL "db1" true), .gke (sampleGKE "web" "z"),
          .gke (sampleGKE "api" "z")]).get ⟨2, by decide⟩)) :=
  ⟨insertionSortSlice_contract, by decide,
   sortResources_ascending insertionSortSlice insertionSortSlice_contract
     [.sql (sampleSQL "db1" true), .gke (sampleGKE "web" "z"), .gke (sampleGKE "api" "z")]
     1 2 (by decide) (by decide)⟩

/-- C10. The catalog sort is idempotent: for every list of resources, applying
`sortResources` twice yields the same sequence as applying it once.  `sort.Slice` is
the library's routine; it meets its contract and makes no swap in a slice in which no
element is less than an earlier one, and the result of the first call is such a
slice, so that the second call returns it as it is.  Also when two resources of the
list have the same key (type, project, name) the two sequences are the same.  From
the contract alone the two sequences have the same keys, and are the same when no two
different resources of the list have the same key. -/
theorem sortResources_idempotent
    (sortSlice : (CloudResource → CloudResource → Bool) → List CloudResource → List CloudResource)
    (hsort : SortSliceContract sortSlice) (resources : List CloudResource) :
    (SortSliceKeepsSorted sortSlice →
      sortResources sortSlice (sortResources sortSlice resources)
        = sortResources sortSlice resources) ∧
    (sortResources sortSlice (sortResources sortSlice resources)).map resourceKey
      = (sortResources sortSlice resources).map resourceKey ∧
    ((∀ a ∈ resources, ∀ b ∈ resources, resourceKey a = resourceKey b → a = b) →
      sortResources sortSlice (sortResources sortSlice resources)
        = sortResources sortSlice resources) := by
  refine ⟨fun hkeep =>
    sortSlice_twice sortSlice hsort hkeep resourceLess resourceLess_ordering resources, ?_⟩
  have hp1 := sortResources_perm sortSlice hsort resources
  have hp2 := sortResources_perm sortSlice hsort (sortResources sortSlice resources)
  have hs1 := sortResources_pairwise sortSlice hsort resources
  have hs2 := sortResources_pairwise sortSlice hsort (sortResources sortSlice resources)
  constructor
  · refine @List.Perm.eq_of_sorted _ (fun a b => lexKey a ≤ lexKey b) _ _ ?_ ?_ ?_ (hp2.map _)
    · intro a b _ _ hab hba
      exact lexKey_injective a b (le_antisymm hab hba)
    · exact List.pairwise_map.mpr hs2
    · exact List.pairwise_map.mpr hs1
  · intro hdistinct
    refine @List.Perm.eq_of_sorted _
      (fun a b => lexKey (resourceKey a) ≤ lexKey (resourceKey b)) _ _ ?_ hs2 hs1 hp2
    intro a b ha hb hab hba
    have ha' : a ∈ resources := hp1.subset (hp2.subset ha)
    have hb' : b ∈ resources := hp1.subset hb
    exact hdistinct a ha' b hb' (lexKey_injective _ _ (le_antisymm hab hba))

/-- C10 on insertion sort and a list holding an instance and the two clusters `api` of
project `p1`, which have the same key: the first call puts the clusters first, in
their order, and the second call returns the same sequence. -/
theorem sortResources_idempotent_witness :
    SortSliceContract (insertionSortSlice : (CloudResource → CloudResource → Bool) →
      List CloudResource → List CloudResource) ∧
    SortSliceKeepsSorted (insertionSortSlice : (CloudResource → CloudResource → Bool) →
      List CloudResource → List CloudResource) ∧
    resourceKey twinEast = resourceKey twinWest ∧
    sortResources insertionSortSlice [.sql (sampleSQL "db1" true), twinEast, twinWest]
      = [twinEast, twinWest, .sql (sampleSQL "db1" true)] ∧
    sortResources insertionSortSlice
        (sortResources insertionSortSlice [.sql (sampleSQL "db1" true), twinEast, twinWest])
      = sortResources insertionSortSlice [.sql (sampleSQL "db1" true), twinEast, twinWest] ∧
    (∀ a ∈ [CloudResource.sql (sampleSQL "db1" true), twinEast],
      ∀ b ∈ [CloudResource.sql (sampleSQL "db1" true), twinEast],
        resourceKey a = resourceKey b → a = b) ∧
    sortResources insertionSortSlice
        (sortResources insertionSortSlice [.sql (sampleSQL "db1" true), twinEast])
      = sortResources insertionSortSlice [.sql (sampleSQL "db1" true), twinEast] :=
  ⟨insertionSortSlice_contract, insertionSortSlice_keepsSorted, by decide, by decide,
   (sortResources_idempotent insertionSortSlice insertionSortSlice_contract
     [.sql (sampleSQL "db1" true), twinEast, twinWest]).1 insertionSortSlice_keepsSorted,
   by decide,
   (sortResources_idempotent insertionSortSlice insertionSortSlice_contract
     [.sql (sampleSQL "db1" true), twinEast]).2.2 (by decide)⟩

/-- C11. The comparison of `sortResources` is a strict total order on the key
(type, project, name): it is the lexicographic `<` on keys, it is irreflexive and
transitive, of two resources with different keys exactly one is less than the other,
and of two resources with equal keys neither is. -/
theorem resourceLess_strict_total_order :
    (∀ a b, resourceLess a b = true ↔ keyLT (resourceKey a) (resourceKey b)) ∧
    (∀ a, resourceLess a a = false) ∧
    (∀ a b c, resourceLess a b = true → resourceLess b c = true → resourceLess a c = true) ∧
    (∀ a b, resourceKey a ≠ resourceKey b →
      (resourceLess a b = true ∧ resourceLess b a = false) ∨
      (resourceLess a b = false ∧ resourceLess b a = true)) ∧
    (∀ a b, resourceKey a = resourceKey b →
      resourceLess a b = false ∧ resourceLess b a = false) := by
  refine ⟨resourceLess_iff, resourceLess_ordering.1, resourceLess_ordering.2.1, ?_, ?_⟩
  · intro a b hne
    have hne' : lexKey (resourceKey a) ≠ lexKey (resourceKey b) :=
      fun h => hne (lexKey_injective _ _ h)
    rcases lt_or_gt_of_ne hne' with h | h
    · left
      exact ⟨(resourceLess_iff_lex a b).mpr h, (resourceLess_eq_false_iff b a).mpr (le_of_lt h)⟩
    · right
      exact ⟨(resourceLess_eq_false_iff a b).mpr (le_of_lt h), (resourceLess_iff_lex b a).mpr h⟩
  · intro a b heq
    constructor
    · rw [resourceLess_eq_false_iff, heq]
    · rw [resourceLess_eq_false_iff, heq]

/-- C11 on a cluster and an instance (different keys) and on two clusters `api` of one
project in two zones (equal keys). -/
theorem resourceLess_strict_total_order_witness :
    resourceKey twinEast ≠ resourceKey (.sql (sampleSQL "db1" true)) ∧
    ((resourceLess twinEast (.sql (sampleSQL "db1" true)) = true ∧
        resourceLess (.sql (sampleSQL "db1" true)) twinEast = false) ∨
      (resourceLess twinEast (.sql (sampleSQL "db1" true)) = false ∧
        resourceLess (.sql (sampleSQL "db1" true)) twinEast = true)) ∧
    resourceKey twinEast = resourceKey twinWest ∧
    (resourceLess twinEast twinWest = false ∧ resourceLess twinWest twinEast = false) ∧
    resourceLess (.gke (sampleGKE "api" "z")) (.gke (sampleGKE "web" "z")) = true ∧
    resourceLess (.gke (sampleGKE "web" "z")) (.sql (sampleSQL "db1" true)) = true ∧
    resourceLess (.gke (sampleGKE "api" "z")) (.sql (sampleSQL "db1" true)) = true :=
  ⟨by decide,
   resourceLess_strict_total_order.2.2.2.1 twinEast (.sql (sampleSQL "db1" true)) (by decide),
   by decide,
   resourceLess_strict_total_order.2.2.2.2 twinEast twinWest (by decide),
   by decide, by decide,
   resourceLess_strict_total_order.2.2.1 (.gke (sampleGKE "api" "z"))
     (.gke (sampleGKE "web" "z")) (.sql (sampleSQL "db1" true)) (by decide) (by decide)⟩

/-- C15. `CanAddNetwork()` is true exactly for the clusters and for the database
instances with `PublicIPEnabled = true`; it is true for every cluster, also a private
cluster without public endpoint. -/
theorem canAddNetwork_iff (resource : CloudResource) :
    (resource.CanAddNetwork = true ↔
      (∃ g, resource = .gke g) ∨ (∃ s, resource = .sql s ∧ s.PublicIPEnabled = true)) ∧
    (∀ g : GKECluster, (CloudResource.gke g).CanAddNetwork = true) ∧
    (∀ g : GKECluster, g.PrivateClusterEnabled = true → g.PublicEndpoint = "" →
      (CloudResource.gke g).CanAddNetwork = true) ∧
    (∀ s : SQLInstance, (CloudResource.sql s).CanAddNetwork = s.PublicIPEnabled) := by
  refine ⟨?_, fun _ => rfl, fun _ _ _ => rfl, fun _ => rfl⟩
  cases resource with
  | sql s =>
    constructor
    · intro h
      exact Or.inr ⟨s, rfl, h⟩
    · rintro (⟨g, hg⟩ | ⟨s', hs, hp⟩)
      · cases hg
      · cases hs
        exact hp
  | gke g =>
    constructor
    · intro _
      exact Or.inl ⟨g, rfl⟩
    · intro _
      rfl

/-- C15 on a private cluster without public endpoint. -/
theorem canAddNetwork_iff_witness :
    (CloudResource.gke { sampleGKE "c1" "z" with PrivateClusterEnabled := true }).CanAddNetwork
      = true :=
  (canAddNetwork_iff (.gke (sampleGKE "c1" "z"))).2.2.1
    { sampleGKE "c1" "z" with PrivateClusterEnabled := true } rfl rfl

/-- C16. `GetNetworkRestrictions()` is non-empty exactly for the clusters with
`PrivateClusterEnabled = true` and an empty `PublicEndpoint` and for the database
instances with `PublicIPEnabled = false`; so every resource with
`CanAddNetwork() = false` has a non-empty restriction text. -/
theorem getNetworkRestrictions_nonempty_iff (resource : CloudResource) :
    (resource.GetNetworkRestrictions ≠ "" ↔
      (∃ g, resource = .gke g ∧ g.PrivateClusterEnabled = true ∧ g.PublicEndpoint = "") ∨
      (∃ s, resource = .sql s ∧ s.PublicIPEnabled = false)) ∧
    (resource.CanAddNetwork = false → resource.GetNetworkRestrictions ≠ "") := by
  cases resource with
  | sql s =>
    cases hp : s.PublicIPEnabled with
    | true =>
      refine ⟨⟨?_, ?_⟩, ?_⟩
      · intro h
        simp [CloudResource.GetNetworkRestrictions, SQLInstance.GetNetworkRestrictions, hp] at h
      · rintro (⟨g, hg, _⟩ | ⟨s', hs, hp'⟩)
        · cases hg
        · cases hs
          rw [hp] at hp'
          cases hp'
      · intro h
        simp [CloudResource.CanAddNetwork, SQLInstance.CanAddNetwork, hp] at h
    | false =>
      have hne : (CloudResource.sql s).GetNetworkRestrictions ≠ "" := by
        simp only [CloudResource.GetNetworkRestrictions, SQLInstance.GetNetworkRestrictions, hp]
        decide
      exact ⟨⟨fun _ => Or.inr ⟨s, rfl, hp⟩, fun _ => hne⟩, fun _ => hne⟩
  | gke g =>
    refine ⟨?_, ?_⟩
    · by_cases hc : g.PrivateClusterEnabled = true ∧ g.PublicEndpoint = ""
      · have hne : (CloudResource.gke g).GetNetworkRestrictions ≠ "" := by
          simp only [CloudResource.GetNetworkRestrictions, GKECluster.GetNetworkRestrictions,
            hc.1, hc.2]
          decide
        exact ⟨fun _ => Or.inl ⟨g, rfl, hc.1, hc.2⟩, fun _ => hne⟩
      · constructor
        · intro h
          exfalso
          apply h
          simp only [CloudResource.GetNetworkRestrictions, GKECluster.GetNetworkRestrictions]
          rw [if_neg]
          simpa using hc
        · rintro (⟨g', hg, h1, h2⟩ | ⟨s, hs, _⟩)
          · cases hg
            exact absurd ⟨h1, h2⟩ hc
          · cases hs
    · intro h
      simp [CloudResource.CanAddNetwork, GKECluster.CanAddNetwork] at h

/-- C16 on the private instance `db1`. -/
theorem getNetworkRestrictions_nonempty_iff_witness :
    (CloudResource.sql (sampleSQL "db1" false)).CanAddNetwork = false ∧
    (CloudResource.sql (sampleSQL "db1" false)).GetNetworkRestrictions
      = "Private IP only - cannot add external networks" ∧
    (CloudResource.sql (sampleSQL "db1" false)).GetNetworkRestrictions ≠ "" :=
  ⟨rfl, rfl, (getNetworkRestrictions_nonempty_iff (.sql (sampleSQL "db1" false))).2 rfl⟩


/-- C17, as stated, fails: for the private instance `db1` the failure of
`AddNetworkToResource` has the message `cannot add network to SQL instance without
public IP`, which does not contain the restriction text
`Private IP only - cannot add external networks`. -/
theorem addNetwork_failure_lacks_restriction_text :
    (CloudResource.sql (sampleSQL "db1" false)).CanAddNetwork = false ∧
    AddNetworkToResource doneManager (.sql (sampleSQL "db1" false)) "office" "203.0.113.5"
      emptyWorld = some (.error .cannotAddNetwork, emptyWorld) ∧
    GoError.cannotAddNetwork.Error = "cannot add network to SQL instance without public IP" ∧
    (CloudResource.sql (sampleSQL "db1" false)).GetNetworkRestrictions
      = "Private IP only - cannot add external networks" ∧
    stringsContains GoError.cannotAddNetwork.Error
      (CloudResource.sql (sampleSQL "db1" false)).GetNetworkRestrictions = false :=
  ⟨rfl, rfl, rfl, rfl, by decide⟩

/-- C17, amended. Every resource with `CanAddNetwork() = false` is a database instance
without public IP; `AddNetworkToResource` fails on it, without any backend call, with
the fixed message `cannot add network to SQL instance without public IP`; the
restriction text of the resource, `Private IP only - cannot add external networks`,
is not part of that message. -/
theorem addNetwork_failure_has_fixed_message {σ : Type} (nm : NetworkManager σ)
    (resource : CloudResource) (networkName networkIP : String) (w : World σ)
    (h : resource.CanAddNetwork = false) :
    (∃ s, resource = .sql s ∧ s.PublicIPEnabled = false) ∧
    AddNetworkToResource nm resource networkName networkIP w
      = some (.error .cannotAddNetwork, w) ∧
    GoError.cannotAddNetwork.Error = "cannot add network to SQL instance without public IP" ∧
    resource.GetNetworkRestrictions = "Private IP only - cannot add external networks" ∧
    stringsContains GoError.cannotAddNetwork.Error resource.GetNetworkRestrictions = false := by
  cases resource with
  | gke g => simp [CloudResource.CanAddNetwork, GKECluster.CanAddNetwork] at h
  | sql s =>
    have hp : s.PublicIPEnabled = false := h
    have hr : (CloudResource.sql s).GetNetworkRestrictions
        = "Private IP only - cannot add external networks" := by
      simp [CloudResource.GetNetworkRestrictions, SQLInstance.GetNetworkRestrictions, hp]
    refine ⟨⟨s, rfl, hp⟩, ?_, rfl, hr, ?_⟩
    · simp [AddNetworkToResource, hp]
    · rw [hr]
      decide

/-- C17 amended, on the private instance `db1`. -/
theorem addNetwork_failure_has_fixed_message_witness :
    (CloudResource.sql (sampleSQL "db1" false)).CanAddNetwork = false ∧
    AddNetworkToResource pendingManager (.sql (sampleSQL "db1" false)) "office" "203.0.113.5"
      emptyWorld = some (.error .cannotAddNetwork, emptyWorld) :=
  ⟨rfl, (addNetwork_failure_has_fixed_message pendingManager (.sql (sampleSQL "db1" false))
    "office" "203.0.113.5" emptyWorld rfl).2.1⟩

/-- C18. For every normalized value `V`, proposed name `N` and existing name `M`
different from `N`: the duplicate message for a first matching entry named `N` differs
from the one for a first matching entry named `M`, and the latter contains `M`.  These
are the messages of the failure of both add paths, decided by the name of the first
entry with the normalized value.  In the scenario of the spec, adding `office2` at
`203.0.113.5` after `office` was stored there fails with a message naming `office`. -/
theorem duplicate_message_names_existing_entry :
    (∀ V N M : String, M ≠ N →
      (GoError.networkExistsSameName V N).Error ≠ (GoError.networkExistsOtherName V M).Error ∧
      (GoError.networkExistsSameName V N).Error
        = "network " ++ V ++ " with name " ++ N ++ " already exists" ∧
      (GoError.networkExistsOtherName V M).Error
        = "network " ++ V ++ " already exists with name " ++ M ∧
      stringsContains (GoError.networkExistsOtherName V M).Error M = true) ∧
    (∀ (σ : Type) (nm : NetworkManager σ)
        (project instanceName N networkIP V : String) (w : World σ)
        (inst : DatabaseInstance) (s1 : σ) (e : AclEntry),
      normalizeIP networkIP = .ok V →
      nm.sqlService.InstancesGet project instanceName w.backend = (.ok inst, s1) →
      (fetchedIpConfiguration inst).AuthorizedNetworks.find?
        (fun network => network.Value == V) = some e →
      ∃ err w',
        addNetworkToSQLInstance nm project instanceName N networkIP w
          = some (.error err, w') ∧
        (e.Name = N → err = .networkExistsSameName V N) ∧
        (e.Name ≠ N → err = .networkExistsOtherName V e.Name)) ∧
    (∀ (σ : Type) (nm : NetworkManager σ)
        (project location clusterName N networkIP V : String) (w : World σ)
        (cluster : Cluster) (s1 : σ) (b : CidrBlock),
      normalizeIP networkIP = .ok V →
      nm.gkeService.ClustersGet (clusterPath project location clusterName) w.backend
        = (.ok cluster, s1) →
      (fetchedMasterConfig cluster).CidrBlocks.find?
        (fun network => network.CidrBlock == V) = some b →
      ∃ err w',
        addNetworkToGKECluster nm project location clusterName N networkIP w
          = some (.error err, w') ∧
        (b.DisplayName = N → err = .networkExistsSameName V N) ∧
        (b.DisplayName ≠ N → err = .networkExistsOtherName V b.DisplayName)) ∧
    (∃ w1 w2 err,
      AddNetworkToResource memManager (.sql (sampleSQL "db1" true)) "office" "203.0.113.5"
        scenarioWorld = some (.ok (), w1) ∧
      AddNetworkToResource memManager (.sql (sampleSQL "db1" true)) "office2" "203.0.113.5"
        w1 = some (.error err, w2) ∧
      err.Error = "network 203.0.113.5/32 already exists with name office" ∧
      stringsContains err.Error "office" = true) := by
  refine ⟨?_, ?_, ?_, ?_⟩
  · intro V N M _
    exact ⟨duplicate_messages_differ V N M, rfl, rfl, otherName_message_contains V M⟩
  · intro σ nm project instanceName N networkIP V w inst s1 e hn hget hfind
    refine ⟨_, _, addNetworkToSQLInstance_duplicate nm project instanceName N networkIP V w
      inst s1 e hn hget hfind, ?_, ?_⟩
    · intro h
      rw [if_pos h]
    · intro h
      rw [if_neg h]
  · intro σ nm project location clusterName N networkIP V w cluster s1 b hn hget hfind
    refine ⟨_, _, addNetworkToGKECluster_duplicate nm project location clusterName N networkIP
      V w cluster s1 b hn hget hfind, ?_, ?_⟩
    · intro h
      rw [if_pos h]
    · intro h
      rw [if_neg h]
  · exact ⟨_, _, _, rfl, rfl, rfl, by decide⟩

/-- C18 at the value `203.0.113.5/32`, proposed name `office2`, existing name `office`,
and on `db1` and `c1` holding the entry `home`. -/
theorem duplicate_message_names_existing_entry_witness :
    "office" ≠ "office2" ∧
    (GoError.networkExistsSameName "203.0.113.5/32" "office2").Error
      ≠ (GoError.networkExistsOtherName "203.0.113.5/32" "office").Error ∧
    stringsContains (GoError.networkExistsOtherName "203.0.113.5/32" "office").Error "office"
      = true ∧
    (∃ err w',
      addNetworkToSQLInstance doneManager "p1" "db1" "office2" "198.51.100.7" emptyWorld
        = some (.error err, w') ∧
      (homeEntry.Name = "office2" → err = .networkExistsSameName "198.51.100.7/32" "office2") ∧
      (homeEntry.Name ≠ "office2" → err = .networkExistsOtherName "198.51.100.7/32"
        homeEntry.Name)) ∧
    (∃ err w',
      addNetworkToGKECluster doneManager "p1" "z" "c1" "home" "198.51.100.7" emptyWorld
        = some (.error err, w') ∧
      (homeBlock.DisplayName = "home" → err = .networkExistsSameName "198.51.100.7/32" "home") ∧
      (homeBlock.DisplayName ≠ "home" → err = .networkExistsOtherName "198.51.100.7/32"
        homeBlock.DisplayName)) :=
  ⟨by decide,
   (duplicate_message_names_existing_entry.1 "203.0.113.5/32" "office2" "office"
     (by decide)).1,
   (duplicate_message_names_existing_entry.1 "203.0.113.5/32" "office2" "office"
     (by decide)).2.2.2,
   duplicate_message_names_existing_entry.2.1 Unit doneManager "p1" "db1" "office2"
     "198.51.100.7" "198.51.100.7/32" emptyWorld (plainInstance "db1" [homeEntry]) ()
     homeEntry rfl rfl rfl,
   duplicate_message_names_existing_entry.2.2.1 Unit doneManager "p1" "z" "c1" "home"
     "198.51.100.7" "198.51.100.7/32" emptyWorld (plainCluster "c1" [homeBlock]) ()
     homeBlock rfl rfl rfl⟩

/-- C20. When `GetResourceDetails` succeeds, the result is of the variant of the input
and carries the input's project (for a cluster also the input's location), and the
one backend call it made is the get with the key (project, name) of the instance, or
with the path of (project, location, name) of the cluster. -/
theorem getResourceDetails_same_variant_and_key {σ : Type} (nm : NetworkManager σ)
    (resource result : CloudResource) (w w' : World σ)
    (h : GetResourceDetails nm resource w = (.ok result, w')) :
    (∀ r, resource = .sql r →
      ∃ r', result = .sql r' ∧ r'.Project = r.Project ∧
        w'.calls = w.calls ++ [Call.sqlInstancesGet r.Project r.Name]) ∧
    (∀ g, resource = .gke g →
      ∃ g', result = .gke g' ∧ g'.Project = g.Project ∧ g'.Location = g.Location ∧
        w'.calls = w.calls ++ [Call.gkeClustersGet (clusterPath g.Project g.Location g.Name)]) ∧
    clusterPath "p1" "us-central1" "c1" = "projects/p1/locations/us-central1/clusters/c1" := by
  refine ⟨?_, ?_, rfl⟩
  · intro r hr
    subst hr
    simp only [GetResourceDetails, getSQLInstanceDetails] at h
    split at h
    · cases h
    · have h2 : (sqlInstancesGet nm r.Project r.Name w).2 = w' := congrArg Prod.snd h
      have h1 := congrArg Prod.fst h
      simp only [Except.ok.injEq] at h1
      subst h1
      refine ⟨_, rfl, rfl, ?_⟩
      rw [← h2]
      rfl
  · intro g hg
    subst hg
    simp only [GetResourceDetails, getGKEClusterDetails] at h
    split at h
    · cases h
    · have h2 : (gkeClustersGet nm (clusterPath g.Project g.Location g.Name) w).2 = w' :=
        congrArg Prod.snd h
      have h1 := congrArg Prod.fst h
      simp only [Except.ok.injEq] at h1
      subst h1
      split
      · refine ⟨_, rfl, rfl, rfl, ?_⟩
        rw [← h2]
        rfl
      · refine ⟨_, rfl, rfl, rfl, ?_⟩
        rw [← h2]
        rfl

/-- C20 on instance `db1` and cluster `c1` of the backend `doneManager`. -/
theorem getResourceDetails_same_variant_and_key_witness :
    (∃ r', GetResourceDetails doneManager (.sql (sampleSQL "db1" true)) emptyWorld
        = (.ok (.sql r'), ⟨(), [Call.sqlInstancesGet "p1" "db1"]⟩) ∧
      r'.Project = (sampleSQL "db1" true).Project) ∧
    (∃ g', GetResourceDetails doneManager (.gke (sampleGKE "c1" "us-central1")) emptyWorld
        = (.ok (.gke g'), ⟨(), [Call.gkeClustersGet
            "projects/p1/locations/us-central1/clusters/c1"]⟩) ∧
      g'.Project = (sampleGKE "c1" "us-central1").Project ∧
      g'.Location = (sampleGKE "c1" "us-central1").Location) := by
  obtain ⟨r', hr, hp, _⟩ := (getResourceDetails_same_variant_and_key doneManager
    (.sql (sampleSQL "db1" true)) _ emptyWorld _ rfl).1 _ rfl
  obtain ⟨g', hg, hgp, hgl, _⟩ := (getResourceDetails_same_variant_and_key doneManager
    (.gke (sampleGKE "c1" "us-central1")) _ emptyWorld _ rfl).2.1 _ rfl
  exact ⟨⟨r', by rw [← hr]; rfl, hp⟩, ⟨g', by rw [← hg]; rfl, hgp, hgl⟩⟩


/-- C12. Under the contract of `sort.Slice`, for every sequence of results received
from the fetch tasks, `ListAllResources` returns a permutation of the concatenation of
the resource lists of exactly the results without error: every resource of a
successful task is returned, nothing else is, and a failed result takes away nothing
but itself. -/
theorem listAllResources_permutation_of_successes
    (sortSlice : (CloudResource → CloudResource → Bool) → List CloudResource → List CloudResource)
    (hsort : SortSliceContract sortSlice) (projects : List String) (received : List result) :
    ∃ out,
      ListAllResources sortSlice (.ok projects) received = .ok out ∧
      out.Perm ((received.filter (fun res => res.err.isNone)).flatMap
        (fun res => res.resources)) ∧
      (∀ res ∈ received, res.err = none → ∀ x ∈ res.resources, x ∈ out) ∧
      (∀ x ∈ out, ∃ res ∈ received, res.err = none ∧ x ∈ res.resources) ∧
      (∀ before failed after, received = before ++ failed :: after → failed.err ≠ none →
        out.Perm (((before ++ after).filter (fun res => res.err.isNone)).flatMap
          (fun res => res.resources))) := by
  have hperm := sortResources_perm sortSlice hsort
    ((received.filter (fun res => res.err.isNone)).flatMap (fun res => res.resources))
  refine ⟨_, ListAllResources_ok sortSlice projects received, hperm, ?_, ?_, ?_⟩
  · intro res hres herr x hx
    apply hperm.symm.subset
    rw [List.mem_flatMap]
    exact ⟨res, List.mem_filter.mpr ⟨hres, by simp [herr]⟩, hx⟩
  · intro x hx
    have hx' := hperm.subset hx
    rw [List.mem_flatMap] at hx'
    obtain ⟨res, hres, hxr⟩ := hx'
    obtain ⟨hmem, hnone⟩ := List.mem_filter.mp hres
    exact ⟨res, hmem, by simpa using hnone, hxr⟩
  · intro before failed after hsplit hfailed
    have hf : (received.filter (fun res => res.err.isNone))
        = (before ++ after).filter (fun res => res.err.isNone) := by
      rw [hsplit]
      cases herr : failed.err with
      | none => exact absurd herr hfailed
      | some err => simp [List.filter_cons, herr]
    rw [← hf]
    exact hperm

/-- C12 on two successful results and a failed one between them, with insertion sort. -/
theorem listAllResources_permutation_of_successes_witness :
    SortSliceContract (insertionSortSlice : (CloudResource → CloudResource → Bool) →
      List CloudResource → List CloudResource) ∧
    ListAllResources insertionSortSlice (.ok ["p1", "p2"])
        [okResult [.sql (sampleSQL "db1" true)], failedResult [twinEast],
          okResult [.gke (sampleGKE "c1" "z")]]
      = .ok [.gke (sampleGKE "c1" "z"), .sql (sampleSQL "db1" true)] ∧
    ∃ out,
      ListAllResources insertionSortSlice (.ok ["p1", "p2"])
        [okResult [.sql (sampleSQL "db1" true)], failedResult [twinEast],
          okResult [.gke (sampleGKE "c1" "z")]] = .ok out ∧
      out.Perm [.sql (sampleSQL "db1" true), .gke (sampleGKE "c1" "z")] := by
  obtain ⟨out, h1, h2, _⟩ := listAllResources_permutation_of_successes insertionSortSlice
    insertionSortSlice_contract ["p1", "p2"]
    [okResult [.sql (sampleSQL "db1" true)], failedResult [twinEast],
      okResult [.gke (sampleGKE "c1" "z")]]
  exact ⟨insertionSortSlice_contract, rfl, out, h1, h2⟩

/-- C19. For `N ≥ 1` projects the capacity of the semaphore is at least 1 and at most
`min(20, 2N)`; so in every state the fan-out of the `2N` tasks reaches, at most
`min(20, 2N)` tasks hold a slot, and as long as a task has not finished a step is
possible: the fan-out does not block on a semaphore without capacity. -/
theorem semaphore_capacity_bounds (projects : List String) (hN : 1 ≤ projects.length) :
    1 ≤ maxConcurrent projects ∧
    maxConcurrent projects ≤ min 20 (2 * projects.length) ∧
    (∀ tasks,
      FanOutRun (maxConcurrent projects)
        (List.replicate (2 * projects.length) TaskPhase.queued) tasks →
      tasks.length = 2 * projects.length ∧
      slotsHeld tasks ≤ maxConcurrent projects ∧
      slotsHeld tasks ≤ min 20 (2 * projects.length) ∧
      (∀ t ∈ tasks, t ≠ TaskPhase.released →
        ∃ next, FanOutStep (maxConcurrent projects) tasks next)) := by
  have hcap := maxConcurrent_eq_min projects
  refine ⟨by omega, by omega, ?_⟩
  intro tasks hrun
  have hinit : slotsHeld (List.replicate (2 * projects.length) TaskPhase.queued)
      ≤ maxConcurrent projects := by
    simp [slotsHeld, List.count_replicate]
  obtain ⟨h1, h2⟩ := fanOutRun_slotsHeld _ _ _ hrun hinit
  refine ⟨by simpa using h2, h1, by omega, ?_⟩
  intro t ht hne
  exact fanOut_progress _ (by omega) tasks t ht hne

/-- C19 for one project: capacity 1, and after the instance task took the slot the
cluster task waits while the instance task can release. -/
theorem semaphore_capacity_bounds_witness :
    1 ≤ ["p1"].length ∧
    maxConcurrent ["p1"] = 1 ∧
    slotsHeld [TaskPhase.holding, TaskPhase.queued] ≤ maxConcurrent ["p1"] ∧
    ∃ next, FanOutStep (maxConcurrent ["p1"]) [TaskPhase.holding, TaskPhase.queued] next := by
  have hrun : FanOutRun (maxConcurrent ["p1"])
      (List.replicate (2 * ["p1"].length) TaskPhase.queued)
      [TaskPhase.holding, TaskPhase.queued] :=
    FanOutRun.step _ _ _ (FanOutRun.start _)
      (FanOutStep.acquire [] [TaskPhase.queued] (by decide))
  obtain ⟨_, h2, _, h4⟩ := (semaphore_capacity_bounds ["p1"] (by decide)).2.2 _ hrun
  exact ⟨by decide, by decide, h2, h4 TaskPhase.queued (by decide) (by decide)⟩


/-- C13. Whenever `ListProjects` succeeds, the returned list has no duplicate and no
empty or whitespace-padded identifier, and it contains every non-blank trimmed line
of the output of the inventory command; when there is such a line, the list is
exactly the distinct ones among them, each at its first occurrence. -/
theorem listProjects_distinct_trimmed_lines (list : Except String String)
    (current : CommandOutput) (projects : List String)
    (h : ListProjects list current = .ok projects) :
    projects.Nodup ∧
    (∀ p ∈ projects, p ≠ "" ∧ stringsTrimSpace p = p) ∧
    (∀ output, list = .ok output →
      (∀ line ∈ nonBlankLines output, line ∈ projects) ∧
      (nonBlankLines output ≠ [] →
        projects = firstOccurrences (nonBlankLines output) ∧
        (∀ p, p ∈ projects ↔ p ∈ nonBlankLines output) ∧
        projects.Pairwise (fun a b =>
          (nonBlankLines output).indexOf a < (nonBlankLines output).indexOf b))) := by
  rcases ListProjects_cases list current with
    ⟨hinv, hcur, _, hres⟩ | ⟨_, _, e, hres⟩ | ⟨output, hlist, hout, _, hres⟩
  · rw [hres] at h
    cases h
    refine ⟨by simp, ?_, ?_⟩
    · intro p hp
      rw [List.mem_singleton.mp hp]
      exact ⟨hcur, stringsTrimSpace_idempotent _⟩
    · intro output hlist
      subst hlist
      have hblank : stringsTrimSpace output = "" := by
        simpa [inventoryFailedOrBlank] using hinv
      have hnil := (nonBlankLines_eq_nil_iff output).mpr hblank
      rw [hnil]
      exact ⟨fun _ hl => (by cases hl), fun hne => absurd rfl hne⟩
  · rw [hres] at h
    cases h
  · rw [hres] at h
    cases h
    refine ⟨nodup_firstOccurrences _, ?_, ?_⟩
    · intro p hp
      exact mem_nonBlankLines output p ((mem_firstOccurrences _ p).mp hp)
    · intro output' hlist'
      rw [hlist] at hlist'
      cases hlist'
      exact ⟨fun line hl => (mem_firstOccurrences _ line).mpr hl,
        fun _ => ⟨rfl, mem_firstOccurrences _, firstOccurrences_order _⟩⟩

/-- C13 on an output with padded, blank and repeated lines. -/
theorem listProjects_distinct_trimmed_lines_witness :
    ListProjects (.ok "  alpha\n beta \n\nalpha\r\ngamma\n") ⟨"cur\n", none⟩
      = .ok ["alpha", "beta", "gamma"] ∧
    nonBlankLines "  alpha\n beta \n\nalpha\r\ngamma\n" = ["alpha", "beta", "alpha", "gamma"] ∧
    ["alpha", "beta", "gamma"].Nodup ∧
    (∀ line ∈ nonBlankLines "  alpha\n beta \n\nalpha\r\ngamma\n",
      line ∈ ["alpha", "beta", "gamma"]) :=
  ⟨rfl, by decide,
   (listProjects_distinct_trimmed_lines (.ok "  alpha\n beta \n\nalpha\r\ngamma\n")
     ⟨"cur\n", none⟩ ["alpha", "beta", "gamma"] rfl).1,
   ((listProjects_distinct_trimmed_lines (.ok "  alpha\n beta \n\nalpha\r\ngamma\n")
     ⟨"cur\n", none⟩ ["alpha", "beta", "gamma"] rfl).2.2 _ rfl).1⟩

/-- C14. `ListProjects` returns an error only when the inventory command failed or
printed only white space and the current-project command yields no non-blank
identifier (it failed or printed only white space); in every other case it succeeds
with a non-empty list, which is the single current project when the inventory failed
or was blank.  The error cases are exactly: inventory failed and the current-project
command failed or was blank; inventory blank and the current-project output blank. -/
theorem listProjects_fails_only_without_any_project (list : Except String String)
    (current : CommandOutput) :
    (∀ e, ListProjects list current = .error e →
      inventoryFailedOrBlank list = true ∧ currentYieldsNoProject current = true) ∧
    (¬ (inventoryFailedOrBlank list = true ∧ currentYieldsNoProject current = true) →
      ∃ projects, ListProjects list current = .ok projects ∧ projects ≠ [] ∧
        (inventoryFailedOrBlank list = true → projects = [stringsTrimSpace current.output])) ∧
    (∀ projects, ListProjects list current = .ok projects →
      projects ≠ [] ∧
      (inventoryFailedOrBlank list = true → projects = [stringsTrimSpace current.output])) ∧
    ((∃ e, ListProjects list current = .error e) ↔
      ((∃ err, list = .error err) ∧ currentYieldsNoProject current = true) ∨
      ((∃ output, list = .ok output ∧ stringsTrimSpace output = "") ∧
        stringsTrimSpace current.output = "")) ∧
    (inventoryFailedOrBlank list = true ↔
      (∃ err, list = .error err) ∨
      (∃ output, list = .ok output ∧ ∀ c ∈ output.toList, unicodeIsSpace c = true)) ∧
    (currentYieldsNoProject current = true ↔
      current.err ≠ none ∨ ∀ c ∈ current.output.toList, unicodeIsSpace c = true) := by
  have hsucc : ∀ projects, ListProjects list current = .ok projects →
      projects ≠ [] ∧
      (inventoryFailedOrBlank list = true → projects = [stringsTrimSpace current.output]) := by
    intro projects h
    rcases ListProjects_cases list current with
      ⟨_, _, _, hres⟩ | ⟨_, _, e, hres⟩ | ⟨output, _, hout, hinv, hres⟩
    · rw [hres] at h
      cases h
      exact ⟨by simp, fun _ => rfl⟩
    · rw [hres] at h
      cases h
    · rw [hres] at h
      cases h
      constructor
      · intro hnil
        have hne : nonBlankLines output ≠ [] :=
          fun hn => hout ((nonBlankLines_eq_nil_iff output).mp hn)
        obtain ⟨x, hx⟩ := List.exists_mem_of_ne_nil _ hne
        have hx' := (mem_firstOccurrences _ x).mpr hx
        rw [hnil] at hx'
        cases hx'
      · intro hi
        rw [hinv] at hi
        cases hi
  have herr : ∀ e, ListProjects list current = .error e →
      inventoryFailedOrBlank list = true ∧ currentYieldsNoProject current = true := by
    intro e h
    rcases ListProjects_cases list current with
      ⟨_, _, _, hres⟩ | ⟨hinv, hcur, _, _⟩ | ⟨_, _, _, _, hres⟩
    · rw [hres] at h
      cases h
    · exact ⟨hinv, hcur⟩
    · rw [hres] at h
      cases h
  refine ⟨herr, ?_, hsucc, ?_, ?_, ?_⟩
  · intro hnot
    cases hres : ListProjects list current with
    | error e => exact absurd (herr e hres) hnot
    | ok projects => exact ⟨projects, rfl, hsucc projects hres⟩
  · constructor
    · rintro ⟨e, h⟩
      obtain ⟨hinv, hcur⟩ := herr e h
      cases list with
      | error err => exact Or.inl ⟨⟨err, rfl⟩, hcur⟩
      | ok output =>
        right
        have hout : stringsTrimSpace output = "" := by
          simpa [inventoryFailedOrBlank] using hinv
        refine ⟨⟨output, rfl, hout⟩, ?_⟩
        by_contra hne
        simp [ListProjects, hout, hne] at h
    · rintro (⟨⟨err, hlist⟩, hcur⟩ | ⟨⟨output, hlist, hout⟩, hcur⟩)
      · subst hlist
        cases hc : current.err with
        | some currentErr =>
          exact ⟨.listProjectsAndCurrent err currentErr, by simp [ListProjects, hc]⟩
        | none =>
          have hblank : stringsTrimSpace current.output = "" := by
            simpa [currentYieldsNoProject, hc] using hcur
          exact ⟨.noProjectSet, by simp [ListProjects, hc, hblank]⟩
      · subst hlist
        exact ⟨.noProjectsFound, by simp [ListProjects, hout, hcur]⟩
  · cases list with
    | error err => simp [inventoryFailedOrBlank]
    | ok output => simp [inventoryFailedOrBlank, stringsTrimSpace_eq_empty_iff]
  · cases hc : current.err with
    | some currentErr => simp [currentYieldsNoProject, hc]
    | none => simp [currentYieldsNoProject, hc, stringsTrimSpace_eq_empty_iff]

/-- C14 on a failed inventory with a failed current-project command (error), on a
failed inventory with current project `cur`, and on an inventory of two projects. -/
theorem listProjects_fails_only_without_any_project_witness :
    ListProjects (.error "exit status 1") ⟨"", some "exit status 1"⟩
      = .error (.listProjectsAndCurrent "exit status 1" "exit status 1") ∧
    (inventoryFailedOrBlank (.error "exit status 1") = true ∧
      currentYieldsNoProject ⟨"", some "exit status 1"⟩ = true) ∧
    (∃ projects, ListProjects (.error "exit status 1") ⟨"cur\n", none⟩ = .ok projects ∧
      projects ≠ [] ∧
      (inventoryFailedOrBlank (.error "exit status 1") = true →
        projects = [stringsTrimSpace "cur\n"])) ∧
    ((["alpha", "beta"] : List String) ≠ [] ∧
      (inventoryFailedOrBlank (.ok "alpha\nbeta\n") = true →
        ["alpha", "beta"] = [stringsTrimSpace "cur\n"])) :=
  ⟨rfl,
   (listProjects_fails_only_without_any_project (.error "exit status 1")
     ⟨"", some "exit status 1"⟩).1 _ rfl,
   (listProjects_fails_only_without_any_project (.error "exit status 1")
     ⟨"cur\n", none⟩).2.1 (by decide),
   (listProjects_fails_only_without_any_project (.ok "alpha\nbeta\n")
     ⟨"cur\n", none⟩).2.2.1 ["alpha", "beta"] rfl⟩

/-- C25. For both backends: when the status queries of a wait were answered without
DONE until one returns an error, the wait returns at that query with the
status-query failure carrying the backend error, which is neither success nor the
timeout error; the calls of the wait are the queries answered before and the failed
one, which is the last.  The same per iteration of the loops: a query that fails
returns so, with that one query added to the calls. -/
theorem wait_fails_at_first_query_error {σ : Type} (nm : NetworkManager σ) :
    (∀ (project operationName : String) (timeout : Nat) (w : World σ) (e' : Nat)
        (w' : World σ) (err : String) (latency : Nat) (s' : σ),
      SQLPolls nm project operationName timeout 0 w e' w' →
      selectTimer nm timeout e' = true →
      nm.sqlService.OperationsGet project operationName w'.backend
        = ((.error err, latency), s') →
      waitForSQLOperation nm project operationName timeout w
        = some (.error (.operationStatus err),
            ⟨s', w'.calls ++ [Call.sqlOperationsGet project operationName]⟩) ∧
      ∃ k, w'.calls ++ [Call.sqlOperationsGet project operationName]
        = w.calls ++ List.replicate (k + 1) (Call.sqlOperationsGet project operationName)) ∧
    (∀ (project location operationName : String) (timeout : Nat) (w : World σ) (e' : Nat)
        (w' : World σ) (err : String) (latency : Nat) (s' : σ),
      GKEPolls nm (operationPath project location operationName) timeout 0 w e' w' →
      selectTimer nm timeout e' = true →
      nm.gkeService.OperationsGet (operationPath project location operationName) w'.backend
        = ((.error err, latency), s') →
      waitForGKEOperation nm project location operationName timeout w
        = some (.error (.operationStatus err),
            ⟨s', w'.calls ++
              [Call.gkeOperationsGet (operationPath project location operationName)]⟩) ∧
      ∃ k, w'.calls ++ [Call.gkeOperationsGet (operationPath project location operationName)]
        = w.calls ++ List.replicate (k + 1)
            (Call.gkeOperationsGet (operationPath project location operationName))) ∧
    (∀ err : String,
      (Except.error (GoError.operationStatus err) : Except GoError Unit) ≠ .ok () ∧
      (∀ cause, GoError.operationStatus err ≠ GoError.operationTimeout cause) ∧
      (GoError.operationStatus err).Error = "failed to get operation status: " ++ err) ∧
    (∀ (project operationName : String) (timeout fuel elapsed : Nat) (w : World σ)
        (err : String) (latency : Nat) (s' : σ),
      selectTimer nm timeout elapsed = true →
      nm.sqlService.OperationsGet project operationName w.backend
        = ((.error err, latency), s') →
      waitForSQLOperationLoop nm project operationName timeout (fuel + 1) elapsed w
        = some (.error (.operationStatus err),
            ⟨s', w.calls ++ [Call.sqlOperationsGet project operationName]⟩)) ∧
    (∀ (opName : String) (timeout fuel elapsed : Nat) (w : World σ)
        (err : String) (latency : Nat) (s' : σ),
      selectTimer nm timeout elapsed = true →
      nm.gkeService.OperationsGet opName w.backend = ((.error err, latency), s') →
      waitForGKEOperationLoop nm opName timeout (fuel + 1) elapsed w
        = some (.error (.operationStatus err),
            ⟨s', w.calls ++ [Call.gkeOperationsGet opName]⟩)) := by
  refine ⟨?_, ?_, ?_, ?_, ?_⟩
  · intro project operationName timeout w e' w' err latency s' hrun hsel hq
    refine ⟨waitForSQLOperation_error_after_polls nm project operationName timeout w e' w'
      err latency s' hrun hsel hq, ?_⟩
    obtain ⟨k, hk⟩ := SQLPolls_calls nm project operationName timeout 0 w e' w' hrun
    refine ⟨k, ?_⟩
    rw [hk, List.replicate_succ', List.append_assoc]
  · intro project location operationName timeout w e' w' err latency s' hrun hsel hq
    refine ⟨waitForGKEOperation_error_after_polls nm project location operationName timeout w
      e' w' err latency s' hrun hsel hq, ?_⟩
    obtain ⟨k, hk⟩ := GKEPolls_calls nm _ timeout 0 w e' w' hrun
    refine ⟨k, ?_⟩
    rw [hk, List.replicate_succ', List.append_assoc]
  · intro err
    exact ⟨fun h => (by cases h), fun cause h => (by cases h), rfl⟩
  · intro project operationName timeout fuel elapsed w err latency s' hsel hq
    exact waitForSQLOperationLoop_query_error nm project operationName timeout fuel elapsed w
      err latency s' hsel hq
  · intro opName timeout fuel elapsed w err latency s' hsel hq
    exact waitForGKEOperationLoop_query_error nm opName timeout fuel elapsed w
      err latency s' hsel hq

/-- C25 on the backend whose second status query fails, and per iteration on the
backend whose first one does. -/
theorem wait_fails_at_first_query_error_witness :
    waitForSQLOperation (failingStatusManager 1) "p1" "op-sql" (30 * Second) ⟨0, []⟩
      = some (.error (.operationStatus "unavailable"),
          ⟨2, [Call.sqlOperationsGet "p1" "op-sql"] ++ [Call.sqlOperationsGet "p1" "op-sql"]⟩) ∧
    waitForGKEOperation (failingStatusManager 1) "p1" "z" "op-gke" (30 * Second) ⟨0, []⟩
      = some (.error (.operationStatus "unavailable"),
          ⟨2, [Call.gkeOperationsGet (operationPath "p1" "z" "op-gke")] ++
            [Call.gkeOperationsGet (operationPath "p1" "z" "op-gke")]⟩) ∧
    waitForSQLOperationLoop (failingStatusManager 0) "p1" "op-sql" (30 * Second) (6 + 1) 0
        ⟨0, []⟩
      = some (.error (.operationStatus "unavailable"),
          ⟨1, [] ++ [Call.sqlOperationsGet "p1" "op-sql"]⟩) ∧
    waitForGKEOperationLoop (failingStatusManager 0) "op" (30 * Second) (6 + 1) 0 ⟨0, []⟩
      = some (.error (.operationStatus "unavailable"),
          ⟨1, [] ++ [Call.gkeOperationsGet "op"]⟩) :=
  ⟨((wait_fails_at_first_query_error (failingStatusManager 1)).1
      "p1" "op-sql" (30 * Second) ⟨0, []⟩ (0 + pollInterval + Second)
      ⟨1, [Call.sqlOperationsGet "p1" "op-sql"]⟩ "unavailable" Second 2
      (SQLPolls.poll 0 ⟨0, []⟩ ⟨"op-sql", "RUNNING", none⟩ Second 1 _ _ (by decide) rfl
        (by decide) (SQLPolls.here _ _))
      (by decide) rfl).1,
   ((wait_fails_at_first_query_error (failingStatusManager 1)).2.1
      "p1" "z" "op-gke" (30 * Second) ⟨0, []⟩ (0 + pollInterval + Second)
      ⟨1, [Call.gkeOperationsGet (operationPath "p1" "z" "op-gke")]⟩ "unavailable" Second 2
      (GKEPolls.poll 0 ⟨0, []⟩ ⟨"op-gke", "RUNNING", none⟩ Second 1 _ _ (by decide) rfl
        (by decide) (GKEPolls.here _ _))
      (by decide) rfl).1,
   (wait_fails_at_first_query_error (failingStatusManager 0)).2.2.2.1
      "p1" "op-sql" (30 * Second) 6 0 ⟨0, []⟩ "unavailable" Second 1 (by decide) rfl,
   (wait_fails_at_first_query_error (failingStatusManager 0)).2.2.2.2
      "op" (30 * Second) 6 0 ⟨0, []⟩ "unavailable" Second 1 (by decide) rfl⟩

/-- C24. Whenever project discovery succeeded, `ListAllResources` returns a list and no
error, whatever the fetch tasks reported; what it returns is the same when a failed
result is taken out of the results received, and the same when the error of a failed
result is replaced by another error (also when the resources it carries change); and
under the contract of `sort.Slice`, when every result received is a failed one, it
returns the empty list. -/
theorem listAllResources_discards_failures
    (sortSlice : (CloudResource → CloudResource → Bool) → List CloudResource → List CloudResource)
    (projects : List String) :
    (∀ received, ∃ out, ListAllResources sortSlice (.ok projects) received = .ok out) ∧
    (∀ before failed after, failed.err ≠ none →
      ListAllResources sortSlice (.ok projects) (before ++ failed :: after)
        = ListAllResources sortSlice (.ok projects) (before ++ after)) ∧
    (∀ before failed after other resources, failed.err ≠ none →
      ListAllResources sortSlice (.ok projects)
          (before ++ { failed with err := some other, resources := resources } :: after)
        = ListAllResources sortSlice (.ok projects) (before ++ failed :: after)) ∧
    (SortSliceContract sortSlice →
      ∀ received, (∀ res ∈ received, res.err ≠ none) →
        ListAllResources sortSlice (.ok projects) received = .ok []) := by
  refine ⟨?_, ?_, ?_, ?_⟩
  · intro received
    exact ⟨_, ListAllResources_ok sortSlice projects received⟩
  · intro before failed after hfailed
    rw [ListAllResources_ok, ListAllResources_ok,
      filter_isNone_remove_failed before after failed hfailed]
  · intro before failed after other resources hfailed
    rw [ListAllResources_ok, ListAllResources_ok,
      filter_isNone_remove_failed before after failed hfailed,
      filter_isNone_remove_failed before after _ (by simp)]
  · intro hsort received hall
    rw [ListAllResources_ok, filter_isNone_all_failed received hall]
    have hperm := sortResources_perm sortSlice hsort []
    simpa using hperm

/-- C24 for the project `p1` on a backend that refuses both list calls: the two tasks
fail and the catalog is empty, without error; and a failed result between two
successful ones changes nothing. -/
theorem listAllResources_discards_failures_witness :
    SortSliceContract (insertionSortSlice : (CloudResource → CloudResource → Bool) →
      List CloudResource → List CloudResource) ∧
    (runTask deniedListManager (.sqlInstances "p1") emptyWorld).1.err
      = some (.listSQLInstances "p1" "denied") ∧
    (runTask deniedListManager (.gkeClusters "p1") emptyWorld).1.err
      = some (.listGKEClusters "p1" "denied") ∧
    ListAllResources insertionSortSlice (.ok ["p1"])
        [(runTask deniedListManager (.sqlInstances "p1") emptyWorld).1,
          (runTask deniedListManager (.gkeClusters "p1") emptyWorld).1]
      = .ok [] ∧
    ListAllResources insertionSortSlice (.ok ["p1", "p2"])
        ([okResult [.sql (sampleSQL "db1" true)]] ++ failedResult [twinEast] ::
          [okResult [.gke (sampleGKE "c1" "z")]])
      = ListAllResources insertionSortSlice (.ok ["p1", "p2"])
        ([okResult [.sql (sampleSQL "db1" true)]] ++ [okResult [.gke (sampleGKE "c1" "z")]]) :=
  ⟨insertionSortSlice_contract, rfl, rfl,
    (listAllResources_discards_failures insertionSortSlice ["p1"]).2.2.2
      insertionSortSlice_contract _ (by decide),
    (listAllResources_discards_failures insertionSortSlice ["p1", "p2"]).2.1
      [okResult [.sql (sampleSQL "db1" true)]] (failedResult [twinEast])
      [okResult [.gke (sampleGKE "c1" "z")]] (by decide)⟩

/-- C23, as stated, fails: for one project two fetch tasks are started, so that
`min(20, taskCount)` is 2, and the capacity of the semaphore is 1. -/
theorem semaphore_capacity_differs_from_task_bound :
    (scheduledTasks ["p1"]).length = 2 ∧
    maxConcurrent ["p1"] = 1 ∧
    maxConcurrent ["p1"] ≠ min 20 (scheduledTasks ["p1"]).length := by
  decide

/-- C23, amended. For `N` projects, `2N` fetch tasks are started and the capacity of
the semaphore is `min(20, N)`; it is `min(20, taskCount)` exactly when there is no
project or there are at least 20. -/
theorem semaphore_capacity_is_min_of_project_count (projects : List String) :
    (scheduledTasks projects).length = 2 * projects.length ∧
    maxConcurrent projects = min 20 projects.length ∧
    (maxConcurrent projects = min 20 (scheduledTasks projects).length ↔
      projects.length = 0 ∨ 20 ≤ projects.length) := by
  have hlen : (scheduledTasks projects).length = 2 * projects.length := by
    unfold scheduledTasks
    induction projects with
    | nil => rfl
    | cons p ps ih =>
      rw [List.flatMap_cons, List.length_append, ih]
      simp only [List.length_cons, List.length_nil]
      omega
  have hcap := maxConcurrent_eq_min projects
  refine ⟨hlen, hcap, ?_⟩
  rw [hlen, hcap]
  omega

/-- C23 amended, for three projects: six tasks, capacity 3. -/
theorem semaphore_capacity_is_min_of_project_count_witness :
    (scheduledTasks ["p1", "p2", "p3"]).length = 2 * 3 ∧
    maxConcurrent ["p1", "p2", "p3"] = min 20 3 :=
  ⟨(semaphore_capacity_is_min_of_project_count ["p1", "p2", "p3"]).1,
    (semaphore_capacity_is_min_of_project_count ["p1", "p2", "p3"]).2.1⟩

/-- C27. For every instance record and project, the list conversion and the detail
conversion of the record set `PublicIPEnabled` by the same rule (the flag
`Ipv4Enabled` when an IP configuration is present, otherwise whether some listed
address is of type PRIMARY), and yield the same instance: the detail of a record is
the entry the list holds for that record.  A record with a PRIMARY address and
`Ipv4Enabled = false` becomes an instance with `CanAddNetwork() = false`. -/
theorem list_and_detail_conversions_agree {σ : Type} (nm : NetworkManager σ)
    (project : String) (inst : DatabaseInstance) :
    (∃ s, listedSQLInstance project inst = .sql s ∧
      s.PublicIPEnabled = publicIPEnabledRule inst) ∧
    (∀ (instanceName : String) (w : World σ) (s' : σ),
      nm.sqlService.InstancesGet project instanceName w.backend = (.ok inst, s') →
      ∃ s, (getSQLInstanceDetails nm project instanceName w).1 = .ok (.sql s) ∧
        s.PublicIPEnabled = publicIPEnabledRule inst ∧
        CloudResource.sql s = listedSQLInstance project inst) ∧
    (∀ (instanceName : String) (w v : World σ) (items : List DatabaseInstance) (s1 s2 : σ),
      nm.sqlService.InstancesGet project instanceName w.backend = (.ok inst, s1) →
      nm.sqlService.InstancesList project v.backend = (.ok items, s2) →
      inst ∈ items →
      ∃ detail listed,
        (getSQLInstanceDetails nm project instanceName w).1 = .ok detail ∧
        (listSQLInstancesInProject nm project v).1 = .ok listed ∧
        listed = items.map (listedSQLInstance project) ∧
        detail = listedSQLInstance project inst ∧
        detail ∈ listed) ∧
    ((∃ ip ∈ inst.IpAddresses, ip.Typ = "PRIMARY") →
      (∃ settings c, inst.Settings = some settings ∧ settings.IpConfiguration = some c ∧
        c.Ipv4Enabled = false) →
      (listedSQLInstance project inst).CanAddNetwork = false) := by
  obtain ⟨s, hs, hpub, _, _⟩ := listedSQLInstance_publicIP project inst
  refine ⟨⟨s, hs, hpub⟩, ?_, ?_, ?_⟩
  · intro instanceName w s' hget
    refine ⟨s, ?_, hpub, hs.symm⟩
    rw [getSQLInstanceDetails_eq_listed nm project instanceName w inst s' hget, hs]
  · intro instanceName w v items s1 s2 hget hlist hmem
    refine ⟨listedSQLInstance project inst, items.map (listedSQLInstance project), ?_, ?_,
      rfl, rfl, List.mem_map_of_mem _ hmem⟩
    · rw [getSQLInstanceDetails_eq_listed nm project instanceName w inst s1 hget]
    · rw [listSQLInstancesInProject_ok nm project v items s2 hlist]
  · intro _ hshut
    obtain ⟨settings, c, hS, hC, hE⟩ := hshut
    rw [hs]
    show s.PublicIPEnabled = false
    rw [hpub]
    simp [publicIPEnabledRule, hS, hC, hE]

/-- C27 on the record of `db2`, which has a PRIMARY address and `Ipv4Enabled = false`:
the detail and the list show the same instance, to which no network can be added. -/
theorem list_and_detail_conversions_agree_witness :
    (getSQLInstanceDetails memManager "p1" "db2" shutWorld).1 = .ok (.sql shutDetail) ∧
    (listSQLInstancesInProject memManager "p1" shutWorld).1 = .ok [.sql shutDetail] ∧
    listedSQLInstance "p1" shutInstance = .sql shutDetail ∧
    (∃ ip ∈ shutInstance.IpAddresses, ip.Typ = "PRIMARY") ∧
    (listedSQLInstance "p1" shutInstance).CanAddNetwork = false ∧
    (∃ detail listed,
      (getSQLInstanceDetails memManager "p1" "db2" shutWorld).1 = .ok detail ∧
      (listSQLInstancesInProject memManager "p1" shutWorld).1 = .ok listed ∧
      listed = [shutInstance].map (listedSQLInstance "p1") ∧
      detail = listedSQLInstance "p1" shutInstance ∧
      detail ∈ listed) :=
  ⟨rfl, rfl, rfl, ⟨⟨"PRIMARY", "203.0.113.9"⟩, by decide, rfl⟩,
    (list_and_detail_conversions_agree memManager "p1" shutInstance).2.2.2
      ⟨⟨"PRIMARY", "203.0.113.9"⟩, by decide, rfl⟩
      ⟨⟨some ⟨false, [homeEntry]⟩⟩, ⟨false, [homeEntry]⟩, rfl, rfl, rfl⟩,
    (list_and_detail_conversions_agree memManager "p1" shutInstance).2.2.1
      "db2" shutWorld shutWorld [shutInstance] shutWorld.backend shutWorld.backend rfl rfl
      (by decide)⟩

/-- C26. There is a cluster state, with the master authorized networks configuration
present, `Enabled = false` and a block of value `V`, in which the detail fetch returns
the cluster with an empty network list while adding a network with raw value `V` fails
as a duplicate.  This is so in every such state: the duplicate scan reads the stored
blocks whatever the flag `Enabled`, and the list and the detail conversions report a
block only when the configuration is present with `Enabled = true`. -/
theorem disabled_blocks_hidden_but_scanned {σ : Type} (nm : NetworkManager σ) :
    (∃ (w : World MemBackend) (cluster : Cluster) (config : MasterAuthorizedNetworksConfig)
        (block : CidrBlock),
      (gkeClustersGet memManager (clusterPath "p1" "z" "c1") w).1 = .ok cluster ∧
      cluster.MasterAuthorizedNetworksConfig = some config ∧
      config.Enabled = false ∧ block ∈ config.CidrBlocks ∧
      (∃ g, (getGKEClusterDetails memManager "p1" "z" "c1" w).1 = .ok (.gke g) ∧
        g.MasterAuthorizedNetworks = []) ∧
      ∃ w', addNetworkToGKECluster memManager "p1" "z" "c1" "office" block.CidrBlock w
          = some (.error (.networkExistsOtherName block.CidrBlock block.DisplayName), w')) ∧
    (∀ (project location clusterName networkName networkIP normalizedIP : String)
        (w : World σ) (cluster : Cluster) (s' : σ) (config : MasterAuthorizedNetworksConfig)
        (block : CidrBlock),
      nm.gkeService.ClustersGet (clusterPath project location clusterName) w.backend
        = (.ok cluster, s') →
      cluster.MasterAuthorizedNetworksConfig = some config →
      config.Enabled = false →
      normalizeIP networkIP = .ok normalizedIP →
      block ∈ config.CidrBlocks →
      block.CidrBlock = normalizedIP →
      (∃ g, (getGKEClusterDetails nm project location clusterName w).1 = .ok (.gke g) ∧
        g.MasterAuthorizedNetworks = []) ∧
      (∃ g, listedGKECluster project cluster = .gke g ∧ g.MasterAuthorizedNetworks = []) ∧
      (∃ existing ∈ config.CidrBlocks, existing.CidrBlock = normalizedIP ∧
        addNetworkToGKECluster nm project location clusterName networkName networkIP w
          = some (.error (if existing.DisplayName = networkName
              then GoError.networkExistsSameName normalizedIP networkName
              else GoError.networkExistsOtherName normalizedIP existing.DisplayName),
            ⟨s', w.calls ++ [Call.gkeClustersGet (clusterPath project location clusterName)]⟩))) ∧
    (∀ (project : String) (cluster : Cluster) (g : GKECluster),
      listedGKECluster project cluster = .gke g →
      ∀ n ∈ g.MasterAuthorizedNetworks,
        ∃ c, cluster.MasterAuthorizedNetworksConfig = some c ∧ c.Enabled = true ∧
          ∃ b ∈ c.CidrBlocks, n = cidrBlockToNetwork b) ∧
    (∀ (project location clusterName : String) (w : World σ) (cluster : Cluster) (s' : σ)
        (g : GKECluster),
      nm.gkeService.ClustersGet (clusterPath project location clusterName) w.backend
        = (.ok cluster, s') →
      (getGKEClusterDetails nm project location clusterName w).1 = .ok (.gke g) →
      ∀ n ∈ g.MasterAuthorizedNetworks,
        ∃ c, cluster.MasterAuthorizedNetworksConfig = some c ∧ c.Enabled = true ∧
          ∃ b ∈ c.CidrBlocks, n = cidrBlockToNetwork b) := by
  refine ⟨?_, ?_, ?_, ?_⟩
  · exact ⟨disabledWorld, disabledCluster, ⟨false, [homeBlock]⟩, homeBlock, rfl, rfl, rfl,
      by decide, ⟨disabledDetail, rfl, rfl⟩, ⟨_, rfl⟩⟩
  · intro project location clusterName networkName networkIP normalizedIP w cluster s' config
      block hget hconfig hdisabled hnorm hblock hvalue
    obtain ⟨g, hg, hnets⟩ := getGKEClusterDetails_networks nm project location clusterName w
      cluster s' hget
    obtain ⟨g', hg', hnets', _, _⟩ := listedGKECluster_networks project cluster
    rw [hconfig] at hnets hnets'
    simp only [hdisabled] at hnets hnets'
    refine ⟨⟨g, hg, by simpa using hnets⟩, ⟨g', hg', by simpa using hnets'⟩, ?_⟩
    have hfetched : (fetchedMasterConfig cluster).CidrBlocks = config.CidrBlocks := by
      simp [fetchedMasterConfig, hconfig]
    obtain ⟨existing, hmem, hp, hfind⟩ := find?_isSome_of_exists
      (fun network : CidrBlock => network.CidrBlock == normalizedIP) config.CidrBlocks
      ⟨block, hblock, by simp [hvalue]⟩
    refine ⟨existing, hmem, by simpa using hp, ?_⟩
    exact addNetworkToGKECluster_duplicate nm project location clusterName networkName
      networkIP normalizedIP w cluster s' existing hnorm hget (by rw [hfetched]; exact hfind)
  · intro project cluster g hg n hn
    obtain ⟨g', hg', hnets', _, _⟩ := listedGKECluster_networks project cluster
    rw [hg] at hg'
    cases hg'
    rw [hnets'] at hn
    exact reported_blocks_enabled _ n hn
  · intro project location clusterName w cluster s' g hget hg n hn
    obtain ⟨g', hg', hnets'⟩ := getGKEClusterDetails_networks nm project location clusterName w
      cluster s' hget
    rw [hg] at hg'
    cases hg'
    rw [hnets'] at hn
    exact reported_blocks_enabled _ n hn

/-- C26 on cluster `c1`, whose configuration is not enabled and holds the block `home`:
the detail and the list show no network, and adding `office` at the value of `home`
fails as a duplicate after the one get. -/
theorem disabled_blocks_hidden_but_scanned_witness :
    (getGKEClusterDetails memManager "p1" "z" "c1" disabledWorld).1
      = .ok (.gke disabledDetail) ∧
    disabledDetail.MasterAuthorizedNetworks = [] ∧
    listedGKECluster "p1" disabledCluster = .gke disabledDetail ∧
    (∃ existing ∈ [homeBlock], existing.CidrBlock = "198.51.100.7/32" ∧
      addNetworkToGKECluster memManager "p1" "z" "c1" "office" "198.51.100.7" disabledWorld
        = some (.error (if existing.DisplayName = "office"
            then GoError.networkExistsSameName "198.51.100.7/32" "office"
            else GoError.networkExistsOtherName "198.51.100.7/32" existing.DisplayName),
          ⟨disabledWorld.backend,
            disabledWorld.calls ++ [Call.gkeClustersGet (clusterPath "p1" "z" "c1")]⟩)) :=
  ⟨rfl, rfl, rfl,
    ((disabled_blocks_hidden_but_scanned memManager).2.1 "p1" "z" "c1" "office"
      "198.51.100.7" "198.51.100.7/32" disabledWorld disabledCluster disabledWorld.backend
      ⟨false, [homeBlock]⟩ homeBlock rfl rfl rfl rfl (by decide) rfl).2.2⟩

/-- C22, as stated, fails: project `p1` holds two clusters `api`, one in zone
`us-east1-b` and one in zone `europe-west1-c`; the cluster task lists both, and the
catalog holds two different entries of type GKE, project `p1` and name `api`. -/
theorem snapshot_holds_one_key_twice :
    ListAllResources insertionSortSlice (ListProjects (.ok "p1") ⟨"", none⟩)
        [(runTask memManager (.sqlInstances "p1") twinWorld).1,
          (runTask memManager (.gkeClusters "p1")
            (runTask memManager (.sqlInstances "p1") twinWorld).2).1]
      = .ok [twinEast, twinWest] ∧
    twinEast ≠ twinWest ∧
    resourceKey twinEast = resourceKey twinWest ∧
    ¬ ([twinEast, twinWest].map resourceKey).Nodup :=
  ⟨rfl, by decide, rfl, by decide⟩

/-- C22, amended. When the reply each fetch task received lists no name twice, the
catalog `ListAllResources` returns for the projects of `ListProjects` holds no two
entries of the same type, project and name: the keys at different positions differ,
and two entries of the same key are the same entry.  The tasks are the two of each
project, run in any order and each in any state of the backend. -/
theorem snapshot_keys_distinct_when_names_are {σ : Type}
    (sortSlice : (CloudResource → CloudResource → Bool) → List CloudResource → List CloudResource)
    (hsort : SortSliceContract sortSlice) (nm : NetworkManager σ)
    (list : Except String String) (current : CommandOutput) (projects : List String)
    (hprojects : ListProjects list current = .ok projects)
    (runs : List (FetchTask × World σ))
    (hruns : (runs.map Prod.fst).Perm (scheduledTasks projects))
    (hdistinct : ∀ run ∈ runs, replyNamesDistinct nm run.1 run.2 = true) :
    ∃ snapshot,
      ListAllResources sortSlice (ListProjects list current)
        (runs.map (fun run => (runTask nm run.1 run.2).1)) = .ok snapshot ∧
      (snapshot.map resourceKey).Nodup ∧
      (∀ a ∈ snapshot, ∀ b ∈ snapshot, resourceKey a = resourceKey b → a = b) := by
  have htasks : (runs.map Prod.fst).Nodup :=
    hruns.nodup_iff.mpr (scheduledTasks_nodup projects (ListProjects_nodup list current _ hprojects))
  have hkeys := (collectedKeys_nodup nm runs hdistinct htasks).1
  have hperm := sortResources_perm sortSlice hsort
    ((runs.map (fun run => (runTask nm run.1 run.2).1)).foldl collectResult ([], [])).1
  have hnodup : ((sortResources sortSlice
      ((runs.map (fun run => (runTask nm run.1 run.2).1)).foldl collectResult ([], [])).1).map
        resourceKey).Nodup :=
    (hperm.map resourceKey).nodup_iff.mpr hkeys
  refine ⟨_, by rw [hprojects]; rfl, hnodup, ?_⟩
  intro a ha b hb hab
  exact List.inj_on_of_nodup_map hnodup ha hb hab

/-- C22 amended, on project `p1` holding the instance `db1` and the clusters `api` and
`web`, with insertion sort: the catalog lists the three under three keys. -/
theorem snapshot_keys_distinct_when_names_are_witness :
    SortSliceContract (insertionSortSlice : (CloudResource → CloudResource → Bool) →
      List CloudResource → List CloudResource) ∧
    ListProjects (.ok "p1") ⟨"", none⟩ = .ok ["p1"] ∧
    ([(FetchTask.gkeClusters "p1", catalogWorld),
        (FetchTask.sqlInstances "p1", catalogWorld)].map Prod.fst).Perm (scheduledTasks ["p1"]) ∧
    ListAllResources insertionSortSlice (ListProjects (.ok "p1") ⟨"", none⟩)
        ([(FetchTask.gkeClusters "p1", catalogWorld),
          (FetchTask.sqlInstances "p1", catalogWorld)].map
            (fun run => (runTask memManager run.1 run.2).1))
      = .ok [.gke (sampleGKE "api" "us-east1-b"), .gke (sampleGKE "web" "europe-west1-c"),
          listedSQLInstance "p1" (plainRegional "db1" "us-east1")] ∧
    ∃ snapshot,
      ListAllResources insertionSortSlice (ListProjects (.ok "p1") ⟨"", none⟩)
        ([(FetchTask.gkeClusters "p1", catalogWorld),
          (FetchTask.sqlInstances "p1", catalogWorld)].map
            (fun run => (runTask memManager run.1 run.2).1)) = .ok snapshot ∧
      (snapshot.map resourceKey).Nodup ∧
      (∀ a ∈ snapshot, ∀ b ∈ snapshot, resourceKey a = resourceKey b → a = b) :=
  ⟨insertionSortSlice_contract, rfl, List.Perm.swap _ _ _, rfl,
    snapshot_keys_distinct_when_names_are insertionSortSlice insertionSortSlice_contract
      memManager (.ok "p1") ⟨"", none⟩ ["p1"] rfl
      [(FetchTask.gkeClusters "p1", catalogWorld), (FetchTask.sqlInstances "p1", catalogWorld)]
      (List.Perm.swap _ _ _)
      (by
        intro run hrun
        rcases List.mem_cons.mp hrun with h | h
        · rw [h]; rfl
        · rw [List.mem_singleton.mp h]; rfl)⟩

/-- C21. `Update` writes the selected resource only in the case `resourceSelectedMsg`:
for every model and every message of another kind, the selected resource of the model
it returns, and so the network list shown for it, is that of the model before; for a
`resourceSelectedMsg` it is the resource of the message.  `Update` returns for every
model and message but the key `a` in the network view of a model whose selected
resource is nil.  In particular a `networkAddedMsg` with `success = false` and an
`errorMsg` are handled, put their text in `message`, raise `isError`, and leave the
selected resource as it was. -/
theorem update_writes_snapshot_only_on_selected {S L T X C : Type}
    (rt : Runtime S L T X C) (m : Model S L T) :
    (∀ msg : Msg X,
      (Model.Update rt m msg : Option (Model S L T × Cmd C)) = none ↔
        msg = Msg.KeyMsg "a" ∧ m.state = .stateNetworkView ∧ m.selectedResource = none) ∧
    (∀ (msg : Msg X) (m1 : Model S L T) (cmd : Cmd C),
      (∀ resource, msg ≠ Msg.resourceSelectedMsg resource) →
      Model.Update rt m msg = some (m1, cmd) →
      m1.selectedResource = m.selectedResource ∧
      shownNetworks m1.selectedResource = shownNetworks m.selectedResource) ∧
    (∀ resource, ∃ (m1 : Model S L T) (cmd : Cmd C),
      Model.Update rt m (Msg.resourceSelectedMsg resource) = some (m1, cmd) ∧
      m1.selectedResource = resource) ∧
    (∀ message, ∃ (m1 : Model S L T) (cmd : Cmd C),
      Model.Update rt m (Msg.networkAddedMsg false message) = some (m1, cmd) ∧
      m1.selectedResource = m.selectedResource ∧
      shownNetworks m1.selectedResource = shownNetworks m.selectedResource ∧
      m1.message = message ∧ m1.isError = true ∧ m1.state = m.state) ∧
    (∀ err, ∃ (m1 : Model S L T) (cmd : Cmd C),
      Model.Update rt m (Msg.errorMsg err) = some (m1, cmd) ∧
      m1.selectedResource = m.selectedResource ∧
      shownNetworks m1.selectedResource = shownNetworks m.selectedResource ∧
      m1.message = err ∧ m1.isError = true) := by
  refine ⟨fun msg => Update_eq_none_iff rt m msg, ?_, ?_, ?_, ?_⟩
  · intro msg m1 cmd hmsg h
    have hsel := Update_selectedResource rt m m1 msg cmd hmsg h
    exact ⟨hsel, by rw [hsel]⟩
  · intro resource
    exact ⟨_, _, rfl, rfl⟩
  · intro message
    refine ⟨_, _, rfl, ?_⟩
    obtain ⟨h1, h2, h3⟩ := updateComponents_status rt
      { m with isSubmitting := false, message := message, isError := true }
      (Msg.networkAddedMsg false message)
    have hsel := updateComponents_selectedResource rt
      { m with isSubmitting := false, message := message, isError := true }
      (Msg.networkAddedMsg false message)
    exact ⟨hsel, congrArg shownNetworks hsel, h1, h2, h3⟩
  · intro err
    refine ⟨_, _, rfl, ?_⟩
    obtain ⟨h1, h2, _⟩ := updateComponents_status rt
      { m with
        message := err, isError := true, isSubmitting := false,
        state := if m.state ≠ .stateAddNetwork then .stateError else m.state }
      (Msg.errorMsg err)
    have hsel := updateComponents_selectedResource rt
      { m with
        message := err, isError := true, isSubmitting := false,
        state := if m.state ≠ .stateAddNetwork then .stateError else m.state }
      (Msg.errorMsg err)
    exact ⟨hsel, congrArg shownNetworks hsel, h1, h2⟩

/-- C21 on the model submitting the form for `db1`: after the message of a failed add,
and after the key `esc`, the model still holds `db1` with its entry `home`. -/
theorem update_writes_snapshot_only_on_selected_witness :
    (∀ resource, (Msg.networkAddedMsg false "Failed to add network: denied" : Msg Unit)
      ≠ Msg.resourceSelectedMsg resource) ∧
    (∃ m1 cmd,
      Model.Update plainRuntime submittingModel
        (Msg.networkAddedMsg false "Failed to add network: denied") = some (m1, cmd) ∧
      m1.selectedResource = some (.sql homeDetail) ∧
      shownNetworks m1.selectedResource = [aclEntryToNetwork homeEntry] ∧
      m1.message = "Failed to add network: denied") ∧
    (∃ m1 cmd,
      Model.Update plainRuntime submittingModel (Msg.KeyMsg "esc") = some (m1, cmd) ∧
      m1.state = .stateResourceSelection ∧
      m1.selectedResource = submittingModel.selectedResource ∧
      shownNetworks m1.selectedResource = shownNetworks submittingModel.selectedResource) :=
  ⟨fun _ h => (by cases h),
    ⟨_, _, rfl,
      ((update_writes_snapshot_only_on_selected plainRuntime submittingModel).2.1
        (Msg.networkAddedMsg false "Failed to add network: denied") _ _
        (fun _ h => (by cases h)) rfl).1,
      rfl, rfl⟩,
    ⟨_, _, rfl, rfl,
      (update_writes_snapshot_only_on_selected plainRuntime submittingModel).2.1
        (Msg.KeyMsg "esc") _ _ (fun _ h => (by cases h)) rfl⟩⟩

end PiamAnc
